import Mathlib

/-!
Verification of letsgo-nats: configuration resolution and certificate renewal.

A shallow embedding of the Go packages `configuration`, `stores` and `acme`
of `quara-dev/letsgo-nats`, followed by theorems about them.

Conventions of the embedding

* A Go `error` is an `Option String`: `none` is `nil`, `some msg` is an error
  whose `Error()` text is `msg`.
* A Go function returning `(string, error)` returns a pair.
* Collaborators reached through an interface or an external library (secret
  stores, the filesystem, the clock, the PEM parser, the lego ACME client) are
  explicit arguments; every call made to them is recorded in the result, so
  that "is not consulted" and "writes no file" are statements about the code.
* A `float64` is a sign, a mantissa and an exponent. Conversions, sums and
  quotients give the nearest `float64`, the even one of two when halfway, as
  IEEE 754 does; `time.Duration.Hours` is computed with them.
* `os.WriteFile` opens with truncation, writes and closes. Each of the three
  steps can fail; a file that is created gets the permission asked for less
  the bits of the umask, a file that exists keeps its mode.
-/

namespace LetsgoNats

/-- Go `error`: `none` is `nil`, `some msg` carries the text of `Error()`. -/
abbrev GoError := Option String

/-- Go `strings.HasPrefix s p`. -/
def HasPrefix (s p : String) : Bool := p.data.isPrefixOf s.data

/-! ## package constants -/

namespace constants

def DNS_AUTH_TOKEN : String := "DNS_AUTH_TOKEN"
def DNS_AUTH_TOKEN_FILE : String := "DNS_AUTH_TOKEN_FILE"
def DNS_AUTH_TOKEN_VAULT : String := "DNS_AUTH_TOKEN_VAULT"
def DNS_AUTH_TOKEN_SECRET : String := "DNS_AUTH_TOKEN_SECRET"
def DEFAULT_DNS_AUTH_TOKEN_SECRET : String := "do-auth-token"

end constants

/-! ## package stores -/

/-- One call made to a secret store. -/
inductive StoreCall where
  | fileGetToken (path : String)
  | keyvaultGetToken (uri secret : String)
  deriving DecidableEq, Repr

/-- The `Stores` struct: one `FileStoreProtocol` and one `KeyvaultStoreProtocol`
value, each given by what its `GetToken` method returns. -/
structure Stores where
  Files : String → String × GoError
  Keyvault : String → String → String × GoError

/-- The stores built by `TestStores(token)`: both mocks return `token` and no error. -/
def TestStores (token : String) : Stores where
  Files := fun _ => (token, none)
  Keyvault := fun _ _ => (token, none)

/-! ## package configuration -/

/-- The struct `RawUserConfig`: one string per recognised option. -/
structure RawUserConfig where
  AccountEmail : String
  AccountKeyFile : String
  TOSAgreed : String
  CADir : String
  KeyType : String
  Domains : String
  Filename : String
  OutputDirectory : String
  DisableCP : String
  DNSTimeout : String
  DNSResolver : String
  DNSAuthToken : String
  DNSAuthTokenFile : String
  DNSAuthTokenVault : String
  DNSAuthTokenSecret : String
  WebRoot : String
  WebEnabled : String

/-- What a run of `getDNSAuthToken` yields: the two Go results and the calls
made to the stores, in order. -/
structure TokenRun where
  token : String
  err : GoError
  calls : List StoreCall
  deriving DecidableEq, Repr

/-- Method `(c *RawUserConfig) getDNSAuthTokenVaultURI`. -/
def RawUserConfig.getDNSAuthTokenVaultURI (c : RawUserConfig) : String × GoError :=
  if c.DNSAuthTokenVault = "" then
    ("", some ("Invalid Keyvault URI: " ++ c.DNSAuthTokenVault))
  else if HasPrefix c.DNSAuthTokenVault "https://" then
    (c.DNSAuthTokenVault, none)
  else
    ("https://" ++ c.DNSAuthTokenVault ++ ".vault.azure.net/", none)

/-- Method `(c *RawUserConfig) getDNSAuthTokenSecretName`. -/
def RawUserConfig.getDNSAuthTokenSecretName (c : RawUserConfig) : String × GoError :=
  if c.DNSAuthTokenSecret = "" then
    ("", some ("Invalid DNS auth token: " ++ c.DNSAuthTokenSecret))
  else
    (c.DNSAuthTokenSecret, none)

/-- Method `(c *RawUserConfig) getDNSAuthToken(storage)`; the result records the
calls made to the stores. -/
def RawUserConfig.getDNSAuthToken (c : RawUserConfig) (storage : Stores) : TokenRun :=
  -- Check that token is not empty
  if c.DNSAuthToken ≠ "" then
    ⟨c.DNSAuthToken, none, []⟩
  -- Check if token should be fetched from file
  else if c.DNSAuthTokenFile ≠ "" then
    let r := storage.Files c.DNSAuthTokenFile
    ⟨r.1, r.2, [.fileGetToken c.DNSAuthTokenFile]⟩
  -- Check if token should be fetched from vault
  else if c.DNSAuthTokenVault ≠ "" then
    match c.getDNSAuthTokenVaultURI with
    | (_, some err) => ⟨"", some err, []⟩
    | (uri, none) =>
      match c.getDNSAuthTokenSecretName with
      | (_, some err) => ⟨"", some err, []⟩
      | (secret, none) =>
        let r := storage.Keyvault uri secret
        ⟨r.1, r.2, [.keyvaultGetToken uri secret]⟩
  else
    ⟨"", some ("Invalid DNS auth token. Use one of '" ++ constants.DNS_AUTH_TOKEN_VAULT ++ "', '"
      ++ constants.DNS_AUTH_TOKEN_FILE ++ "' or '" ++ constants.DNS_AUTH_TOKEN ++ "' env variable"), []⟩

/-- A raw configuration with every option empty except the secret name, which
has its default: what `NewRawUserConfig` gives for the token options when none
of them is set in the environment. -/
def tokenConfig (token file vault : String) : RawUserConfig where
  AccountEmail := ""
  AccountKeyFile := "./account.key"
  TOSAgreed := "true"
  CADir := "STAGING"
  KeyType := "RSA2048"
  Domains := ""
  Filename := ""
  OutputDirectory := "./"
  DisableCP := "true"
  DNSTimeout := "0"
  DNSResolver := ""
  DNSAuthToken := token
  DNSAuthTokenFile := file
  DNSAuthTokenVault := vault
  DNSAuthTokenSecret := constants.DEFAULT_DNS_AUTH_TOKEN_SECRET
  WebRoot := ""
  WebEnabled := "false"

/-- Stores whose every call fails with the given error. -/
def failingStores (msg : String) : Stores where
  Files := fun _ => ("", some msg)
  Keyvault := fun _ _ => ("", some msg)

/-- The struct `UserConfig`. `Key` stands for the account key material and
`CADirKeyType` for the `certcrypto.KeyType` string. -/
structure UserConfig where
  Email : String
  Key : String
  CADirURL : String
  CADirKeyType : String
  TermsOfServiceAgreed : Bool
  Domains : List String
  Filename : String
  OutputDirectory : String
  AuthToken : String
  DisableCP : Bool
  DNSResolvers : List String
  DNSTimeout : Int
  WebRoot : String
  WebEnabled : Bool

/-! ## floating-point numbers -/

/-- A `float64` value: a finite one is `mant * 2 ^ exp`, negated when `neg` is set. -/
inductive Float64 where
  | finite (neg : Bool) (mant : Nat) (exp : Int)
  | inf (neg : Bool)
  | nan
  deriving DecidableEq, Repr

namespace strconv

/-- The number of halvings that bring `n` below 2, `fuel` of them at most. -/
def log2Aux : Nat → Nat → Nat
  | 0, _ => 0
  | fuel + 1, n => if n < 2 then 0 else log2Aux fuel (n / 2) + 1

/-- The exponent `e` with `2 ^ e ≤ n < 2 ^ (e + 1)`, for positive `n`. -/
def log2 (n : Nat) : Nat := log2Aux n n

/-- The integer nearest to `num / den`, the even one of the two when halfway. -/
def roundQuot (num den : Nat) : Nat :=
  if 2 * (num % den) < den then num / den
  else if den < 2 * (num % den) then num / den + 1
  else if (num / den) % 2 = 0 then num / den
  else num / den + 1

end strconv

/-- The integer part of a finite floating-point value. -/
def Float64.trunc : Float64 → Option Int
  | .finite neg mant exp =>
    let a : Nat := if 0 ≤ exp then mant * 2 ^ exp.toNat else mant / 2 ^ (-exp).toNat
    some (if neg then -(a : Int) else (a : Int))
  | _ => none

/-- The exponent, above -1074, of the `float64` nearest to `p / q`: 52 below
the exponent of the leading bit of the quotient, and 0 for a quotient in the
range of the subnormal numbers. -/
def roundExp (p q : Nat) : Nat := strconv.log2 (p * 2 ^ 1074 / q) - 52

/-- The mantissa of the `float64` nearest to `p / q`: the quotient in units of
`2 ^ (roundExp p q - 1074)`, rounded to the nearest integer, to the even one
when halfway. -/
def roundMant (p q : Nat) : Nat :=
  strconv.roundQuot (p * 2 ^ 1074) (q * 2 ^ roundExp p q)

/-- The `float64` nearest to `p / q`, for a positive `q` (IEEE 754 round to
nearest even, 53 bits of precision, least exponent -1074), with the sign `neg`;
infinite when it exceeds the largest `float64`. The quotient is counted in units
of `2 ^ (-1074)`, the least positive `float64`. -/
def roundFloat64 (neg : Bool) (p q : Nat) : Float64 :=
  if 2 ^ 2098 ≤ roundMant p q * 2 ^ roundExp p q then .inf neg
  else .finite neg (roundMant p q) ((roundExp p q : Int) - 1074)

namespace Float64

/-- The absolute value of a finite value is `numer / denom`. -/
def numer : Float64 → Nat
  | .finite _ mant exp => mant * 2 ^ exp.toNat
  | _ => 0
def denom : Float64 → Nat
  | .finite _ _ exp => 2 ^ (-exp).toNat
  | _ => 1

/-- The sign bit. -/
def sign : Float64 → Bool
  | .finite neg _ _ => neg
  | .inf neg => neg
  | .nan => false

/-- A finite value as a signed numerator over `denom`. -/
def signedNumer (f : Float64) : Int := if f.sign then -(f.numer : Int) else (f.numer : Int)

/-- Go conversion `float64(n)` of an integer. -/
def ofInt (n : Int) : Float64 := roundFloat64 (decide (n < 0)) n.natAbs 1

/-- The sum `a + b` of IEEE 754: the exact sum, rounded. -/
def add (a b : Float64) : Float64 :=
  match a, b with
  | .nan, _ => .nan
  | _, .nan => .nan
  | .inf na, .inf nb => if na = nb then .inf na else .nan
  | .inf na, .finite _ _ _ => .inf na
  | .finite _ _ _, .inf nb => .inf nb
  | .finite na _ _, .finite nb _ _ =>
    let sum : Int := a.signedNumer * b.denom + b.signedNumer * a.denom
    if sum = 0 then .finite (na && nb) 0 0
    else roundFloat64 (decide (sum < 0)) sum.natAbs (a.denom * b.denom)

/-- The quotient `a / b` of IEEE 754: the exact quotient, rounded. -/
def div (a b : Float64) : Float64 :=
  match a, b with
  | .nan, _ => .nan
  | _, .nan => .nan
  | .inf _, .inf _ => .nan
  | .inf na, .finite nb _ _ => .inf (xor na nb)
  | .finite na _ _, .inf nb => .finite (xor na nb) 0 0
  | .finite na ma _, .finite nb mb _ =>
    if mb = 0 then (if ma = 0 then .nan else .inf (xor na nb))
    else roundFloat64 (xor na nb) (a.numer * b.denom) (a.denom * b.numer)

end Float64

/-! ## standard library: time, path/filepath, os -/

namespace time

/-- A `time.Duration` is a signed 64-bit count of nanoseconds. -/
def Second : Int := 1000000000
def Minute : Int := 60 * Second
def Hour : Int := 60 * Minute
def minDuration : Int := -(2 ^ 63)
def maxDuration : Int := 2 ^ 63 - 1

/-- Method `t.Sub(u)` on wall-clock instants counted in nanoseconds: the difference,
saturated to the range of a `Duration`. -/
def Sub (t u : Int) : Int :=
  if t - u < minDuration then minDuration
  else if maxDuration < t - u then maxDuration
  else t - u

/-- Function `time.Until(t)` when the clock reads `now`. -/
def Until (now t : Int) : Int := Sub t now

/-- Method `d.Hours()`:
`hour := d / Hour; nsec := d % Hour; return float64(hour) + float64(nsec)/(60*60*1e9)`,
in `float64` arithmetic. -/
def Hours (d : Int) : Float64 :=
  let hour := Int.tdiv d Hour
  let nsec := Int.tmod d Hour
  (Float64.ofInt hour).add ((Float64.ofInt nsec).div (.finite false (60 * 60 * 1000000000) 0))

end time

/-- Go conversion `int(x)` of a `float64`: the fraction is discarded (truncation
toward zero). A value that has no `int` value (infinite, NaN, out of range) is
given the result of x86-64; the quotient `Hours() / 24.0` of a `Duration` is
never such a value. -/
def goInt (x : Float64) : Int :=
  match x.trunc with
  | some v => if -(2 ^ 63) ≤ v ∧ v < 2 ^ 63 then v else -(2 ^ 63)
  | none => -(2 ^ 63)

namespace filepath

/-- The elements of a path between separators. -/
def splitSep : List Char → List (List Char)
  | [] => [[]]
  | c :: cs =>
    if c = '/' then [] :: splitSep cs
    else
      match splitSep cs with
      | [] => [[c]]
      | e :: es => (c :: e) :: es

/-- The elements written one after the other, a separator between two of them. -/
def joinSep : List (List Char) → List Char
  | [] => []
  | [e] => e
  | e :: e2 :: es => e ++ '/' :: joinSep (e2 :: es)

/-- One round of the loop of `Clean` on the element `e`; `out` holds the
elements written so far, last one first. -/
def cleanElem (rooted : Bool) (out : List (List Char)) (e : List Char) : List (List Char) :=
  if e = [] then out
  else if e = ['.'] then out
  else if e = ['.', '.'] then
    match out with
    | [] => if rooted then [] else [e]
    | top :: rest => if top = ['.', '.'] then e :: out else rest
  else e :: out

/-- Function `filepath.Clean` (Unix) on the characters of a path: drops empty and `.`
elements, resolves inner `..` elements, drops `..` at the root, and turns the
empty result into `.`. -/
def cleanChars (path : List Char) : List Char :=
  if path = [] then ['.']
  else
    let rooted : Bool := path.head? = some '/'
    let out := (splitSep path).foldl (cleanElem rooted) []
    let body := joinSep out.reverse
    if rooted then '/' :: body
    else if body = [] then ['.']
    else body

/-- Function `filepath.Clean` (Unix). -/
def Clean (path : String) : String := String.mk (cleanChars path.data)

/-- Function `filepath.Join(a, b)` (Unix): the elements from the first non-empty one on,
joined by the separator and cleaned; empty when both are empty. -/
def Join (a b : String) : String :=
  if a ≠ "" then Clean (a ++ "/" ++ b)
  else if b ≠ "" then Clean b
  else ""

end filepath

/-- A regular file: its content and its permission bits. -/
structure File where
  data : String
  mode : Nat
  deriving DecidableEq, Repr

/-- How writing a file fails. -/
inductive WriteFault where
  /-- The file cannot be opened for writing (missing directory, directory in the
  way, file owned by somebody else, read-only mount): nothing is touched. -/
  | atOpen (msg : String)
  /-- The file is opened, and so created or emptied, and the write fails after
  `written` bytes (disk full, quota, input/output error). -/
  | atWrite (written : Nat) (msg : String)
  /-- The file is opened and written in full, and closing it fails. -/
  | atClose (msg : String)
  deriving DecidableEq, Repr

/-- The filesystem as the code sees it: the files that exist, the paths at
which writing a file fails, with the way it fails, and the file mode creation
mask of the process. -/
structure FileSystem where
  files : String → Option File
  fault : String → Option WriteFault
  umask : Nat

/-- The paths that cannot be written without error. -/
def FileSystem.denied (fs : FileSystem) (name : String) : Bool := (fs.fault name).isSome

/-- The bit clear operator `a &^ b` of Go. -/
def andNot (a b : Nat) : Nat := a ^^^ (a &&& b)

/-- The files after `name` has been opened with `O_CREATE|O_TRUNC` and mode
`perm`, and `data` has been written to it: a new file gets the mode `perm` less
the bits of the umask, an existing one keeps its mode. -/
def FileSystem.put (fs : FileSystem) (name data : String) (perm : Nat) : FileSystem :=
  { fs with
    files := fun p =>
      if p = name then
        some ⟨data, match fs.files name with
          | some f => f.mode
          | none => andNot perm fs.umask⟩
      else fs.files p }

/-- The content of the file at `path`, if there is one. -/
def FileSystem.content (fs : FileSystem) (path : String) : Option String :=
  (fs.files path).map File.data

namespace os

/-- Function `os.ReadFile(name)`: the content of the file, or an error when
there is no such file. -/
def ReadFile (fs : FileSystem) (name : String) : Except String String :=
  match fs.files name with
  | some f => .ok f.data
  | none => .error ("open " ++ name ++ ": no such file or directory")

/-- Function `os.WriteFile(name, data, perm)`: `OpenFile` with
`O_WRONLY|O_CREATE|O_TRUNC`, then `Write`, then `Close`. When the file cannot be
opened nothing is touched; when the write fails the file is left with the bytes
written so far; when the close fails the file holds the data and the error is
returned all the same. -/
def WriteFile (fs : FileSystem) (name data : String) (perm : Nat) : GoError × FileSystem :=
  match fs.fault name with
  | some (.atOpen msg) => (some ("open " ++ name ++ ": " ++ msg), fs)
  | some (.atWrite written msg) =>
    (some ("write " ++ name ++ ": " ++ msg),
      fs.put name (String.mk (data.data.take written)) perm)
  | some (.atClose msg) => (some ("close " ++ name ++ ": " ++ msg), fs.put name data perm)
  | none => (none, fs.put name data perm)

end os

/-! ## package acme -/

/-- The leaf data of an `x509.Certificate` that the code reads: the CA flag and
`NotAfter`, an instant in nanoseconds. -/
structure Certificate where
  IsCA : Bool
  NotAfter : Int
  deriving DecidableEq, Repr

/-- The `certificate.Resource` of lego: the three PEM blobs that are persisted. -/
structure Resource where
  Domain : String
  PrivateKey : String
  Certificate : String
  IssuerCertificate : String
  deriving DecidableEq, Repr

/-- The lego ACME client and the DigitalOcean DNS provider, as the calls that
`NewClient` and `RequestCertificate` make to them. -/
structure Lego where
  /-- Call `lego.NewClient` for email, key, CA directory URL and key type. -/
  NewClient : String → String → String → String → GoError
  /-- Call `digitalocean.NewDNSProviderConfig` for auth token and propagation timeout. -/
  NewDNSProviderConfig : String → Int → GoError
  /-- Call `client.Challenge.SetDNS01Provider` with the options that are switched on:
  recursive nameservers, no complete propagation requirement, DNS timeout. -/
  SetDNS01Provider : Option (List String) → Bool → Option Int → GoError
  /-- Call `client.Registration.Register` with `TermsOfServiceAgreed`. -/
  Register : Bool → GoError
  /-- Call `client.Certificate.Obtain` for the domains and the bundle flag. -/
  Obtain : List String → Bool → Except String Resource

/-- What the code does not own: the clock, the PEM bundle parser of lego
(`certcrypto.ParsePEMBundle`) and the ACME client. -/
structure Env where
  now : Int
  ParsePEMBundle : String → Except String (List Certificate)
  lego : Lego

/-- What the code acts on: the filesystem, with the number of calls made to
`RequestCertificate` and the paths passed to `os.WriteFile`, in order. -/
structure Sys where
  fs : FileSystem
  requests : Nat
  writes : List String

/-- How a call ends: it returns, or the process exits in `log.Fatal`, or it
panics. -/
inductive Outcome (α : Type) where
  | returned (v : α)
  | exited (msg : String)
  | panicked (msg : String)
  deriving DecidableEq, Repr

/-- Function `NewClient(userConfig)`: its error result, the client being the `Lego` value. -/
def NewClient (lego : Lego) (userConfig : UserConfig) : Outcome GoError :=
  match lego.NewClient userConfig.Email userConfig.Key userConfig.CADirURL
      userConfig.CADirKeyType with
  | some err => .returned (some err)
  | none =>
    -- Use a propagation timeout of 1 minute and 30 seconds
    match lego.NewDNSProviderConfig userConfig.AuthToken (time.Second * 90) with
    | some err => .returned (some err)
    | none =>
      match lego.SetDNS01Provider
          (if userConfig.DNSResolvers.length > 0 then some userConfig.DNSResolvers else none)
          userConfig.DisableCP
          (if userConfig.DNSTimeout > 0 then some userConfig.DNSTimeout else none) with
      | some err => .returned (some err)
      | none =>
        match lego.Register true with
        | some err => .exited err
        | none => .returned none

/-- Function `RequestCertificate(config)`; the call is counted in `requests`. -/
def RequestCertificate (lego : Lego) (config : UserConfig) (s : Sys) :
    Outcome (Except String Resource) × Sys :=
  let s1 := { s with requests := s.requests + 1 }
  match NewClient lego config with
  | .exited msg => (.exited msg, s1)
  | .panicked msg => (.panicked msg, s1)
  | .returned (some err) => (.returned (.error err), s1)
  | .returned none => (.returned (lego.Obtain config.Domains true), s1)

/-- The call `os.WriteFile(name, data, perm)` made by the acme package. -/
def writeFile (name data : String) (perm : Nat) (s : Sys) : GoError × Sys :=
  ((os.WriteFile s.fs name data perm).1,
    { s with fs := (os.WriteFile s.fs name data perm).2, writes := s.writes ++ [name] })

/-- The three paths of the bundle of a configuration. -/
def certPath (config : UserConfig) : String :=
  filepath.Join config.OutputDirectory (config.Filename ++ ".crt")
def keyPath (config : UserConfig) : String :=
  filepath.Join config.OutputDirectory (config.Filename ++ ".key")
def issuerPath (config : UserConfig) : String :=
  filepath.Join config.OutputDirectory (config.Filename ++ ".issuer.crt")

/-- Function `saveResource(resource, config)`. -/
def saveResource (resource : Resource) (config : UserConfig) (s : Sys) : GoError × Sys :=
  match writeFile (certPath config) resource.Certificate 0o600 s with
  | (some err, s1) => (some err, s1)
  | (none, s1) =>
    match writeFile (keyPath config) resource.PrivateKey 0o600 s1 with
    | (some err, s2) => (some err, s2)
    | (none, s2) =>
      match writeFile (issuerPath config) resource.IssuerCertificate 0o600 s2 with
      | (some err, s3) => (some err, s3)
      | (none, s3) => (none, s3)

/-- Function `readCert(filepath)`. -/
def readCert (env : Env) (fs : FileSystem) (filepath : String) :
    Except String (List Certificate) :=
  match os.ReadFile fs filepath with
  | .error err => .error err
  | .ok content => env.ParsePEMBundle content

/-- The expression `int(time.Until(x509Cert.NotAfter).Hours() / 24.0)`, which
`needRenewal` and `GetOrRenewCertificate` both bind to `notAfter`. -/
def remainingDays (now : Int) (x509Cert : Certificate) : Int :=
  goInt ((time.Hours (time.Until now x509Cert.NotAfter)).div (.finite false 24 0))

/-- Function `needRenewal(x509Cert, days)`, `now` being the reading of the clock. -/
def needRenewal (now : Int) (x509Cert : Certificate) (days : Int) : Bool × GoError :=
  if x509Cert.IsCA then
    (false, some "Certificate bundle starts with a CA certificate")
  else if days ≥ 0 then
    let notAfter := remainingDays now x509Cert
    if notAfter > days then
      (false, none)
    else
      (true, none)
  else
    (true, none)

/-- Function `GetOrRenewCertificate(config, days)`. -/
def GetOrRenewCertificate (env : Env) (config : UserConfig) (days : Int) (s : Sys) :
    Outcome (Bool × GoError) × Sys :=
  match readCert env s.fs (certPath config) with
  | .error _ =>
    match RequestCertificate env.lego config s with
    | (.exited msg, s1) => (.exited msg, s1)
    | (.panicked msg, s1) => (.panicked msg, s1)
    | (.returned (.error requestErr), s1) => (.returned (false, some requestErr), s1)
    | (.returned (.ok resource), s1) =>
      match saveResource resource config s1 with
      | (some err, s2) => (.returned (false, some err), s2)
      | (none, s2) => (.returned (true, none), s2)
  | .ok [] => (.panicked "index out of range [0] with length 0", s)
  | .ok (x509Cert :: _) =>
    if x509Cert.IsCA then
      (.returned (false, some "Certificate bundle starts with a CA certificate"), s)
    else if days ≥ 0 then
      let notAfter := remainingDays env.now x509Cert
      if notAfter > days then
        (.returned (false, none), s)
      else
        match RequestCertificate env.lego config s with
        | (.exited msg, s1) => (.exited msg, s1)
        | (.panicked msg, s1) => (.panicked msg, s1)
        | (.returned (.error err), s1) => (.returned (false, some err), s1)
        | (.returned (.ok resource), s1) =>
          match saveResource resource config s1 with
          | (some err, s2) => (.returned (false, some err), s2)
          | (none, s2) => (.returned (true, none), s2)
    else
      (.returned (false, none), s)

/-! ## package configuration: resolution of the options -/

namespace constants

def DNS_RESOLVERS : String := "DNS_RESOLVERS"
def DNS_TIMEOUT : String := "DNS_TIMEOUT"
def DISABLE_CP : String := "DISABLE_CP"
def DOMAINS : String := "DOMAINS"
def FILENAME : String := "FILENAME"
def ACCOUNT_EMAIL : String := "ACCOUNT_EMAIL"
def ACCOUNT_KEY_FILE : String := "ACCOUNT_KEY_FILE"
def LE_TOS_AGREED : String := "LE_TOS_AGREED"
def CA_DIR : String := "CA_DIR"
def LE_CRT_KEY_TYPE : String := "LE_CRT_KEY_TYPE"
def OUTPUT_DIRECTORY : String := "OUTPUT_DIRECTORY"
def WEB_ROOT : String := "WEB_ROOT"
def WEB_ENABLED : String := "WEB_ENABLED"

def ACME_PRODUCTION_ENV : String := "PRODUCTION"
def ACME_STAGING_ENV : String := "STAGING"
def ACME_TEST_ENV : String := "TEST"
def ACME_PRODUCTION_CA_DIR : String := "https://acme-v02.api.letsencrypt.org/directory"
def ACME_STAGING_CA_DIR : String := "https://acme-staging-v02.api.letsencrypt.org/directory"
def ACME_TEST_CA_DIR : String := "http://localhost:4000/directory"

def KEY_TYPE_RSA2048 : String := "RSA2048"
def KEY_TYPE_RSA4096 : String := "RSA4096"
def KEY_TYPE_RSA8192 : String := "RSA8192"

end constants

namespace certcrypto

/-- The `certcrypto.KeyType` constants of lego. -/
def RSA2048 : String := "2048"
def RSA4096 : String := "4096"
def RSA8192 : String := "8192"

end certcrypto

/-- The answers of the external libraries and of the operating system that the
embedding does not compute. -/
structure Libs where
  /-- The result of `unicode.ToUpper` on a character above ASCII. -/
  upperRune : Char → Char
  /-- The result of `idna.ToASCII` on a name that has a character above ASCII
  or a label starting with `xn--`. -/
  punycode : String → String × GoError
  /-- The result of `strconv.Quote`. -/
  Quote : String → String
  /-- The result of `strconv.ParseFloat(s, 32)` on a string that is not a plain
  decimal (sign, digits, point, digits). -/
  ParseFloat32 : String → Float64 × GoError
  /-- The result of converting to `int64` a floating-point value that has no
  `int64` value (the Go specification leaves it to the platform). -/
  convertInt64 : Float64 → Int
  /-- The result of `os.Getwd`. -/
  Getwd : String × GoError
  /-- The result of `os.MkdirAll(path, os.ModePerm)`. -/
  MkdirAll : String → GoError
  /-- The key and error of the n-th call of `ecdsa.GenerateKey(elliptic.P256(), rand.Reader)`,
  the key being given by its DER encoding (`x509.MarshalECPrivateKey`). -/
  GenerateKey : Nat → String × GoError
  /-- The text that `pem.Encode` writes for a block type and the block bytes. -/
  pemEncode : String → String → String
  /-- The type and bytes of the first block that `pem.Decode` finds, if any. -/
  pemDecode : String → Option (String × String)
  /-- The result of `x509.ParsePKCS1PrivateKey`. -/
  ParsePKCS1PrivateKey : String → String × GoError
  /-- The result of `x509.ParseECPrivateKey`. -/
  ParseECPrivateKey : String → String × GoError

namespace strings

/-- The pieces of a list of characters between occurrences of `sep`. -/
def splitChars (sep : Char) : List Char → List (List Char)
  | [] => [[]]
  | c :: cs =>
    if c = sep then [] :: splitChars sep cs
    else
      match splitChars sep cs with
      | [] => [[c]]
      | e :: es => (c :: e) :: es

/-- Function `strings.Split(s, sep)` for a separator of one character. -/
def Split (s : String) (sep : Char) : List String :=
  (splitChars sep s.data).map String.mk

/-- Function `strings.ReplaceAll(s, old, new)` for `old` and `new` of one character. -/
def ReplaceAll (s : String) (old new : Char) : String :=
  String.mk (s.data.map fun c => if c = old then new else c)

end strings

namespace unicode

/-- Function `unicode.ToUpper`: computed on ASCII, looked up above. -/
def ToUpper (libs : Libs) (c : Char) : Char :=
  if c.toNat < 128 then c.toUpper else libs.upperRune c

end unicode

namespace strings

/-- Function `strings.ToUpper`. -/
def ToUpper (libs : Libs) (s : String) : String :=
  String.mk (s.data.map (unicode.ToUpper libs))

end strings

namespace idna

/-- A name whose characters are all ASCII and none of whose labels starts with
the ACE prefix `xn--`. -/
def plain (s : String) : Bool :=
  s.data.all (fun c => c.toNat < 128) &&
    (strings.splitChars '.' s.data).all (fun label => !("xn--".data.isPrefixOf label))

/-- Function `idna.ToASCII` (the raw Punycode profile): a plain name is returned
as it is, without error; anything else is looked up. -/
def ToASCII (libs : Libs) (s : String) : String × GoError :=
  if plain s then (s, none) else libs.punycode s

end idna

namespace strconv

/-- Function `strconv.ParseBool`. -/
def ParseBool (libs : Libs) (str : String) : Bool × GoError :=
  if str = "1" ∨ str = "t" ∨ str = "T" ∨ str = "true" ∨ str = "TRUE" ∨ str = "True" then
    (true, none)
  else if str = "0" ∨ str = "f" ∨ str = "F" ∨ str = "false" ∨ str = "FALSE" ∨ str = "False" then
    (false, none)
  else
    (false, some ("strconv.ParseBool: parsing " ++ libs.Quote str ++ ": invalid syntax"))

/-- A plain decimal: the value is `digits / 10 ^ scale`, negated when `neg` is set. -/
structure Decimal where
  neg : Bool
  digits : Nat
  scale : Nat
  deriving DecidableEq, Repr

/-- Reads decimal digits: the number read so far, the count of digits read, and
what follows them. -/
def readDigits : List Char → Nat → Nat → Nat × Nat × List Char
  | [], acc, n => (acc, n, [])
  | c :: cs, acc, n =>
    if 48 ≤ c.toNat ∧ c.toNat ≤ 57 then readDigits cs (acc * 10 + (c.toNat - 48)) (n + 1)
    else (acc, n, c :: cs)

/-- Reads a plain decimal: an optional sign, digits, and optionally a point and
digits, with one digit at least. -/
def parseDecimal (s : List Char) : Option Decimal :=
  let signed : Bool × List Char :=
    match s with
    | '+' :: r => (false, r)
    | '-' :: r => (true, r)
    | _ => (false, s)
  let whole := readDigits signed.2 0 0
  match whole.2.2 with
  | [] => if 0 < whole.2.1 then some ⟨signed.1, whole.1, 0⟩ else none
  | '.' :: r =>
    let frac := readDigits r whole.1 0
    if frac.2.2 = [] ∧ 0 < whole.2.1 + frac.2.1 then some ⟨signed.1, frac.1, frac.2.1⟩ else none
  | _ => none

/-- The exponent `e` with `2 ^ e ≤ p / q < 2 ^ (e + 1)`, for positive `p` and `q`. -/
def floorLog2 (p q : Nat) : Int :=
  let e0 : Int := (log2 p : Int) - (log2 q : Int)
  if q * 2 ^ e0.toNat ≤ p * 2 ^ (-e0).toNat then e0 else e0 - 1

/-- The `float32` nearest to `p / q` (IEEE 754 round to nearest even, 24 bits
of precision, least exponent -149), as a `float64`; infinite with a range error
when it exceeds the largest `float32`. -/
def roundFloat32 (neg : Bool) (p q : Nat) : Float64 × Bool :=
  if p = 0 then (.finite neg 0 0, false)
  else
    let x : Int := max (floorLog2 p q - 23) (-149)
    let n := roundQuot (p * 2 ^ (-x).toNat) (q * 2 ^ x.toNat)
    if 0 ≤ x ∧ 2 ^ 128 ≤ n * 2 ^ x.toNat then (.inf neg, true)
    else (.finite neg n x, false)

/-- Function `strconv.ParseFloat(s, 32)`: computed on plain decimals, looked up
on every other string (exponent, hexadecimal, underscores, infinities, NaN,
syntax errors). -/
def ParseFloat32 (libs : Libs) (s : String) : Float64 × GoError :=
  match parseDecimal s.data with
  | some d =>
    match roundFloat32 d.neg d.digits (10 ^ d.scale) with
    | (f, true) =>
      (f, some ("strconv.ParseFloat: parsing " ++ libs.Quote s ++ ": value out of range"))
    | (f, false) => (f, none)
  | none => libs.ParseFloat32 s

end strconv

/-- Go conversion of a `float64` to `int64` (here to `time.Duration`): the
fraction is discarded; a value that does not fit is converted by the platform. -/
def toInt64 (libs : Libs) (f : Float64) : Int :=
  match f.trunc with
  | some v => if -(2 ^ 63) ≤ v ∧ v < 2 ^ 63 then v else libs.convertInt64 f
  | none => libs.convertInt64 f

/-- Arithmetic of `int64` wraps around. -/
def wrapInt64 (x : Int) : Int := (x + 2 ^ 63) % 2 ^ 64 - 2 ^ 63

namespace filepath

/-- Function `filepath.IsAbs` (Unix). -/
def IsAbs (path : String) : Bool := HasPrefix path "/"

/-- Function `filepath.Abs` (Unix). -/
def Abs (libs : Libs) (path : String) : String × GoError :=
  if IsAbs path then (Clean path, none)
  else
    match libs.Getwd with
    | (_, some err) => ("", some err)
    | (wd, none) => (Join wd path, none)

end filepath

/-- What the resolution of a configuration acts on: the filesystem, with the
number of keys generated, the paths passed to `os.MkdirAll` and the calls made
to the secret stores, in order. -/
structure ConfigSys where
  fs : FileSystem
  keys : Nat
  mkdirs : List String
  calls : List StoreCall

deriving instance DecidableEq, Repr for UserConfig

/-- The zero value `UserConfig{}`. -/
def UserConfig.zero : UserConfig where
  Email := ""
  Key := ""
  CADirURL := ""
  CADirKeyType := ""
  TermsOfServiceAgreed := false
  Domains := []
  Filename := ""
  OutputDirectory := ""
  AuthToken := ""
  DisableCP := false
  DNSResolvers := []
  DNSTimeout := 0
  WebRoot := ""
  WebEnabled := false

/-- Function `sanitizeDomain(domain)`. -/
def sanitizeDomain (libs : Libs) (domain : String) : String × GoError :=
  idna.ToASCII libs (strings.ReplaceAll domain '*' '_')

/-- Function `fileExists(path)`: `false` exactly when `os.Stat` fails with
`ErrNotExist`. In this file system `os.Stat` has no other failure (no
unreadable directory on the way, no input/output error), for which the code
answers `true` as well: a path is present or it is absent. -/
def fileExists (fs : FileSystem) (path : String) : Bool := (fs.files path).isSome

/-- Method `(c *RawUserConfig) getDomains`. -/
def RawUserConfig.getDomains (c : RawUserConfig) : List String × GoError :=
  let domains := strings.Split c.Domains ','
  let fallback : List String := []
  if domains.length = 0 then
    (fallback, some ("A comma-separated list of domain names must be provided through "
      ++ constants.DOMAINS ++ " environment variable"))
  else if domains.length = 1 ∧ domains.head? = some "" then
    (fallback, some ("A comma-separated list of domain names must be provided through "
      ++ constants.DOMAINS ++ " environment variable"))
  else
    (domains, none)

/-- Method `(c *RawUserConfig) getAccountEmail`. -/
def RawUserConfig.getAccountEmail (c : RawUserConfig) : String × GoError :=
  if c.AccountEmail = "" then
    ("", some ("An email must be provided through " ++ constants.ACCOUNT_EMAIL
      ++ " environment variable"))
  else
    (c.AccountEmail, none)

/-- Method `(c *RawUserConfig) getTOSAgreement`. -/
def RawUserConfig.getTOSAgreement (libs : Libs) (c : RawUserConfig) : Bool × GoError :=
  match strconv.ParseBool libs c.TOSAgreed with
  | (_, some err) => (false, some err)
  | (tosAgreed, none) =>
    if !tosAgreed then
      (false, some ("It is mandatory to agree to Let's Encrypt Term of Usage through "
        ++ constants.LE_TOS_AGREED ++ " environment variable"))
    else
      (true, none)

/-- Method `(c *RawUserConfig) getWebEnabled`. -/
def RawUserConfig.getWebEnabled (libs : Libs) (c : RawUserConfig) : Bool × GoError :=
  strconv.ParseBool libs c.WebEnabled

/-- Method `(c *RawUserConfig) getCADir`. -/
def RawUserConfig.getCADir (libs : Libs) (c : RawUserConfig) : String × GoError :=
  -- Return URL associated with environment
  if strings.ToUpper libs c.CADir = constants.ACME_PRODUCTION_ENV then
    (constants.ACME_PRODUCTION_CA_DIR, none)
  else if strings.ToUpper libs c.CADir = constants.ACME_STAGING_ENV then
    (constants.ACME_STAGING_CA_DIR, none)
  else if strings.ToUpper libs c.CADir = constants.ACME_TEST_ENV then
    (constants.ACME_TEST_CA_DIR, none)
  else if !(HasPrefix c.CADir "http://" || HasPrefix c.CADir "https://") then
    ("", some ("Invalid CA directory: " ++ c.CADir))
  else
    (c.CADir, none)

/-- Method `(c *RawUserConfig) getAccountKey`. A key is its DER encoding, `""`
stands for the nil key. -/
def RawUserConfig.getAccountKey (libs : Libs) (c : RawUserConfig) (s : ConfigSys) :
    Outcome (String × GoError) × ConfigSys :=
  if fileExists s.fs c.AccountKeyFile then
    match os.ReadFile s.fs c.AccountKeyFile with
    | .error err => (.returned ("", some err), s)
    | .ok pemKey =>
      match libs.pemDecode pemKey with
      | none =>
        (.panicked "runtime error: invalid memory address or nil pointer dereference", s)
      | some (type, bytes) =>
        if type = "RSA PRIVATE KEY" then
          (.returned (libs.ParsePKCS1PrivateKey bytes), s)
        else if type = "EC PRIVATE KEY" then
          (.returned (libs.ParseECPrivateKey bytes), s)
        else
          (.returned ("", some "unknown private key type"), s)
  else
    -- Create a private key. New accounts need an email and private key to start.
    match libs.GenerateKey s.keys with
    | (_, some err) => (.returned ("", some err), { s with keys := s.keys + 1 })
    | (privateKey, none) =>
      -- `os.Create`, then `pem.Encode`; the error of the deferred `Close` is dropped
      match s.fs.fault c.AccountKeyFile with
      | some (.atOpen msg) =>
        (.returned ("", some ("open " ++ c.AccountKeyFile ++ ": " ++ msg)),
          { s with keys := s.keys + 1 })
      | some (.atWrite written msg) =>
        (.returned ("", some ("write " ++ c.AccountKeyFile ++ ": " ++ msg)),
          { s with
            keys := s.keys + 1
            fs := s.fs.put c.AccountKeyFile
              (String.mk ((libs.pemEncode "EC PRIVATE KEY" privateKey).data.take written))
              0o666 })
      | _ =>
        (.returned (privateKey, none),
          { s with
            keys := s.keys + 1
            fs := s.fs.put c.AccountKeyFile (libs.pemEncode "EC PRIVATE KEY" privateKey) 0o666 })

/-- Method `(c *RawUserConfig) getKeyType`. -/
def RawUserConfig.getKeyType (c : RawUserConfig) : String × GoError :=
  if c.KeyType = constants.KEY_TYPE_RSA2048 then (certcrypto.RSA2048, none)
  else if c.KeyType = constants.KEY_TYPE_RSA4096 then (certcrypto.RSA4096, none)
  else if c.KeyType = constants.KEY_TYPE_RSA8192 then (certcrypto.RSA8192, none)
  else
    (certcrypto.RSA2048, some ("Invalid key type. Allowed values are '"
      ++ constants.KEY_TYPE_RSA2048 ++ "', '" ++ constants.KEY_TYPE_RSA4096 ++ "' and '"
      ++ constants.KEY_TYPE_RSA8192 ++ "'."))

/-- Method `(c *RawUserConfig) getFilename(domains)`; `none` is the panic of
`domains[0]` on an empty slice. -/
def RawUserConfig.getFilename (libs : Libs) (c : RawUserConfig) (domains : List String) :
    Option (String × GoError) :=
  if c.Filename = "" then
    match domains with
    | [] => none
    | first :: _ =>
      match sanitizeDomain libs first with
      | (_, some err) => some ("", some err)
      | (defaultName, none) => some (defaultName, none)
  else
    some (c.Filename, none)

/-- Method `(c *RawUserConfig) getDNSResolvers`. -/
def RawUserConfig.getDNSResolvers (c : RawUserConfig) : List String × GoError :=
  if c.DNSResolver ≠ "" then (strings.Split c.DNSResolver ',', none)
  else ([], none)

/-- Method `(c *RawUserConfig) getDNSTimeout`. -/
def RawUserConfig.getDNSTimeout (libs : Libs) (c : RawUserConfig) : Int × GoError :=
  match strconv.ParseFloat32 libs c.DNSTimeout with
  | (_, some err) => (0, some err)
  | (timeout, none) => (wrapInt64 (toInt64 libs timeout * time.Second), none)

/-- Method `(c *RawUserConfig) getDisableCPOption`. -/
def RawUserConfig.getDisableCPOption (libs : Libs) (c : RawUserConfig) : Bool × GoError :=
  match strconv.ParseBool libs c.DisableCP with
  | (_, some err) => (false, some err)
  | (option, none) => (option, none)

/-- Method `(c *RawUserConfig) getOutputDirectory`. -/
def RawUserConfig.getOutputDirectory (libs : Libs) (c : RawUserConfig) (s : ConfigSys) :
    (String × GoError) × ConfigSys :=
  match filepath.Abs libs c.OutputDirectory with
  | (_, some err) => (("", some err), s)
  | (dir, none) =>
    match libs.MkdirAll dir with
    | some err => (("", some err), { s with mkdirs := s.mkdirs ++ [dir] })
    | none => ((dir, none), { s with mkdirs := s.mkdirs ++ [dir] })

/-- Method `(c *RawUserConfig) parse(storage)`. -/
def RawUserConfig.parse (libs : Libs) (c : RawUserConfig) (storage : Stores) (s : ConfigSys) :
    Outcome (UserConfig × GoError) × ConfigSys :=
  let config := UserConfig.zero
  -- Parse domains
  match c.getDomains with
  | (_, some err) => (.returned (config, some err), s)
  | (domains, none) =>
  let config := { config with Domains := domains }
  -- Parse filename
  match c.getFilename libs domains with
  | none => (.panicked "runtime error: index out of range [0] with length 0", s)
  | some (_, some err) => (.returned (config, some err), s)
  | some (name, none) =>
  let config := { config with Filename := name }
  -- Parse email
  match c.getAccountEmail with
  | (_, some err) => (.returned (config, some err), s)
  | (email, none) =>
  let config := { config with Email := email }
  -- Parse TOS agreement
  match c.getTOSAgreement libs with
  | (_, some err) => (.returned (config, some err), s)
  | (tosAgreed, none) =>
  let config := { config with TermsOfServiceAgreed := tosAgreed }
  -- Parse account key (and generate it if missing)
  match c.getAccountKey libs s with
  | (.exited msg, s1) => (.exited msg, s1)
  | (.panicked msg, s1) => (.panicked msg, s1)
  | (.returned (_, some err), s1) => (.returned (config, some err), s1)
  | (.returned (accountKey, none), s1) =>
  let config := { config with Key := accountKey }
  -- Parsa CA directory
  match c.getCADir libs with
  | (_, some err) => (.returned (config, some err), s1)
  | (caDir, none) =>
  let config := { config with CADirURL := caDir }
  -- Parse key type
  match c.getKeyType with
  | (_, some err) => (.returned (config, some err), s1)
  | (keyType, none) =>
  let config := { config with CADirKeyType := keyType }
  -- Parse DNS resolvers
  match c.getDNSResolvers with
  | (_, some err) => (.returned (config, some err), s1)
  | (resolvers, none) =>
  let config := { config with DNSResolvers := resolvers }
  -- Parse DNS timeout
  match c.getDNSTimeout libs with
  | (_, some err) => (.returned (config, some err), s1)
  | (timeout, none) =>
  let config := { config with DNSTimeout := timeout }
  -- Parse disableCP option
  match c.getDisableCPOption libs with
  | (_, some err) => (.returned (config, some err), s1)
  | (disableCP, none) =>
  let config := { config with DisableCP := disableCP }
  -- Parse output directory
  match c.getOutputDirectory libs s1 with
  | ((_, some err), s2) => (.returned (config, some err), s2)
  | ((outputDirectory, none), s2) =>
  let config := { config with OutputDirectory := outputDirectory }
  -- Parse dns auth token
  match c.getDNSAuthToken storage with
  | ⟨_, some err, calls⟩ => (.returned (config, some err), { s2 with calls := s2.calls ++ calls })
  | ⟨token, none, calls⟩ =>
  let config := { config with AuthToken := token }
  let s3 := { s2 with calls := s2.calls ++ calls }
  let config := { config with WebRoot := c.WebRoot }
  match c.getWebEnabled libs with
  | (_, some err) => (.returned (config, some err), s3)
  | (webEnabled, none) =>
  (.returned ({ config with WebEnabled := webEnabled }, none), s3)


/-- The first error of a list of step results, if any. -/
def firstError : List GoError → GoError
  | [] => none
  | some err :: _ => some err
  | none :: rest => firstError rest

/-- The errors of the thirteen steps of the resolution, each step taken on its
own, in the order in which the specification lists them: domains, filename,
email, terms of service, account key, CA directory, key type, DNS resolvers,
DNS timeout, propagation-check flag, output directory, credential, web flag. -/
def RawUserConfig.stepErrors (libs : Libs) (c : RawUserConfig) (storage : Stores)
    (s : ConfigSys) : List GoError :=
  [c.getDomains.2,
   (match c.getFilename libs c.getDomains.1 with
    | some r => r.2
    | none => none),
   c.getAccountEmail.2,
   (c.getTOSAgreement libs).2,
   (match (c.getAccountKey libs s).1 with
    | .returned r => r.2
    | _ => none),
   (c.getCADir libs).2,
   c.getKeyType.2,
   c.getDNSResolvers.2,
   (c.getDNSTimeout libs).2,
   (c.getDisableCPOption libs).2,
   (c.getOutputDirectory libs s).1.2,
   (c.getDNSAuthToken storage).err,
   (c.getWebEnabled libs).2]

/-! ## package configuration: the environment; package stores: the file store -/

namespace constants

def DEFAULT_ACCOUNT_KEY_FILE : String := "./account.key"
def DEFAULT_LE_TOS_AGREED : String := "true"
def DEFAULT_DISABLE_CP : String := "true"
def DEFAULT_LE_CRT_KEY_TYPE : String := KEY_TYPE_RSA2048
def DEFAULT_CA_DIR : String := ACME_STAGING_ENV

end constants

/-- Function `getEnv(key, fallback)`; `environ key` is what `os.LookupEnv(key)`
finds, `none` when the variable is not defined. -/
def getEnv (environ : String → Option String) (key fallback : String) : String :=
  match environ key with
  | some value => value
  | none => fallback

/-- Function `NewRawUserConfig()`. The constants `DEFAULT_WEB_ROOT` and
`DEFAULT_WEB_ENABLED` are not declared in the sources at hand and are taken as
arguments. -/
def NewRawUserConfig (environ : String → Option String)
    (DEFAULT_WEB_ROOT DEFAULT_WEB_ENABLED : String) : RawUserConfig where
  AccountEmail := getEnv environ constants.ACCOUNT_EMAIL ""
  AccountKeyFile := getEnv environ constants.ACCOUNT_KEY_FILE constants.DEFAULT_ACCOUNT_KEY_FILE
  TOSAgreed := getEnv environ constants.LE_TOS_AGREED constants.DEFAULT_LE_TOS_AGREED
  CADir := getEnv environ constants.CA_DIR constants.DEFAULT_CA_DIR
  KeyType := getEnv environ constants.LE_CRT_KEY_TYPE constants.DEFAULT_LE_CRT_KEY_TYPE
  Domains := getEnv environ constants.DOMAINS ""
  Filename := getEnv environ constants.FILENAME ""
  DisableCP := getEnv environ constants.DISABLE_CP constants.DEFAULT_DISABLE_CP
  DNSTimeout := getEnv environ constants.DNS_TIMEOUT "0"
  DNSResolver := getEnv environ constants.DNS_RESOLVERS ""
  DNSAuthToken := getEnv environ constants.DNS_AUTH_TOKEN ""
  DNSAuthTokenFile := getEnv environ constants.DNS_AUTH_TOKEN_FILE ""
  DNSAuthTokenVault := getEnv environ constants.DNS_AUTH_TOKEN_VAULT ""
  DNSAuthTokenSecret :=
    getEnv environ constants.DNS_AUTH_TOKEN_SECRET constants.DEFAULT_DNS_AUTH_TOKEN_SECRET
  OutputDirectory := getEnv environ constants.OUTPUT_DIRECTORY "./"
  WebRoot := getEnv environ constants.WEB_ROOT DEFAULT_WEB_ROOT
  WebEnabled := getEnv environ constants.WEB_ENABLED DEFAULT_WEB_ENABLED

/-- Function `NewUserConfig(storage)`. -/
def NewUserConfig (libs : Libs) (environ : String → Option String)
    (DEFAULT_WEB_ROOT DEFAULT_WEB_ENABLED : String) (storage : Stores) (s : ConfigSys) :
    Outcome (UserConfig × GoError) × ConfigSys :=
  (NewRawUserConfig environ DEFAULT_WEB_ROOT DEFAULT_WEB_ENABLED).parse libs storage s

namespace strings

/-- Function `strings.HasSuffix(s, suffix)`. -/
def HasSuffix (s suffix : String) : Bool := suffix.data.reverse.isPrefixOf s.data.reverse

/-- Function `strings.TrimSuffix(s, suffix)`. -/
def TrimSuffix (s suffix : String) : String :=
  if HasSuffix s suffix then String.mk (s.data.take (s.data.length - suffix.data.length))
  else s

end strings

/-- Method `(s *FileStore) GetToken(path)`, on the filesystem `fs`. -/
def FileStore.GetToken (fs : FileSystem) (path : String) : String × GoError :=
  -- Read file
  match os.ReadFile fs path with
  -- Or return an error
  | .error err => ("", some err)
  | .ok rawToken =>
    -- Convert to string and strip line break
    let token := strings.TrimSuffix rawToken "\n"
    -- Check that token is not empty
    if token = "" then ("", some ("Invalid token found in " ++ path))
    -- Return token
    else (token, none)

/-- The day count as the specification words it:
`daysRemaining = floor(hours-until-expiry / 24)`, the hours until expiry being
the time until expiry over one hour, as a number. -/
def daysRemainingFloor (now : Int) (x509Cert : Certificate) : Int :=
  ⌊((time.Until now x509Cert.NotAfter : Int) : ℚ) / ((time.Hour : Int) : ℚ) / 24⌋

/-- The decimal numeral whose digits are `ds`, the most significant first. -/
def numeral (ds : List Nat) : List Char := ds.map fun d => Char.ofNat (48 + d)

/-- The number that the digits `ds` denote, the most significant first. -/
def numeralValue (ds : List Nat) : Nat := ds.foldl (fun a d => a * 10 + d) 0

/-! ## Example inputs -/

/-- A resolved configuration for `example.com`, with its bundle under `/out`. -/
def exampleConfig : UserConfig where
  Email := "ops@example.com"
  Key := "ACCOUNT KEY"
  CADirURL := "https://acme-staging-v02.api.letsencrypt.org/directory"
  CADirKeyType := "2048"
  TermsOfServiceAgreed := true
  Domains := ["example.com"]
  Filename := "example.com"
  OutputDirectory := "/out"
  AuthToken := "XXXXX"
  DisableCP := true
  DNSResolvers := []
  DNSTimeout := 0
  WebRoot := ""
  WebEnabled := false

/-- The resource the example CA issues. -/
def issued : Resource := ⟨"example.com", "NEW KEY", "NEW CERT", "NEW ISSUER"⟩

/-- An ACME client for which every call succeeds. -/
def okLego : Lego where
  NewClient := fun _ _ _ _ => none
  NewDNSProviderConfig := fun _ _ => none
  SetDNS01Provider := fun _ _ _ => none
  Register := fun _ => none
  Obtain := fun _ _ => .ok issued

/-- An ACME client whose `Obtain` fails. -/
def failingLego (msg : String) : Lego where
  NewClient := fun _ _ _ _ => none
  NewDNSProviderConfig := fun _ _ => none
  SetDNS01Provider := fun _ _ _ => none
  Register := fun _ => none
  Obtain := fun _ _ => .error msg

/-- A world whose clock reads 0 and whose parser reads the content `BUNDLE`
as the single certificate `leaf` and finds no certificate in anything else. -/
def exampleEnv (leaf : Certificate) (lego : Lego) : Env where
  now := 0
  ParsePEMBundle := fun content =>
    if content = "BUNDLE" then .ok [leaf]
    else .error "no certificates were found while parsing the bundle"
  lego := lego

/-- No file at all, every path writable. -/
def emptySys : Sys where
  fs := ⟨fun _ => none, fun _ => none, 0o022⟩
  requests := 0
  writes := []

/-- The bundle of `exampleConfig` is stored, every path writable. -/
def storedSys : Sys where
  fs := ⟨fun p =>
      if p = "/out/example.com.crt" then some ⟨"BUNDLE", 0o600⟩
      else if p = "/out/example.com.key" then some ⟨"OLD KEY", 0o600⟩
      else if p = "/out/example.com.issuer.crt" then some ⟨"OLD ISSUER", 0o600⟩
      else none,
    fun _ => none, 0o022⟩
  requests := 0
  writes := []

/-- The bundle of `exampleConfig` is stored, and the key file cannot be opened
for writing. -/
def keyDeniedSys : Sys where
  fs := ⟨storedSys.fs.files,
    fun p => if p = "/out/example.com.key" then some (.atOpen "permission denied") else none,
    0o022⟩
  requests := 0
  writes := []

/-- The bundle of `exampleConfig` is stored, and the disk fills up when three
bytes of the key file have been written. -/
def keyTornSys : Sys where
  fs := ⟨storedSys.fs.files,
    fun p =>
      if p = "/out/example.com.key" then some (.atWrite 3 "no space left on device")
      else none,
    0o022⟩
  requests := 0
  writes := []

/-- The bundle of `exampleConfig` is stored in files of mode 0644, every path
writable. -/
def looseSys : Sys where
  fs := ⟨fun p =>
      if p = "/out/example.com.crt" then some ⟨"BUNDLE", 0o644⟩
      else if p = "/out/example.com.key" then some ⟨"OLD KEY", 0o644⟩
      else if p = "/out/example.com.issuer.crt" then some ⟨"OLD ISSUER", 0o644⟩
      else none,
    fun _ => none, 0o022⟩
  requests := 0
  writes := []

/-- Libraries for the examples: every character above ASCII is its own upper
case, `idna.ToASCII` rejects what is not plain, every string that is not a plain
decimal is a syntax error for `ParseFloat`, the working directory is `/srv`,
directories can be made, the n-th generated key is `k` written n + 1 times, and
a PEM text is the bytes of its block, of type `EC PRIVATE KEY`. -/
def exampleLibs : Libs where
  upperRune := fun c => c
  punycode := fun s => (s, some "idna: invalid label")
  Quote := fun s => "\"" ++ s ++ "\""
  ParseFloat32 := fun s =>
    (.finite false 0 0, some ("strconv.ParseFloat: parsing \"" ++ s ++ "\": invalid syntax"))
  convertInt64 := fun _ => -(2 ^ 63)
  Getwd := ("/srv", none)
  MkdirAll := fun _ => none
  GenerateKey := fun n => (String.mk (List.replicate (n + 1) 'k'), none)
  pemEncode := fun _ b => b
  pemDecode := fun s => if s = "" then none else some ("EC PRIVATE KEY", s)
  ParsePKCS1PrivateKey := fun b => (b, none)
  ParseECPrivateKey := fun b => (b, none)

/-- A raw configuration that resolves: the defaults, with `DOMAINS`,
`ACCOUNT_EMAIL` and `DNS_AUTH_TOKEN` set. -/
def exampleRaw (domains : String) : RawUserConfig :=
  { tokenConfig "XXXXX" "" "" with Domains := domains, AccountEmail := "support@example.com" }

/-- No file, every path writable, nothing done yet. -/
def emptyConfigSys : ConfigSys where
  fs := ⟨fun _ => none, fun _ => none, 0o022⟩
  keys := 0
  mkdirs := []
  calls := []

/-- One day, as a duration. -/
def day : Int := 24 * time.Hour

/-- The statements shared by the two issuing branches of `GetOrRenewCertificate`:
request a certificate, save it, report the change. -/
def requestAndSave (env : Env) (config : UserConfig) (s : Sys) :
    Outcome (Bool × GoError) × Sys :=
  match RequestCertificate env.lego config s with
  | (.exited msg, s1) => (.exited msg, s1)
  | (.panicked msg, s1) => (.panicked msg, s1)
  | (.returned (.error err), s1) => (.returned (false, some err), s1)
  | (.returned (.ok resource), s1) =>
    match saveResource resource config s1 with
    | (some err, s2) => (.returned (false, some err), s2)
    | (none, s2) => (.returned (true, none), s2)

/-- A filesystem with two token files: one ends with two line feeds, one holds
a lone line feed. -/
def tokenFiles : FileSystem where
  files := fun p =>
    if p = "/run/secrets/token" then some ⟨"XXXXX\n\n", 0o600⟩
    else if p = "/run/secrets/blank" then some ⟨"\n", 0o600⟩
    else none
  fault := fun _ => none
  umask := 0o022

/-- An environment that defines `DOMAINS` and `ACCOUNT_EMAIL`, defines `FILENAME`
as the empty string, and nothing else. -/
def exampleEnviron : String → Option String := fun key =>
  if key = "DOMAINS" then some "example.com"
  else if key = "ACCOUNT_EMAIL" then some "support@example.com"
  else if key = "FILENAME" then some ""
  else none

/-- An environment that defines the two required variables and nothing else. -/
def requiredEnviron : String → Option String := fun key =>
  if key = "DOMAINS" then some "example.com"
  else if key = "ACCOUNT_EMAIL" then some "support@example.com"
  else none

/-- What `exampleRaw "example.com"` resolves to with `exampleLibs`. -/
def exampleResolved : UserConfig where
  Email := "support@example.com"
  Key := "k"
  CADirURL := "https://acme-staging-v02.api.letsencrypt.org/directory"
  CADirKeyType := "2048"
  TermsOfServiceAgreed := true
  Domains := ["example.com"]
  Filename := "example.com"
  OutputDirectory := "/srv"
  AuthToken := "XXXXX"
  DisableCP := true
  DNSResolvers := []
  DNSTimeout := 0
  WebRoot := ""
  WebEnabled := false

/-- The account key file of `exampleRaw` exists and is empty. -/
def blankKeySys : ConfigSys where
  fs := ⟨fun p => if p = "./account.key" then some ⟨"", 0o644⟩ else none, fun _ => none,
    0o022⟩
  keys := 0
  mkdirs := []
  calls := []

/-! ## Lemmas on the acme package -/

namespace filepath

/-- A path without separator is one element. -/
theorem splitSep_noSep (b : List Char) (hb : ∀ c ∈ b, c ≠ '/') : splitSep b = [b] := by
  induction b with
  | nil => rfl
  | cons c cs ih =>
    have hc : c ≠ '/' := hb c (List.mem_cons_self _ _)
    have := ih (fun x hx => hb x (List.mem_cons_of_mem _ hx))
    simp [splitSep, hc, this]

/-- Appending characters other than the separator extends the last element. -/
theorem splitSep_append (a : List Char) :
    ∃ init lst, splitSep a = init ++ [lst] ∧
      ∀ b : List Char, (∀ c ∈ b, c ≠ '/') → splitSep (a ++ b) = init ++ [lst ++ b] := by
  induction a with
  | nil => exact ⟨[], [], rfl, fun b hb => by simpa using splitSep_noSep b hb⟩
  | cons c cs ih =>
    obtain ⟨init, lst, h1, h2⟩ := ih
    by_cases hc : c = '/'
    · refine ⟨[] :: init, lst, by simp [splitSep, hc, h1], fun b hb => ?_⟩
      simp [splitSep, hc, h2 b hb]
    · cases init with
      | nil =>
        refine ⟨[], c :: lst, by simp [splitSep, hc, h1], fun b hb => ?_⟩
        have := h2 b hb
        simp at this
        simp [splitSep, hc, this]
      | cons i is =>
        refine ⟨(c :: i) :: is, lst, by simp [splitSep, hc, h1], fun b hb => ?_⟩
        have := h2 b hb
        simp at this
        simp [splitSep, hc, this]

/-- Extending the last element extends the joined path. -/
theorem joinSep_append_last (xs : List (List Char)) (y z : List Char) :
    joinSep (xs ++ [y ++ z]) = joinSep (xs ++ [y]) ++ z := by
  induction xs with
  | nil => simp [joinSep]
  | cons x xs ih =>
    cases xs with
    | nil => simp [joinSep]
    | cons x2 xs2 =>
      have e1 : joinSep ((x :: x2 :: xs2) ++ [y ++ z])
          = x ++ '/' :: joinSep ((x2 :: xs2) ++ [y ++ z]) := rfl
      have e2 : joinSep ((x :: x2 :: xs2) ++ [y])
          = x ++ '/' :: joinSep ((x2 :: xs2) ++ [y]) := rfl
      rw [e1, e2, ih]
      simp

/-- An element of three characters or more is copied. -/
theorem cleanElem_real (rooted : Bool) (out : List (List Char)) (e : List Char)
    (he : 3 ≤ e.length) : cleanElem rooted out e = e :: out := by
  unfold cleanElem
  have h0 : e ≠ [] := by intro h; simp [h] at he
  have h1 : e ≠ ['.'] := by intro h; simp [h] at he
  have h2 : e ≠ ['.', '.'] := by intro h; simp [h] at he
  simp [h0, h1, h2]

/-- Cleaning a path that ends in an extension: the extension stays at the end,
after a stem that does not depend on it. -/
theorem cleanChars_append_ext (P : List Char) :
    ∃ stem : List Char, ∀ ext : List Char, (∀ c ∈ ext, c ≠ '/') →
      ext.head? = some '.' → 3 ≤ ext.length →
      cleanChars (P ++ ext) = stem ++ ext := by
  obtain ⟨init, lst, _, h2⟩ := splitSep_append P
  refine ⟨(if P.head? = some '/' then ['/'] else []) ++
    joinSep ((init.foldl (cleanElem (decide (P.head? = some '/'))) []).reverse ++ [lst]),
    fun ext hsep hdot hlen => ?_⟩
  have hext : ext ≠ [] := by intro h; simp [h] at hlen
  have hne : P ++ ext ≠ [] := by simp [hext]
  have hroot : ((P ++ ext).head? = some '/') ↔ (P.head? = some '/') := by
    cases P with
    | nil => simp [hdot]
    | cons c cs => simp
  have hsplit := h2 ext hsep
  unfold cleanChars
  rw [if_neg hne]
  simp only [hroot, hsplit, List.foldl_append, List.foldl_cons, List.foldl_nil]
  rw [cleanElem_real _ _ _ (by simp; omega)]
  simp only [List.reverse_cons, joinSep_append_last]
  by_cases hr : P.head? = some '/'
  · simp [hr]
  · simp [hr, hext]

/-- The path of a file name with an extension: the extension stays at the end,
after a stem that does not depend on it. -/
theorem Join_ext (a f : String) :
    ∃ stem : String, ∀ ext : String, (∀ c ∈ ext.data, c ≠ '/') →
      ext.data.head? = some '.' → 3 ≤ ext.data.length →
      Join a (f ++ ext) = stem ++ ext := by
  by_cases ha : a = ""
  · obtain ⟨stem, h⟩ := cleanChars_append_ext f.data
    refine ⟨String.mk stem, fun ext h1 h2 h3 => ?_⟩
    have hext : ext.data ≠ [] := by intro h; simp [h] at h3
    have hne : f ++ ext ≠ "" := by
      intro h
      have := congrArg String.data h
      simp [hext] at this
    unfold Join Clean
    rw [if_neg (by simpa using ha), if_pos hne]
    apply String.ext
    simp only [String.data_append]
    exact h ext.data h1 h2 h3
  · obtain ⟨stem, h⟩ := cleanChars_append_ext (a ++ "/" ++ f).data
    refine ⟨String.mk stem, fun ext h1 h2 h3 => ?_⟩
    unfold Join Clean
    rw [if_pos ha]
    apply String.ext
    have := h ext.data h1 h2 h3
    simp only [String.data_append] at this ⊢
    simp only [List.append_assoc] at this ⊢
    exact this

end filepath

/-- The three files of a bundle have three different paths. -/
theorem bundle_paths_ne (config : UserConfig) :
    certPath config ≠ keyPath config ∧ certPath config ≠ issuerPath config ∧
      keyPath config ≠ issuerPath config := by
  obtain ⟨stem, h⟩ := filepath.Join_ext config.OutputDirectory config.Filename
  have hc := h ".crt" (by decide) (by decide) (by decide)
  have hk := h ".key" (by decide) (by decide) (by decide)
  have hi := h ".issuer.crt" (by decide) (by decide) (by decide)
  unfold certPath keyPath issuerPath
  rw [hc, hk, hi]
  refine ⟨fun e => ?_, fun e => ?_, fun e => ?_⟩
  · have := congrArg String.data e
    simp at this
  · have := congrArg String.data e
    simp at this
  · have := congrArg String.data e
    simp at this

/-! ## Lemmas on the arithmetic of `float64` -/

namespace strconv

/-- The halvings counted by `log2Aux`, with enough fuel. -/
theorem log2Aux_spec (fuel n : Nat) (hf : n ≤ fuel) (hn : 0 < n) :
    2 ^ log2Aux fuel n ≤ n ∧ n < 2 ^ (log2Aux fuel n + 1) := by
  induction fuel generalizing n with
  | zero => omega
  | succ fuel ih =>
    unfold log2Aux
    by_cases h2 : n < 2
    · rw [if_pos h2]
      have : n = 1 := by omega
      subst this
      exact ⟨by norm_num, by norm_num⟩
    · rw [if_neg h2]
      obtain ⟨h1, h3⟩ := ih (n / 2) (by omega) (by omega)
      have e1 : 2 ^ (log2Aux fuel (n / 2) + 1) = 2 * 2 ^ log2Aux fuel (n / 2) := by
        rw [pow_succ]; ring
      have e2 : 2 ^ (log2Aux fuel (n / 2) + 1 + 1) = 2 * 2 ^ (log2Aux fuel (n / 2) + 1) := by
        rw [pow_succ]; ring
      rw [e2, e1]
      rw [e1] at h3
      constructor <;> omega

/-- The exponent found by `log2`. -/
theorem log2_spec (n : Nat) (hn : 0 < n) : 2 ^ log2 n ≤ n ∧ n < 2 ^ (log2 n + 1) :=
  log2Aux_spec n n (le_refl n) hn

/-- Every number is below the power of two after its exponent. -/
theorem lt_pow_log2 (n : Nat) : n < 2 ^ (log2 n + 1) := by
  rcases Nat.eq_zero_or_pos n with rfl | h
  · positivity
  · exact (log2_spec n h).2

/-- A number below `2 ^ k` has an exponent below `k`. -/
theorem log2_lt_of_lt (n k : Nat) (hk : 0 < k) (h : n < 2 ^ k) : log2 n < k := by
  rcases Nat.eq_zero_or_pos n with rfl | hn
  · exact hk
  · exact (Nat.pow_lt_pow_iff_right (by norm_num)).1 (lt_of_le_of_lt (log2_spec n hn).1 h)

/-- A number that is at least `2 ^ k` has an exponent of `k` at least. -/
theorem le_log2 (n k : Nat) (h : 2 ^ k ≤ n) : k ≤ log2 n := by
  have hn : 0 < n := lt_of_lt_of_le (by positivity) h
  have h2 := (Nat.pow_lt_pow_iff_right (by norm_num)).1 (lt_of_le_of_lt h (log2_spec n hn).2)
  omega

/-- The rounded quotient is within one half of the quotient. -/
theorem roundQuot_bounds (num den : Nat) (hden : 0 < den) :
    2 * (roundQuot num den * den) ≤ 2 * num + den ∧
    2 * num ≤ 2 * (roundQuot num den * den) + den := by
  have hdm := Nat.div_add_mod num den
  have hr := Nat.mod_lt num hden
  have e0 : den * (num / den) = num / den * den := Nat.mul_comm _ _
  have e1 : (num / den + 1) * den = num / den * den + den := by ring
  unfold roundQuot
  split_ifs
  · constructor <;> omega
  · rw [e1]; constructor <;> omega
  · constructor <;> omega
  · rw [e1]; constructor <;> omega

/-- Rounding zero. -/
theorem roundQuot_zero (den : Nat) : roundQuot 0 den = 0 := by
  unfold roundQuot
  rcases Nat.eq_zero_or_pos den with rfl | h
  · simp
  · rw [Nat.zero_mod, if_pos (by omega), Nat.zero_div]

end strconv

/-- The exponent of the rounding of a quotient below `2 ^ k`. -/
theorem roundExp_le (p q k : Nat) (hq : 0 < q) (hlt : p < q * 2 ^ k) :
    roundExp p q ≤ k + 1021 := by
  unfold roundExp
  have h1 : p * 2 ^ 1074 / q < 2 ^ (k + 1074) := by
    rw [Nat.div_lt_iff_lt_mul hq]
    calc p * 2 ^ 1074 < q * 2 ^ k * 2 ^ 1074 := Nat.mul_lt_mul_of_pos_right hlt (by positivity)
      _ = 2 ^ (k + 1074) * q := by rw [pow_add]; ring
  have := strconv.log2_lt_of_lt _ (k + 1074) (by omega) h1
  generalize strconv.log2 (p * 2 ^ 1074 / q) = L at this ⊢
  omega

/-- The exponent of the rounding of a quotient that is at least `2 ^ (k - 1022)`. -/
theorem roundExp_ge (p q k : Nat) (hq : 0 < q) (h : q * 2 ^ (k + 52) ≤ p * 2 ^ 1074) :
    k ≤ roundExp p q := by
  unfold roundExp
  have h1 : 2 ^ (k + 52) ≤ p * 2 ^ 1074 / q := by
    rw [Nat.le_div_iff_mul_le hq]
    exact le_of_eq_of_le (Nat.mul_comm (2 ^ (k + 52)) q) h
  have := strconv.le_log2 _ _ h1
  generalize strconv.log2 (p * 2 ^ 1074 / q) = L at this ⊢
  omega

/-- The quotient is below `2 ^ 53` units of the last place. -/
theorem roundExp_upper (p q : Nat) (hq : 0 < q) :
    p * 2 ^ 1074 < q * 2 ^ (roundExp p q + 53) := by
  have h1 := strconv.lt_pow_log2 (p * 2 ^ 1074 / q)
  have h2 : 2 ^ (strconv.log2 (p * 2 ^ 1074 / q) + 1) ≤ 2 ^ (roundExp p q + 53) := by
    apply Nat.pow_le_pow_right (by norm_num)
    unfold roundExp
    generalize strconv.log2 (p * 2 ^ 1074 / q) = L
    omega
  have h3 := lt_of_lt_of_le h1 h2
  rw [Nat.div_lt_iff_lt_mul hq] at h3
  exact lt_of_lt_of_eq h3 (Nat.mul_comm (2 ^ (roundExp p q + 53)) q)

/-- Above the subnormal range the quotient is at least `2 ^ 52` units of the
last place. -/
theorem roundExp_lower (p q : Nat) (hq : 0 < q) (hj : 1 ≤ roundExp p q) :
    q * 2 ^ (roundExp p q + 52) ≤ p * 2 ^ 1074 := by
  have hpos : 0 < p * 2 ^ 1074 / q := by
    by_contra h0
    have h0 : p * 2 ^ 1074 / q = 0 := Nat.eq_zero_of_not_pos h0
    unfold roundExp at hj
    rw [h0] at hj
    have : strconv.log2 0 = 0 := rfl
    omega
  have h1 := (strconv.log2_spec _ hpos).1
  have e : strconv.log2 (p * 2 ^ 1074 / q) = roundExp p q + 52 := by
    unfold roundExp at hj ⊢
    generalize strconv.log2 (p * 2 ^ 1074 / q) = L at hj ⊢
    omega
  rw [e, Nat.le_div_iff_mul_le hq] at h1
  exact le_of_eq_of_le (Nat.mul_comm q (2 ^ (roundExp p q + 52))) h1

/-- The mantissa has 53 bits, or is `2 ^ 53`. -/
theorem roundMant_le (p q : Nat) (hq : 0 < q) : roundMant p q ≤ 2 ^ 53 := by
  have hQ : 0 < q * 2 ^ roundExp p q := Nat.mul_pos hq (by positivity)
  have hb := (strconv.roundQuot_bounds (p * 2 ^ 1074) (q * 2 ^ roundExp p q) hQ).1
  have hu := roundExp_upper p q hq
  have e : q * 2 ^ (roundExp p q + 53) = 2 ^ 53 * (q * 2 ^ roundExp p q) := by
    rw [pow_add]; ring
  rw [e] at hu
  unfold roundMant
  generalize strconv.roundQuot (p * 2 ^ 1074) (q * 2 ^ roundExp p q) = n at hb
  generalize q * 2 ^ roundExp p q = Q at hQ hb hu
  by_contra hn
  push_neg at hn
  have h1 : (2 ^ 53 + 1) * Q ≤ n * Q := Nat.mul_le_mul_right Q hn
  have e2 : (2 ^ 53 + 1) * Q = 2 ^ 53 * Q + Q := by ring
  omega

/-- The rounding of a quotient below `2 ^ 53` is finite. -/
theorem roundFloat64_finite (neg : Bool) (p q : Nat) (hq : 0 < q) (hlt : p < q * 2 ^ 53) :
    roundFloat64 neg p q = .finite neg (roundMant p q) ((roundExp p q : Int) - 1074) := by
  have hj := roundExp_le p q 53 hq hlt
  have hn := roundMant_le p q hq
  unfold roundFloat64
  rw [if_neg]
  rw [not_le]
  calc roundMant p q * 2 ^ roundExp p q ≤ 2 ^ 53 * 2 ^ 1074 :=
        Nat.mul_le_mul hn (Nat.pow_le_pow_right (by norm_num) hj)
    _ = 2 ^ 1127 := by rw [← pow_add]
    _ < 2 ^ 2098 := Nat.pow_lt_pow_right (by norm_num) (by norm_num)

/-- From whole numbers to quotients: the bounds of a rounding. -/
theorem near_of_bounds (p q j n T P : ℕ) (x : ℚ) (hq : 0 < q) (hx : x * q = p)
    (hP : P = p * (2 ^ j * T))
    (hb1 : 2 * (n * (q * 2 ^ j)) ≤ 2 * P + q * 2 ^ j)
    (hb2 : 2 * P ≤ 2 * (n * (q * 2 ^ j)) + q * 2 ^ j)
    (hu : P < q * 2 ^ (j + 53))
    (hl : 1 ≤ j → q * 2 ^ (j + 52) ≤ P) :
    2 * (n : ℚ) ≤ 2 * x * T + 1 ∧
    2 * x * T ≤ 2 * (n : ℚ) + 1 ∧
    x * T < 2 ^ 53 ∧
    (1 ≤ j → (2 : ℚ) ^ 52 ≤ x * T) := by
  subst hP
  have hqQ : (0 : ℚ) < q := by exact_mod_cast hq
  have hjQ : (0 : ℚ) < (2 : ℚ) ^ j := by positivity
  have hpos : (0 : ℚ) < q * 2 ^ j := by positivity
  have c1 : (2 * (n : ℚ)) * (q * 2 ^ j) ≤ (2 * x * T + 1) * (q * 2 ^ j) := by
    have e : (2 * x * T + 1) * (q * 2 ^ j) = 2 * ((p : ℚ) * (2 ^ j * T)) + q * 2 ^ j := by
      rw [← hx]; ring
    rw [e]
    have e2 : (2 * (n : ℚ)) * (q * 2 ^ j) = ((2 * (n * (q * 2 ^ j)) : ℕ) : ℚ) := by
      push_cast; ring
    rw [e2]
    exact_mod_cast hb1
  have c2 : (2 * x * T) * (q * 2 ^ j) ≤ (2 * (n : ℚ) + 1) * (q * 2 ^ j) := by
    have e : (2 * x * T) * (q * 2 ^ j) = 2 * ((p : ℚ) * (2 ^ j * T)) := by
      rw [← hx]; ring
    rw [e]
    have e2 : (2 * (n : ℚ) + 1) * (q * 2 ^ j)
        = ((2 * (n * (q * 2 ^ j)) + q * 2 ^ j : ℕ) : ℚ) := by
      push_cast; ring
    rw [e2]
    exact_mod_cast hb2
  have c3 : (x * T) * (q * 2 ^ j) < 2 ^ 53 * (q * 2 ^ j) := by
    have e : (x * T) * (q * 2 ^ j) = (p : ℚ) * (2 ^ j * T) := by
      rw [← hx]; ring
    rw [e]
    have e2 : (2 : ℚ) ^ 53 * (q * 2 ^ j) = ((q * 2 ^ (j + 53) : ℕ) : ℚ) := by
      push_cast; rw [pow_add]; ring
    rw [e2]
    exact_mod_cast hu
  refine ⟨le_of_mul_le_mul_right c1 hpos, le_of_mul_le_mul_right c2 hpos,
    lt_of_mul_lt_mul_right c3 hpos.le, fun h1 => ?_⟩
  have c4 : (2 : ℚ) ^ 52 * (q * 2 ^ j) ≤ (x * T) * (q * 2 ^ j) := by
    have e : (x * T) * (q * 2 ^ j) = (p : ℚ) * (2 ^ j * T) := by
      rw [← hx]; ring
    rw [e]
    have e2 : (2 : ℚ) ^ 52 * (q * 2 ^ j) = ((q * 2 ^ (j + 52) : ℕ) : ℚ) := by
      push_cast; rw [pow_add]; ring
    rw [e2]
    exact_mod_cast hl h1
  exact le_of_mul_le_mul_right c4 hpos

/-- The rounding of `p / q`, seen from the quotient `x`: with `T` the number of
units of the last place in 1, the mantissa is within one half of `x * T`, which
is below `2 ^ 53`, and at least `2 ^ 52` above the subnormal range. -/
theorem roundFloat64_near (p q : Nat) (hq : 0 < q) (hlt : p < q * 2 ^ 53) (x : ℚ)
    (hx : x * q = p) :
    2 * (roundMant p q : ℚ) ≤ 2 * x * (2 ^ (1074 - roundExp p q) : ℕ) + 1 ∧
    2 * x * (2 ^ (1074 - roundExp p q) : ℕ) ≤ 2 * (roundMant p q : ℚ) + 1 ∧
    x * (2 ^ (1074 - roundExp p q) : ℕ) < 2 ^ 53 ∧
    (1 ≤ roundExp p q → (2 : ℚ) ^ 52 ≤ x * (2 ^ (1074 - roundExp p q) : ℕ)) := by
  have hj := roundExp_le p q 53 hq hlt
  have hQ : 0 < q * 2 ^ roundExp p q := Nat.mul_pos hq (by positivity)
  have hb := strconv.roundQuot_bounds (p * 2 ^ 1074) (q * 2 ^ roundExp p q) hQ
  have hU : 2 ^ 1074 = 2 ^ roundExp p q * 2 ^ (1074 - roundExp p q) := by
    rw [← pow_add, Nat.add_sub_cancel' hj]
  exact near_of_bounds p q (roundExp p q) (roundMant p q) (2 ^ (1074 - roundExp p q))
    (p * 2 ^ 1074) x hq hx (congrArg (fun t => p * t) hU) hb.1 hb.2 (roundExp_upper p q hq)
    (roundExp_lower p q hq)

/-- The arithmetic of the three roundings in `int(d.Hours() / 24.0)`, for `h`
whole hours and `m` nanoseconds: `n1 / T1` is the rounded quotient `m / Hour`,
`n2 / T2` the rounded sum with `h`, `n3 / T3` the rounded quotient by 24, every
mantissa being within one half of what it rounds. Below 171 days less one
nanosecond (4103 hours and `Hour - 1` nanoseconds) the whole part of the last
one is `h / 24`. -/
theorem days_arith (h m n1 n2 n3 T1 T2 T3 : ℕ) (hm : m < 3600000000000) (hh : h ≤ 4103)
    (hm2 : h = 4103 → m + 2 ≤ 3600000000000)
    (hT1 : 2 ^ 52 < T1) (hT2 : h ≤ 4095 → 2 ^ 41 ≤ T2) (hT2b : 2 ^ 40 ≤ T2)
    (hT3 : 16 * T2 ≤ T3)
    (A1 : 2 * (n1 : ℚ) ≤ 2 * ((m : ℚ) / 3600000000000) * T1 + 1)
    (B1 : 2 * (n2 : ℚ) ≤ 2 * ((h : ℚ) + n1 / T1) * T2 + 1)
    (B2 : 2 * ((h : ℚ) + n1 / T1) * T2 ≤ 2 * (n2 : ℚ) + 1)
    (C1 : 2 * (n3 : ℚ) ≤ 2 * ((n2 : ℚ) / (24 * T2)) * T3 + 1)
    (C2 : 2 * ((n2 : ℚ) / (24 * T2)) * T3 ≤ 2 * (n3 : ℚ) + 1) :
    h / 24 * T3 ≤ n3 ∧ n3 < (h / 24 + 1) * T3 := by
  have hT1n : 0 < T1 := lt_trans (by positivity) hT1
  have hT2pos : 0 < T2 := lt_of_lt_of_le (by positivity) hT2b
  have hT3n : 0 < T3 := by omega
  have hT1q : (0 : ℚ) < T1 := by exact_mod_cast hT1n
  have hT2q : (0 : ℚ) < T2 := by exact_mod_cast hT2pos
  have hT3q : (0 : ℚ) < T3 := by exact_mod_cast hT3n
  -- the rounded fraction of an hour
  have hv1_nonneg : (0 : ℚ) ≤ n1 / T1 := by positivity
  have hv1_le : (n1 : ℚ) / T1 ≤ (m : ℚ) / 3600000000000 + 1 / (2 * T1) := by
    rw [div_le_iff₀ hT1q]
    have e : ((m : ℚ) / 3600000000000 + 1 / (2 * T1)) * T1
        = (m : ℚ) / 3600000000000 * T1 + 1 / 2 := by
      field_simp
      ring
    rw [e]
    linarith
  have hT1big : (2 : ℚ) ^ 52 < T1 := by exact_mod_cast hT1
  have hT1inv : 1 / (2 * (T1 : ℚ)) < 1 / 2 ^ 53 := by
    apply one_div_lt_one_div_of_lt (by positivity)
    have : (2 : ℚ) ^ 53 = 2 * 2 ^ 52 := by norm_num
    linarith
  have hmH : (m : ℚ) / 3600000000000 ≤ 1 - 1 / 3600000000000 := by
    rw [div_le_iff₀ (by norm_num)]
    have : (m : ℚ) + 1 ≤ 3600000000000 := by exact_mod_cast hm
    norm_num
    linarith
  have hv1_lt : (n1 : ℚ) / T1 < 1 - 1 / 3600000000000 + 1 / 2 ^ 53 := by linarith
  have hv1_lt1 : (n1 : ℚ) / T1 < 1 := by
    have : (1 : ℚ) / 2 ^ 53 < 1 / 3600000000000 := by norm_num
    linarith
  generalize (n1 : ℚ) / T1 = v1 at *
  -- the rounded sum
  have h2a : h * T2 ≤ n2 := by
    have : (2 : ℚ) * (h * T2) ≤ 2 * n2 + 1 := by
      have h0 := mul_nonneg hv1_nonneg hT2q.le
      have e : 2 * ((h : ℚ) + v1) * T2 = 2 * (h * T2) + 2 * (v1 * T2) := by ring
      linarith
    have : 2 * (h * T2) ≤ 2 * n2 + 1 := by exact_mod_cast this
    omega
  have h2b : n2 ≤ (h + 1) * T2 := by
    have : (2 : ℚ) * n2 < 2 * ((h + 1) * T2) + 1 := by
      have h0 := mul_lt_mul_of_pos_right hv1_lt1 hT2q
      have e : 2 * ((h : ℚ) + v1) * T2 = 2 * (h * T2) + 2 * (v1 * T2) := by ring
      have e2 : 2 * (((h : ℚ) + 1) * T2) = 2 * (h * T2) + 2 * (1 * T2) := by ring
      linarith
    have : 2 * n2 < 2 * ((h + 1) * T2) + 1 := by exact_mod_cast this
    omega
  have h2c : h ≤ 4095 → n2 < (h + 1) * T2 := by
    intro h4
    have hT2big : (2 : ℚ) ^ 41 ≤ T2 := by exact_mod_cast hT2 h4
    have hc : (1 : ℚ) / 3600000000000 - 1 / 2 ^ 53 < 1 - v1 := by linarith
    have hc0 : (0 : ℚ) < 1 / 3600000000000 - 1 / 2 ^ 53 := by norm_num
    have h1 : (1 / 3600000000000 - 1 / 2 ^ 53 : ℚ) * 2 ^ 41 ≤ (1 - v1) * T2 :=
      mul_le_mul hc.le hT2big (by positivity) (by linarith)
    have h2 : (1 : ℚ) / 2 < (1 / 3600000000000 - 1 / 2 ^ 53 : ℚ) * 2 ^ 41 := by norm_num
    have : (2 : ℚ) * n2 < 2 * ((h + 1) * T2) := by
      have e : 2 * ((h : ℚ) + v1) * T2 = 2 * ((h + 1) * T2) - 2 * ((1 - v1) * T2) := by ring
      linarith
    have : 2 * n2 < 2 * ((h + 1) * T2) := by exact_mod_cast this
    omega
  have h2c2 : m + 2 ≤ 3600000000000 → n2 < (h + 1) * T2 := by
    intro h4
    have hT2big : (2 : ℚ) ^ 40 ≤ T2 := by exact_mod_cast hT2b
    have hmH2 : (m : ℚ) / 3600000000000 ≤ 1 - 2 / 3600000000000 := by
      rw [div_le_iff₀ (by norm_num)]
      have : (m : ℚ) + 2 ≤ 3600000000000 := by exact_mod_cast h4
      norm_num
      linarith
    have hc : (2 : ℚ) / 3600000000000 - 1 / 2 ^ 53 < 1 - v1 := by linarith
    have hc0 : (0 : ℚ) < 2 / 3600000000000 - 1 / 2 ^ 53 := by norm_num
    have h1 : (2 / 3600000000000 - 1 / 2 ^ 53 : ℚ) * 2 ^ 40 ≤ (1 - v1) * T2 :=
      mul_le_mul hc.le hT2big (by positivity) (by linarith)
    have h2 : (1 : ℚ) / 2 < (2 / 3600000000000 - 1 / 2 ^ 53 : ℚ) * 2 ^ 40 := by norm_num
    have : (2 : ℚ) * n2 < 2 * ((h + 1) * T2) := by
      have e : 2 * ((h : ℚ) + v1) * T2 = 2 * ((h + 1) * T2) - 2 * ((1 - v1) * T2) := by ring
      linarith
    have : 2 * n2 < 2 * ((h + 1) * T2) := by exact_mod_cast this
    omega
  have h2d : 24 * (h / 24) * T2 ≤ n2 :=
    le_trans (Nat.mul_le_mul_right T2 (by omega)) h2a
  have h2e : n2 + 1 ≤ 24 * (h / 24 + 1) * T2 := by
    by_cases hr : h % 24 = 23
    · have e : h + 1 = 24 * (h / 24 + 1) := by omega
      have : n2 < (h + 1) * T2 := by
        by_cases h4 : h ≤ 4095
        · exact h2c h4
        · exact h2c2 (hm2 (by omega))
      rw [e] at this
      omega
    · have h1 : (h + 1) * T2 ≤ (24 * (h / 24) + 23) * T2 :=
        Nat.mul_le_mul_right T2 (by omega)
      have e : 24 * (h / 24 + 1) * T2 = (24 * (h / 24) + 23) * T2 + T2 := by ring
      omega
  -- the rounded quotient by 24
  have hx3 : (n2 : ℚ) / (24 * T2) * (24 * T2) = n2 := by field_simp
  have hlow : ((h / 24 : ℕ) : ℚ) ≤ (n2 : ℚ) / (24 * T2) := by
    rw [le_div_iff₀ (by positivity)]
    have : ((24 * (h / 24) * T2 : ℕ) : ℚ) ≤ n2 := by exact_mod_cast h2d
    push_cast at this
    linarith
  have hhigh : (n2 : ℚ) / (24 * T2) ≤ ((h / 24 : ℕ) : ℚ) + 1 - 1 / (24 * T2) := by
    rw [div_le_iff₀ (by positivity)]
    have e : (((h / 24 : ℕ) : ℚ) + 1 - 1 / (24 * T2)) * (24 * T2)
        = 24 * (((h / 24 : ℕ) : ℚ) + 1) * T2 - 1 := by
      field_simp
      ring
    rw [e]
    have : ((n2 + 1 : ℕ) : ℚ) ≤ ((24 * (h / 24 + 1) * T2 : ℕ) : ℚ) := by exact_mod_cast h2e
    push_cast at this
    linarith
  generalize (n2 : ℚ) / (24 * T2) = x3 at *
  generalize h / 24 = K at *
  constructor
  · have : (2 : ℚ) * (K * T3) ≤ 2 * n3 + 1 := by
      have h0 := mul_le_mul_of_nonneg_right hlow hT3q.le
      have e : 2 * x3 * T3 = 2 * (x3 * T3) := by ring
      linarith
    have : 2 * (K * T3) ≤ 2 * n3 + 1 := by exact_mod_cast this
    omega
  · have hT32 : (16 : ℚ) * T2 ≤ T3 := by exact_mod_cast hT3
    have h1 : x3 * T3 ≤ ((K : ℚ) + 1 - 1 / (24 * T2)) * T3 :=
      mul_le_mul_of_nonneg_right hhigh hT3q.le
    have h2 : (1 : ℚ) / (24 * T2) * T3 ≥ 16 / 24 := by
      rw [ge_iff_le, div_mul_eq_mul_div, le_div_iff₀ (by positivity)]
      linarith
    have : (2 : ℚ) * n3 < 2 * ((K + 1) * T3) := by
      have e : 2 * x3 * T3 = 2 * (x3 * T3) := by ring
      have e2 : ((K : ℚ) + 1 - 1 / (24 * T2)) * T3 = (K + 1) * T3 - 1 / (24 * T2) * T3 := by
        ring
      linarith
    have : 2 * n3 < 2 * ((K + 1) * T3) := by exact_mod_cast this
    omega

/-- The exponent of the rounding of a quotient below `2 ^ b / 2 ^ a`. -/
theorem roundExp_add_le (p q a b : Nat) (hq : 0 < q) (hlt : p * 2 ^ a < q * 2 ^ b)
    (hab : a ≤ b + 1021) : roundExp p q + a ≤ b + 1021 := by
  unfold roundExp
  have h0 : p * 2 ^ 1074 * 2 ^ a < q * 2 ^ (b + 1074 - a) * 2 ^ a := by
    have e1 : p * 2 ^ 1074 * 2 ^ a = p * 2 ^ a * 2 ^ 1074 := by ring
    have e2 : q * 2 ^ (b + 1074 - a) * 2 ^ a = q * 2 ^ b * 2 ^ 1074 := by
      rw [Nat.mul_assoc, ← pow_add, Nat.sub_add_cancel (by omega), pow_add, Nat.mul_assoc]
    rw [e1, e2]
    exact Nat.mul_lt_mul_of_pos_right hlt (by positivity)
  have h1 : p * 2 ^ 1074 / q < 2 ^ (b + 1074 - a) := by
    rw [Nat.div_lt_iff_lt_mul hq]
    exact lt_of_lt_of_eq (Nat.lt_of_mul_lt_mul_right h0) (Nat.mul_comm q _)
  have := strconv.log2_lt_of_lt _ (b + 1074 - a) (by omega) h1
  generalize strconv.log2 (p * 2 ^ 1074 / q) = L at this ⊢
  omega

/-- The mantissa of the rounding of zero. -/
theorem roundMant_zero (q : Nat) : roundMant 0 q = 0 := by
  unfold roundMant
  rw [Nat.zero_mul]
  exact strconv.roundQuot_zero _

/-- The rounding of zero is a zero. -/
theorem roundFloat64_zero (s : Bool) (q : Nat) :
    roundFloat64 s 0 q = .finite s 0 ((roundExp 0 q : Int) - 1074) := by
  unfold roundFloat64
  rw [roundMant_zero, Nat.zero_mul, if_neg]
  intro h
  exact absurd (Nat.le_zero.mp h) (pow_ne_zero 2098 (by norm_num))

/-- A rounding is infinite or finite, with the sign it was given. -/
theorem roundFloat64_cases (s : Bool) (p q : Nat) :
    roundFloat64 s p q = .inf s ∨ ∃ n e, roundFloat64 s p q = .finite s n e := by
  unfold roundFloat64
  split
  · exact Or.inl rfl
  · exact Or.inr ⟨_, _, rfl⟩

namespace Float64

/-- The numerator of a finite value with an exponent of at most 0. -/
theorem numer_finite (s : Bool) (n j : Nat) (hj : j ≤ 1074) :
    (Float64.finite s n ((j : Int) - 1074)).numer = n := by
  have e : ((j : Int) - 1074).toNat = 0 := by omega
  show n * 2 ^ ((j : Int) - 1074).toNat = n
  rw [e, pow_zero, Nat.mul_one]

/-- The denominator of a finite value with an exponent of at most 0. -/
theorem denom_finite (s : Bool) (n j : Nat) (hj : j ≤ 1074) :
    (Float64.finite s n ((j : Int) - 1074)).denom = 2 ^ (1074 - j) := by
  have e : (-((j : Int) - 1074)).toNat = 1074 - j := by omega
  show 2 ^ (-((j : Int) - 1074)).toNat = 2 ^ (1074 - j)
  rw [e]

/-- The signed numerator of a finite value whose sign is `sg` unless it is a zero. -/
theorem signedNumer_finite (sg s : Bool) (n j : Nat) (hj : j ≤ 1074) (hs : s = sg ∨ n = 0) :
    (Float64.finite s n ((j : Int) - 1074)).signedNumer = if sg then -(n : Int) else (n : Int) := by
  unfold signedNumer
  rw [numer_finite s n j hj]
  show (if s then -(n : Int) else (n : Int)) = _
  rcases hs with rfl | rfl
  · rfl
  · cases s <;> cases sg <;> simp

/-- The quotient of a finite value by a positive whole number. -/
theorem div_finite (s : Bool) (n j c : Nat) (hj : j ≤ 1074) (hc : c ≠ 0) :
    (Float64.finite s n ((j : Int) - 1074)).div (.finite false c 0)
      = roundFloat64 s n (2 ^ (1074 - j) * c) := by
  have hn := numer_finite s n j hj
  have hd := denom_finite s n j hj
  show (if c = 0 then (if n = 0 then Float64.nan else .inf (xor s false))
    else roundFloat64 (xor s false)
      ((Float64.finite s n ((j : Int) - 1074)).numer * (Float64.finite false c 0).denom)
      ((Float64.finite s n ((j : Int) - 1074)).denom * (Float64.finite false c 0).numer)) = _
  rw [if_neg hc, hn, hd]
  have e1 : (Float64.finite false c 0).denom = 1 := rfl
  have e2 : (Float64.finite false c 0).numer = c := by
    show c * 2 ^ (0 : Int).toNat = c
    simp
  rw [e1, e2, Nat.mul_one, Bool.xor_false]

/-- The sum of two finite values of one sign, when it is not zero. -/
theorem add_finite (sg s1 s2 : Bool) (n1 n2 j1 j2 : Nat) (h1 : j1 ≤ 1074) (h2 : j2 ≤ 1074)
    (hs1 : s1 = sg ∨ n1 = 0) (hs2 : s2 = sg ∨ n2 = 0)
    (hne : n1 * 2 ^ (1074 - j2) + n2 * 2 ^ (1074 - j1) ≠ 0) :
    (Float64.finite s1 n1 ((j1 : Int) - 1074)).add (.finite s2 n2 ((j2 : Int) - 1074))
      = roundFloat64 sg (n1 * 2 ^ (1074 - j2) + n2 * 2 ^ (1074 - j1))
          (2 ^ (1074 - j1) * 2 ^ (1074 - j2)) := by
  have ha := signedNumer_finite sg s1 n1 j1 h1 hs1
  have hb := signedNumer_finite sg s2 n2 j2 h2 hs2
  have da := denom_finite s1 n1 j1 h1
  have db := denom_finite s2 n2 j2 h2
  generalize hA : Float64.finite s1 n1 ((j1 : Int) - 1074) = A at ha da
  generalize hB : Float64.finite s2 n2 ((j2 : Int) - 1074) = B at hb db
  have key : A.add B =
      if A.signedNumer * B.denom + B.signedNumer * A.denom = 0 then .finite (s1 && s2) 0 0
      else roundFloat64 (decide (A.signedNumer * B.denom + B.signedNumer * A.denom < 0))
        (A.signedNumer * B.denom + B.signedNumer * A.denom).natAbs (A.denom * B.denom) := by
    subst hA hB
    rfl
  rw [key, ha, hb, da, db]
  generalize 2 ^ (1074 - j1) = T1 at hne ⊢
  generalize 2 ^ (1074 - j2) = T2 at hne ⊢
  cases sg
  · have e : (if false = true then -(n1 : Int) else (n1 : Int)) * ((T2 : Nat) : Int)
        + (if false = true then -(n2 : Int) else (n2 : Int)) * ((T1 : Nat) : Int)
        = ((n1 * T2 + n2 * T1 : Nat) : Int) := by
      push_cast
      simp
    rw [e]
    generalize n1 * T2 + n2 * T1 = N at hne ⊢
    have hd : decide ((N : Int) < 0) = false := decide_eq_false (by omega)
    rw [if_neg (by omega), Int.natAbs_ofNat, hd]
  · have e : (if true = true then -(n1 : Int) else (n1 : Int)) * ((T2 : Nat) : Int)
        + (if true = true then -(n2 : Int) else (n2 : Int)) * ((T1 : Nat) : Int)
        = -((n1 * T2 + n2 * T1 : Nat) : Int) := by
      push_cast
      simp
      ring
    rw [e]
    generalize n1 * T2 + n2 * T1 = N at hne ⊢
    have hd : decide (-(N : Int) < 0) = true := decide_eq_true (by omega)
    rw [if_neg (by omega), Int.natAbs_neg, Int.natAbs_ofNat, hd]

/-- The whole part of a finite value with a negative exponent. -/
theorem trunc_finite (s : Bool) (n j : Nat) (hj : j < 1074) :
    (Float64.finite s n ((j : Int) - 1074)).trunc
      = some (if s then -((n / 2 ^ (1074 - j) : Nat) : Int) else ((n / 2 ^ (1074 - j) : Nat) : Int)) := by
  have e : (-((j : Int) - 1074)).toNat = 1074 - j := by omega
  have hneg : ¬ (0 : Int) ≤ (j : Int) - 1074 := by omega
  show some (if s then
      -(((if (0 : Int) ≤ (j : Int) - 1074 then n * 2 ^ ((j : Int) - 1074).toNat
        else n / 2 ^ (-((j : Int) - 1074)).toNat : Nat)) : Int)
    else (((if (0 : Int) ≤ (j : Int) - 1074 then n * 2 ^ ((j : Int) - 1074).toNat
        else n / 2 ^ (-((j : Int) - 1074)).toNat : Nat)) : Int)) = _
  rw [if_neg hneg, e]

end Float64

/-- The conversion of a whole number below `2 ^ 53` is exact. -/
theorem roundFloat64_int (s : Bool) (k : Nat) (hk : k < 2 ^ 53) :
    roundExp k 1 ≤ 1074 ∧
    roundFloat64 s k 1
      = .finite s (k * 2 ^ (1074 - roundExp k 1)) ((roundExp k 1 : Int) - 1074) := by
  have hlt : k < 1 * 2 ^ 53 := by rwa [Nat.one_mul]
  have hj : roundExp k 1 ≤ 1074 := roundExp_le k 1 53 Nat.one_pos hlt
  obtain ⟨a1, a2, -, -⟩ := roundFloat64_near k 1 Nat.one_pos hlt (k : ℚ) (by simp)
  refine ⟨hj, ?_⟩
  rw [roundFloat64_finite s k 1 Nat.one_pos hlt]
  generalize roundMant k 1 = n at a1 a2 ⊢
  generalize 2 ^ (1074 - roundExp k 1) = T at a1 a2 ⊢
  have b1 : 2 * n ≤ 2 * k * T + 1 := by exact_mod_cast a1
  have b2 : 2 * k * T ≤ 2 * n + 1 := by exact_mod_cast a2
  have e : 2 * k * T = 2 * (k * T) := by ring
  rw [e] at b1 b2
  have : n = k * T := by omega
  rw [this]

/-- A mantissa within one half of a fraction of an hour is below one. -/
theorem frac_lt (m n1 T1 : ℕ) (hm : m < 3600000000000) (hT1 : 2 ^ 52 < T1)
    (A1 : 2 * (n1 : ℚ) ≤ 2 * ((m : ℚ) / 3600000000000) * T1 + 1) : n1 < T1 := by
  have hT1q : (2 : ℚ) ^ 52 < T1 := by exact_mod_cast hT1
  have hmH : (m : ℚ) / 3600000000000 ≤ 1 - 1 / 3600000000000 := by
    rw [div_le_iff₀ (by norm_num)]
    have : (m : ℚ) + 1 ≤ 3600000000000 := by exact_mod_cast hm
    norm_num
    linarith
  have h1 : (m : ℚ) / 3600000000000 * T1 ≤ (1 - 1 / 3600000000000) * T1 :=
    mul_le_mul_of_nonneg_right hmH (by positivity)
  have h2 : (1 : ℚ) / 3600000000000 * 2 ^ 52 < 1 / 3600000000000 * T1 :=
    mul_lt_mul_of_pos_left hT1q (by norm_num)
  have h3 : (1 : ℚ) < 1 / 3600000000000 * 2 ^ 52 := by norm_num
  have : (2 : ℚ) * n1 < 2 * T1 := by
    have e : 2 * ((m : ℚ) / 3600000000000) * T1 = 2 * ((m : ℚ) / 3600000000000 * T1) := by
      ring
    have e2 : (1 - (1 : ℚ) / 3600000000000) * T1 = T1 - 1 / 3600000000000 * T1 := by ring
    linarith
  have : 2 * n1 < 2 * T1 := by exact_mod_cast this
  omega

/-- The rounding of `float64(nsec)/(60*60*1e9)`, for `m` nanoseconds in `T`
units each. -/
theorem frac_stage (s : Bool) (m T : Nat) (hT : 0 < T) (hm : m < 3600000000000) :
    roundFloat64 s (m * T) (T * 3600000000000)
      = .finite s (roundMant (m * T) (T * 3600000000000))
          ((roundExp (m * T) (T * 3600000000000) : Int) - 1074) ∧
    roundExp (m * T) (T * 3600000000000) ≤ 1021 ∧
    (1 ≤ m → 56 ≤ roundExp (m * T) (T * 3600000000000)) ∧
    (m = 0 → roundMant (m * T) (T * 3600000000000) = 0) ∧
    2 * (roundMant (m * T) (T * 3600000000000) : ℚ)
      ≤ 2 * ((m : ℚ) / 3600000000000)
          * (2 ^ (1074 - roundExp (m * T) (T * 3600000000000)) : ℕ) + 1 ∧
    roundMant (m * T) (T * 3600000000000)
      < 2 ^ (1074 - roundExp (m * T) (T * 3600000000000)) := by
  have hq : 0 < T * 3600000000000 := Nat.mul_pos hT (by norm_num)
  have hlt0 : m * T < T * 3600000000000 * 2 ^ 0 := by
    rw [pow_zero, Nat.mul_one, Nat.mul_comm m T]
    exact Nat.mul_lt_mul_of_pos_left hm hT
  have hlt : m * T < T * 3600000000000 * 2 ^ 53 := by
    rw [pow_zero, Nat.mul_one] at hlt0
    exact lt_of_lt_of_le hlt0 (Nat.le_mul_of_pos_right _ (by positivity))
  have hj : roundExp (m * T) (T * 3600000000000) ≤ 1021 := by
    have := roundExp_le _ _ 0 hq hlt0
    omega
  have hx : (m : ℚ) / 3600000000000 * ((T * 3600000000000 : ℕ) : ℚ) = ((m * T : ℕ) : ℚ) := by
    push_cast
    field_simp
    ring
  obtain ⟨a1, -, -, -⟩ := roundFloat64_near _ _ hq hlt _ hx
  have hT1 : 2 ^ 52 < 2 ^ (1074 - roundExp (m * T) (T * 3600000000000)) :=
    Nat.pow_lt_pow_right (by norm_num) (by omega)
  refine ⟨roundFloat64_finite s _ _ hq hlt, hj, fun h1 => ?_, fun h0 => ?_, a1,
    frac_lt m _ _ hm hT1 a1⟩
  · apply roundExp_ge _ _ 56 hq
    have hH : 3600000000000 * 2 ^ (56 + 52) ≤ 2 ^ 1074 :=
      calc 3600000000000 * 2 ^ (56 + 52) ≤ 2 ^ 42 * 2 ^ (56 + 52) :=
            Nat.mul_le_mul_right _ (by norm_num)
        _ = 2 ^ (42 + (56 + 52)) := (pow_add 2 42 (56 + 52)).symm
        _ ≤ 2 ^ 1074 := Nat.pow_le_pow_right (by norm_num) (by norm_num)
    calc T * 3600000000000 * 2 ^ (56 + 52) = T * (3600000000000 * 2 ^ (56 + 52)) :=
          Nat.mul_assoc _ _ _
      _ ≤ T * 2 ^ 1074 := Nat.mul_le_mul_left T hH
      _ ≤ m * T * 2 ^ 1074 := Nat.mul_le_mul_right _ (Nat.le_mul_of_pos_left T h1)
  · subst h0
    rw [Nat.zero_mul]
    exact roundMant_zero _

/-- The rounding of the sum `float64(hour) + fraction`, for `h` hours in `Th`
units each and a fraction `n1 / T1` of an hour. -/
theorem sum_stage (sg : Bool) (h Th n1 T1 : Nat) (hh : h ≤ 4103) (hTh : 0 < Th)
    (hT1 : 0 < T1) (hn1 : n1 < T1) (hlow : h = 0 → T1 * 2 ^ 56 ≤ 2 ^ 1074 ∧ 1 ≤ n1) :
    roundFloat64 sg (h * Th * T1 + n1 * Th) (Th * T1)
      = .finite sg (roundMant (h * Th * T1 + n1 * Th) (Th * T1))
          ((roundExp (h * Th * T1 + n1 * Th) (Th * T1) : Int) - 1074) ∧
    roundExp (h * Th * T1 + n1 * Th) (Th * T1) ≤ 1034 ∧
    (h ≤ 4095 → roundExp (h * Th * T1 + n1 * Th) (Th * T1) ≤ 1033) ∧
    4 ≤ roundExp (h * Th * T1 + n1 * Th) (Th * T1) ∧
    2 * (roundMant (h * Th * T1 + n1 * Th) (Th * T1) : ℚ)
      ≤ 2 * ((h : ℚ) + n1 / T1)
          * (2 ^ (1074 - roundExp (h * Th * T1 + n1 * Th) (Th * T1)) : ℕ) + 1 ∧
    2 * ((h : ℚ) + n1 / T1) * (2 ^ (1074 - roundExp (h * Th * T1 + n1 * Th) (Th * T1)) : ℕ)
      ≤ 2 * (roundMant (h * Th * T1 + n1 * Th) (Th * T1) : ℚ) + 1 := by
  have hq : 0 < Th * T1 := Nat.mul_pos hTh hT1
  have hp : h * Th * T1 + n1 * Th < (h + 1) * (Th * T1) := by
    have e : (h + 1) * (Th * T1) = h * Th * T1 + Th * T1 := by ring
    have : n1 * Th < Th * T1 := by
      rw [Nat.mul_comm n1 Th]
      exact Nat.mul_lt_mul_of_pos_left hn1 hTh
    omega
  have hlt13 : h * Th * T1 + n1 * Th < Th * T1 * 2 ^ 13 := by
    have : (h + 1) * (Th * T1) ≤ 2 ^ 13 * (Th * T1) :=
      Nat.mul_le_mul_right _ (by norm_num; omega)
    rw [Nat.mul_comm (Th * T1) (2 ^ 13)]
    omega
  have hlt : h * Th * T1 + n1 * Th < Th * T1 * 2 ^ 53 :=
    lt_of_lt_of_le hlt13
      (Nat.mul_le_mul_left _ (Nat.pow_le_pow_right (by norm_num) (by norm_num)))
  have hx : ((h : ℚ) + n1 / T1) * ((Th * T1 : ℕ) : ℚ) = ((h * Th * T1 + n1 * Th : ℕ) : ℚ) := by
    have : (T1 : ℚ) ≠ 0 := by exact_mod_cast hT1.ne.symm
    push_cast
    field_simp
    ring
  obtain ⟨b1, b2, -, -⟩ := roundFloat64_near _ _ hq hlt _ hx
  refine ⟨roundFloat64_finite sg _ _ hq hlt, ?_, fun h4 => ?_, ?_, b1, b2⟩
  · have := roundExp_le _ _ 13 hq hlt13
    omega
  · have hlt12 : h * Th * T1 + n1 * Th < Th * T1 * 2 ^ 12 := by
      have : (h + 1) * (Th * T1) ≤ 2 ^ 12 * (Th * T1) :=
        Nat.mul_le_mul_right _ (by norm_num; omega)
      rw [Nat.mul_comm (Th * T1) (2 ^ 12)]
      omega
    have := roundExp_le _ _ 12 hq hlt12
    omega
  · apply roundExp_ge _ _ 4 hq
    by_cases h0 : h = 0
    · obtain ⟨hT, hn⟩ := hlow h0
      calc Th * T1 * 2 ^ (4 + 52) = Th * (T1 * 2 ^ 56) := Nat.mul_assoc _ _ _
        _ ≤ Th * 2 ^ 1074 := Nat.mul_le_mul_left Th hT
        _ ≤ n1 * Th * 2 ^ 1074 := Nat.mul_le_mul_right _ (Nat.le_mul_of_pos_left Th hn)
        _ ≤ (h * Th * T1 + n1 * Th) * 2 ^ 1074 :=
          Nat.mul_le_mul_right _ (Nat.le_add_left _ _)
    · have h1 : Th * T1 ≤ h * Th * T1 + n1 * Th := by
        have : 1 * (Th * T1) ≤ h * (Th * T1) := Nat.mul_le_mul_right _ (by omega)
        have e : h * (Th * T1) = h * Th * T1 := by ring
        omega
      exact Nat.mul_le_mul h1 (Nat.pow_le_pow_right (by norm_num) (by norm_num))

/-- The rounding of the quotient by `24.0`, for a mantissa `n2` of at most 53
bits at the exponent `j2 - 1074`. -/
theorem quot_stage (s : Bool) (n2 j2 : Nat) (hn2 : n2 ≤ 2 ^ 53) (hj2 : 4 ≤ j2)
    (hj2b : j2 ≤ 1074) :
    roundFloat64 s n2 (2 ^ (1074 - j2) * 24)
      = .finite s (roundMant n2 (2 ^ (1074 - j2) * 24))
          ((roundExp n2 (2 ^ (1074 - j2) * 24) : Int) - 1074) ∧
    roundExp n2 (2 ^ (1074 - j2) * 24) + 4 ≤ j2 ∧
    2 * (roundMant n2 (2 ^ (1074 - j2) * 24) : ℚ)
      ≤ 2 * ((n2 : ℚ) / (24 * (2 ^ (1074 - j2) : ℕ)))
          * (2 ^ (1074 - roundExp n2 (2 ^ (1074 - j2) * 24)) : ℕ) + 1 ∧
    2 * ((n2 : ℚ) / (24 * (2 ^ (1074 - j2) : ℕ)))
        * (2 ^ (1074 - roundExp n2 (2 ^ (1074 - j2) * 24)) : ℕ)
      ≤ 2 * (roundMant n2 (2 ^ (1074 - j2) * 24) : ℚ) + 1 := by
  have hT : 0 < 2 ^ (1074 - j2) := by positivity
  generalize hT2 : 2 ^ (1074 - j2) = T2 at hT ⊢
  have hq : 0 < T2 * 24 := by omega
  have hlt49 : n2 * 2 ^ (1074 - j2) < T2 * 24 * 2 ^ 49 := by
    rw [hT2]
    have h1 : n2 * T2 ≤ 2 ^ 53 * T2 := Nat.mul_le_mul_right _ hn2
    have e : T2 * 24 * 2 ^ 49 = 2 ^ 53 * T2 + 2 ^ 52 * T2 := by ring
    have : 0 < 2 ^ 52 * T2 := Nat.mul_pos (by positivity) hT
    omega
  have hlt : n2 < T2 * 24 * 2 ^ 53 := by
    have h1 : 2 ^ 53 * 1 ≤ 2 ^ 53 * (T2 * 24) := Nat.mul_le_mul_left _ (by omega)
    have e : T2 * 24 * 2 ^ 53 = 2 ^ 53 * (T2 * 24) := by ring
    have : 2 ^ 53 * 1 < 2 ^ 53 * (T2 * 24) := Nat.mul_lt_mul_of_pos_left (by omega) (by positivity)
    omega
  have hx : (n2 : ℚ) / (24 * (T2 : ℚ)) * ((T2 * 24 : ℕ) : ℚ) = (n2 : ℚ) := by
    have : (0 : ℚ) < T2 := by exact_mod_cast hT
    push_cast
    rw [div_mul_eq_mul_div, div_eq_iff (by positivity)]
    ring
  obtain ⟨c1, c2, -, -⟩ := roundFloat64_near _ _ hq hlt _ hx
  refine ⟨roundFloat64_finite s _ _ hq hlt, ?_, c1, c2⟩
  have := roundExp_add_le n2 (T2 * 24) (1074 - j2) 49 hq hlt49 (by omega)
  omega

/-- The whole part of a zero divided by a positive whole number. -/
theorem Float64.trunc_zero_div (s : Bool) (e : Int) (c : Nat) (hc : c ≠ 0) :
    ((Float64.finite s 0 e).div (.finite false c 0)).trunc = some 0 := by
  have h : (Float64.finite s 0 e).div (.finite false c 0)
      = roundFloat64 (xor s false) ((Float64.finite s 0 e).numer * (Float64.finite false c 0).denom)
          ((Float64.finite s 0 e).denom * (Float64.finite false c 0).numer) := by
    show (if c = 0 then (if (0 : Nat) = 0 then Float64.nan else .inf (xor s false))
      else roundFloat64 (xor s false)
        ((Float64.finite s 0 e).numer * (Float64.finite false c 0).denom)
        ((Float64.finite s 0 e).denom * (Float64.finite false c 0).numer)) = _
    rw [if_neg hc]
  have hn : (Float64.finite s 0 e).numer = 0 := by
    show 0 * 2 ^ e.toNat = 0
    rw [Nat.zero_mul]
  rw [h, hn, Nat.zero_mul, roundFloat64_zero]
  generalize (roundExp 0 _ : Int) - 1074 = e2
  show some (if xor s false then
      -(((if (0 : Int) ≤ e2 then 0 * 2 ^ e2.toNat else 0 / 2 ^ (-e2).toNat : Nat)) : Int)
    else (((if (0 : Int) ≤ e2 then 0 * 2 ^ e2.toNat else 0 / 2 ^ (-e2).toNat : Nat)) : Int))
    = some 0
  rw [Nat.zero_mul, Nat.zero_div, ite_self]
  cases s <;> rfl

/-- The chain of roundings in `int(d.Hours() / 24.0)` for a duration of `h`
whole hours and `m` nanoseconds with the sign `sg`, below 171 days less one
nanosecond in size: the whole part of the quotient is `h / 24` with that sign. -/
theorem trunc_days (sg s1 s2 : Bool) (h m : Nat) (hm : m < 3600000000000) (hh : h ≤ 4103)
    (hm2 : h = 4103 → m + 2 ≤ 3600000000000) (hs1 : s1 = sg ∨ h = 0)
    (hs2 : s2 = sg ∨ m = 0) :
    (((roundFloat64 s1 h 1).add
        ((roundFloat64 s2 m 1).div (.finite false 3600000000000 0))).div
      (.finite false 24 0)).trunc
      = some (if sg then -((h / 24 : Nat) : Int) else ((h / 24 : Nat) : Int)) := by
  obtain ⟨hjh, eh⟩ := roundFloat64_int s1 h
    (lt_of_le_of_lt hh (by norm_num))
  obtain ⟨hjm, em⟩ := roundFloat64_int s2 m
    (lt_trans hm (by norm_num))
  rw [eh, em]
  generalize roundExp h 1 = jh at hjh
  generalize roundExp m 1 = jm at hjm
  rw [Float64.div_finite s2 _ jm 3600000000000 hjm (by norm_num)]
  have hTm : 0 < 2 ^ (1074 - jm) := by positivity
  obtain ⟨e1, hj1, hj1b, hz1, A1, hn1⟩ := frac_stage s2 m (2 ^ (1074 - jm)) hTm hm
  rw [e1]
  generalize roundMant (m * 2 ^ (1074 - jm)) (2 ^ (1074 - jm) * 3600000000000) = n1
    at hz1 A1 hn1
  generalize roundExp (m * 2 ^ (1074 - jm)) (2 ^ (1074 - jm) * 3600000000000) = j1
    at hj1 hj1b A1 hn1
  have hTh : 0 < 2 ^ (1074 - jh) := by positivity
  have hT1 : 0 < 2 ^ (1074 - j1) := by positivity
  have hT1big : 2 ^ 52 < 2 ^ (1074 - j1) := Nat.pow_lt_pow_right (by norm_num) (by omega)
  by_cases hP : h * 2 ^ (1074 - jh) * 2 ^ (1074 - j1) + n1 * 2 ^ (1074 - jh) = 0
  · -- the sum is a zero
    have h0 : h = 0 := by
      by_contra hne
      have : 0 < h * 2 ^ (1074 - jh) * 2 ^ (1074 - j1) :=
        Nat.mul_pos (Nat.mul_pos (Nat.pos_of_ne_zero hne) hTh) hT1
      omega
    have hn0 : n1 = 0 := by
      by_contra hne
      have : 0 < n1 * 2 ^ (1074 - jh) := Nat.mul_pos (Nat.pos_of_ne_zero hne) hTh
      omega
    subst h0 hn0
    rw [Nat.zero_mul]
    have hadd : (Float64.finite s1 0 ((jh : Int) - 1074)).add
        (.finite s2 0 ((j1 : Int) - 1074)) = .finite (s1 && s2) 0 0 := by
      have z1 : (Float64.finite s1 0 ((jh : Int) - 1074)).signedNumer = 0 := by
        rw [Float64.signedNumer_finite s1 s1 0 jh hjh (Or.inl rfl)]
        simp
      have z2 : (Float64.finite s2 0 ((j1 : Int) - 1074)).signedNumer = 0 := by
        rw [Float64.signedNumer_finite s2 s2 0 j1 (by omega) (Or.inl rfl)]
        simp
      show (if (Float64.finite s1 0 ((jh : Int) - 1074)).signedNumer
            * ((Float64.finite s2 0 ((j1 : Int) - 1074)).denom : Int)
          + (Float64.finite s2 0 ((j1 : Int) - 1074)).signedNumer
            * ((Float64.finite s1 0 ((jh : Int) - 1074)).denom : Int) = 0
        then Float64.finite (s1 && s2) 0 0
        else roundFloat64 (decide ((Float64.finite s1 0 ((jh : Int) - 1074)).signedNumer
            * ((Float64.finite s2 0 ((j1 : Int) - 1074)).denom : Int)
          + (Float64.finite s2 0 ((j1 : Int) - 1074)).signedNumer
            * ((Float64.finite s1 0 ((jh : Int) - 1074)).denom : Int) < 0))
          ((Float64.finite s1 0 ((jh : Int) - 1074)).signedNumer
            * ((Float64.finite s2 0 ((j1 : Int) - 1074)).denom : Int)
          + (Float64.finite s2 0 ((j1 : Int) - 1074)).signedNumer
            * ((Float64.finite s1 0 ((jh : Int) - 1074)).denom : Int)).natAbs
          ((Float64.finite s1 0 ((jh : Int) - 1074)).denom
            * (Float64.finite s2 0 ((j1 : Int) - 1074)).denom)) = _
      rw [z1, z2, Int.zero_mul, Int.zero_mul, Int.add_zero, if_pos rfl]
    rw [hadd, Float64.trunc_zero_div _ _ 24 (by norm_num)]
    simp
  · -- the sum is not a zero
    have hs1b : s1 = sg ∨ h * 2 ^ (1074 - jh) = 0 := by
      rcases hs1 with e | e
      · exact Or.inl e
      · exact Or.inr (by rw [e, Nat.zero_mul])
    have hs2b : s2 = sg ∨ n1 = 0 := by
      rcases hs2 with e | e
      · exact Or.inl e
      · exact Or.inr (hz1 e)
    rw [Float64.add_finite sg s1 s2 _ n1 jh j1 hjh (by omega) hs1b hs2b hP]
    have hlow : h = 0 → 2 ^ (1074 - j1) * 2 ^ 56 ≤ 2 ^ 1074 ∧ 1 ≤ n1 := by
      intro h0
      have hn : 1 ≤ n1 := by
        by_contra hne
        have hn0 : n1 = 0 := by omega
        apply hP
        rw [h0, hn0, Nat.zero_mul, Nat.zero_mul]
      have hm1 : 1 ≤ m := by
        by_contra hne
        have := hz1 (by omega)
        omega
      have hj56 := hj1b hm1
      refine ⟨?_, hn⟩
      rw [← pow_add]
      exact Nat.pow_le_pow_right (by norm_num) (by omega)
    obtain ⟨e2, hj2, hj2b, hj2c, B1, B2⟩ :=
      sum_stage sg h (2 ^ (1074 - jh)) n1 (2 ^ (1074 - j1)) hh hTh hT1 hn1 hlow
    rw [e2]
    have hn2 := roundMant_le (h * 2 ^ (1074 - jh) * 2 ^ (1074 - j1) + n1 * 2 ^ (1074 - jh))
      (2 ^ (1074 - jh) * 2 ^ (1074 - j1)) (Nat.mul_pos hTh hT1)
    generalize roundMant (h * 2 ^ (1074 - jh) * 2 ^ (1074 - j1) + n1 * 2 ^ (1074 - jh))
      (2 ^ (1074 - jh) * 2 ^ (1074 - j1)) = n2 at B1 B2 hn2
    generalize roundExp (h * 2 ^ (1074 - jh) * 2 ^ (1074 - j1) + n1 * 2 ^ (1074 - jh))
      (2 ^ (1074 - jh) * 2 ^ (1074 - j1)) = j2 at hj2 hj2b hj2c B1 B2
    rw [Float64.div_finite sg n2 j2 24 (by omega) (by norm_num)]
    obtain ⟨e3, hj3, C1, C2⟩ := quot_stage sg n2 j2 hn2 hj2c (by omega)
    rw [e3]
    generalize roundMant n2 (2 ^ (1074 - j2) * 24) = n3 at C1 C2
    generalize roundExp n2 (2 ^ (1074 - j2) * 24) = j3 at hj3 C1 C2
    rw [Float64.trunc_finite sg n3 j3 (by omega)]
    have hT2 : h ≤ 4095 → 2 ^ 41 ≤ 2 ^ (1074 - j2) := fun h4 =>
      Nat.pow_le_pow_right (by norm_num) (by have := hj2b h4; omega)
    have hT2b : 2 ^ 40 ≤ 2 ^ (1074 - j2) := Nat.pow_le_pow_right (by norm_num) (by omega)
    have hT3 : 16 * 2 ^ (1074 - j2) ≤ 2 ^ (1074 - j3) := by
      have e : 16 * 2 ^ (1074 - j2) = 2 ^ (4 + (1074 - j2)) := by
        rw [pow_add]
        norm_num
      rw [e]
      exact Nat.pow_le_pow_right (by norm_num) (by omega)
    obtain ⟨lo, hi⟩ := days_arith h m n1 n2 n3 (2 ^ (1074 - j1)) (2 ^ (1074 - j2))
      (2 ^ (1074 - j3)) hm hh hm2 hT1big hT2 hT2b hT3 A1 B1 B2 C1 C2
    rw [Nat.div_eq_of_lt_le lo hi]

namespace Float64

/-- What is not a finite number has the signed numerator 0. -/
theorem signedNumer_inf (s : Bool) : (Float64.inf s).signedNumer = 0 := by
  cases s <;> rfl

/-- The signed numerator of a finite value. -/
theorem signedNumer_eq (s : Bool) (n : Nat) (e : Int) :
    (Float64.finite s n e).signedNumer
      = if s then -((n * 2 ^ e.toNat : Nat) : Int) else ((n * 2 ^ e.toNat : Nat) : Int) := rfl

end Float64

/-- The rounding of a quotient with the sign bit set, or of zero, is not positive. -/
theorem roundFloat64_nonpos (s : Bool) (p q : Nat) (h : s = true ∨ p = 0) :
    (roundFloat64 s p q).signedNumer ≤ 0 := by
  rcases h with rfl | rfl
  · rcases roundFloat64_cases true p q with e | ⟨n, e2, e⟩
    · rw [e, Float64.signedNumer_inf]
    · rw [e, Float64.signedNumer_eq, if_pos rfl]
      omega
  · rw [roundFloat64_zero, Float64.signedNumer_eq, Nat.zero_mul]
    cases s <;> simp

namespace Float64

/-- The conversion of a whole number that is not positive is not positive. -/
theorem ofInt_nonpos (k : Int) (hk : k ≤ 0) : (Float64.ofInt k).signedNumer ≤ 0 := by
  unfold Float64.ofInt
  apply roundFloat64_nonpos
  by_cases h0 : k < 0
  · exact Or.inl (decide_eq_true h0)
  · exact Or.inr (by omega)

/-- The quotient of what is not positive by a positive whole number is not positive. -/
theorem div_nonpos (F : Float64) (c : Nat) (hc : c ≠ 0) (hF : F.signedNumer ≤ 0) :
    (F.div (.finite false c 0)).signedNumer ≤ 0 := by
  cases F with
  | nan => exact le_of_eq rfl
  | inf s =>
    show (Float64.inf (xor s false)).signedNumer ≤ 0
    rw [signedNumer_inf]
  | finite s n e =>
    have h : (Float64.finite s n e).div (.finite false c 0)
        = roundFloat64 (xor s false)
            ((Float64.finite s n e).numer * (Float64.finite false c 0).denom)
            ((Float64.finite s n e).denom * (Float64.finite false c 0).numer) := by
      show (if c = 0 then (if n = 0 then Float64.nan else .inf (xor s false))
        else roundFloat64 (xor s false)
          ((Float64.finite s n e).numer * (Float64.finite false c 0).denom)
          ((Float64.finite s n e).denom * (Float64.finite false c 0).numer)) = _
      rw [if_neg hc]
    rw [h]
    apply roundFloat64_nonpos
    rw [signedNumer_eq] at hF
    cases s
    · right
      have hn : (Float64.finite false n e).numer = n * 2 ^ e.toNat := rfl
      rw [hn]
      generalize n * 2 ^ e.toNat = x at hF
      simp at hF
      rw [hF, Nat.zero_mul]
    · left
      rfl

/-- The sum of two values that are not positive is not positive. -/
theorem add_nonpos (A B : Float64) (hA : A.signedNumer ≤ 0) (hB : B.signedNumer ≤ 0) :
    (A.add B).signedNumer ≤ 0 := by
  cases A with
  | nan => cases B <;> exact le_of_eq rfl
  | inf sa =>
    cases B with
    | nan => exact le_of_eq rfl
    | inf sb =>
      show (if sa = sb then Float64.inf sa else Float64.nan).signedNumer ≤ 0
      split
      · rw [signedNumer_inf]
      · exact le_of_eq rfl
    | finite sb nb eb =>
      show (Float64.inf sa).signedNumer ≤ 0
      rw [signedNumer_inf]
  | finite sa na ea =>
    cases B with
    | nan => exact le_of_eq rfl
    | inf sb =>
      show (Float64.inf sb).signedNumer ≤ 0
      rw [signedNumer_inf]
    | finite sb nb eb =>
      generalize hA2 : Float64.finite sa na ea = A at hA
      generalize hB2 : Float64.finite sb nb eb = B at hB
      have key : A.add B =
          if A.signedNumer * B.denom + B.signedNumer * A.denom = 0 then .finite (sa && sb) 0 0
          else roundFloat64 (decide (A.signedNumer * B.denom + B.signedNumer * A.denom < 0))
            (A.signedNumer * B.denom + B.signedNumer * A.denom).natAbs
            (A.denom * B.denom) := by
        subst hA2 hB2
        rfl
      rw [key]
      have h1 : A.signedNumer * (B.denom : Int) ≤ 0 :=
        Int.mul_nonpos_of_nonpos_of_nonneg hA (Int.ofNat_nonneg _)
      have h2 : B.signedNumer * (A.denom : Int) ≤ 0 :=
        Int.mul_nonpos_of_nonpos_of_nonneg hB (Int.ofNat_nonneg _)
      split
      · rw [signedNumer_eq, Nat.zero_mul]
        cases (sa && sb) <;> simp
      · apply roundFloat64_nonpos
        left
        apply decide_eq_true
        omega

end Float64

/-- The conversion to `int` of what is not positive is not positive. -/
theorem goInt_nonpos (F : Float64) (hF : F.signedNumer ≤ 0) : goInt F ≤ 0 := by
  cases F with
  | nan => exact Int.neg_nonpos_of_nonneg (by positivity)
  | inf s => exact Int.neg_nonpos_of_nonneg (by positivity)
  | finite s n e =>
    rw [Float64.signedNumer_eq] at hF
    have hv : ∃ v : Int, (Float64.finite s n e).trunc = some v ∧ v ≤ 0 := by
      refine ⟨_, rfl, ?_⟩
      cases s
      · have h0 : n * 2 ^ e.toNat = 0 := by
          generalize n * 2 ^ e.toNat = x at hF
          simp at hF
          exact hF
        have hn : n = 0 := by
          rcases Nat.mul_eq_zero.mp h0 with h | h
          · exact h
          · exact absurd h (by positivity)
        subst hn
        simp
      · exact Int.neg_nonpos_of_nonneg (Int.ofNat_nonneg _)
    obtain ⟨v, hv, hle⟩ := hv
    unfold goInt
    rw [hv]
    show (if -(2 ^ 63 : Int) ≤ v ∧ v < 2 ^ 63 then v else -(2 ^ 63)) ≤ 0
    split
    · exact hle
    · exact Int.neg_nonpos_of_nonneg (by positivity)

/-- The day count of a certificate that has expired is not positive. -/
theorem remainingDays_nonpos (now : Int) (x509Cert : Certificate)
    (h : time.Until now x509Cert.NotAfter ≤ 0) : remainingDays now x509Cert ≤ 0 := by
  unfold remainingDays
  generalize time.Until now x509Cert.NotAfter = d at h
  apply goInt_nonpos
  apply Float64.div_nonpos _ 24 (by norm_num)
  show ((Float64.ofInt (Int.tdiv d time.Hour)).add
    ((Float64.ofInt (Int.tmod d time.Hour)).div
      (.finite false (60 * 60 * 1000000000) 0))).signedNumer ≤ 0
  have hH : (0 : Int) ≤ time.Hour := by decide
  have h1 : Int.tdiv d time.Hour ≤ 0 := by
    have : d = -(-d) := by omega
    rw [this, Int.neg_tdiv]
    have := Int.tdiv_nonneg (a := -d) (b := time.Hour) (by omega) hH
    omega
  have h2 : Int.tmod d time.Hour ≤ 0 := by
    have e := Int.tmod_def d time.Hour
    have : d = -(-d) := by omega
    rw [e, this, Int.neg_tdiv]
    have h3 := Int.tmod_nonneg (a := -d) time.Hour (by omega)
    rw [Int.tmod_def] at h3
    generalize Int.tdiv (-d) time.Hour = t at h3 ⊢
    generalize time.Hour = H at h3 ⊢
    have e2 : H * -t = -(H * t) := by ring
    rw [e2]
    generalize H * t = u at h3 ⊢
    omega
  exact Float64.add_nonpos _ _ (Float64.ofInt_nonpos _ h1)
    (Float64.div_nonpos _ _ (by norm_num) (Float64.ofInt_nonpos _ h2))

/-- The value of `int(d.Hours() / 24.0)` for a duration of `a` nanoseconds with
the sign `sg`, below 171 days less one nanosecond in size: the whole days in
`a`, with that sign. -/
theorem goInt_days (sg : Bool) (a : Nat) (ha : a + 2 ≤ 171 * 86400000000000) :
    goInt ((time.Hours (if sg then -(a : Int) else (a : Int))).div (.finite false 24 0))
      = if sg then -((a / 86400000000000 : Nat) : Int)
        else ((a / 86400000000000 : Nat) : Int) := by
  have hH : time.Hour = ((3600000000000 : Nat) : Int) := by decide
  have hour : Int.tdiv (if sg then -(a : Int) else (a : Int)) time.Hour
      = if sg then -((a / 3600000000000 : Nat) : Int)
        else ((a / 3600000000000 : Nat) : Int) := by
    rw [hH]
    cases sg
    · exact (Int.ofNat_tdiv a 3600000000000).symm
    · show Int.tdiv (-(a : Int)) _ = -_
      rw [Int.neg_tdiv, ← Int.ofNat_tdiv]
  have nsec : Int.tmod (if sg then -(a : Int) else (a : Int)) time.Hour
      = if sg then -((a % 3600000000000 : Nat) : Int)
        else ((a % 3600000000000 : Nat) : Int) := by
    rw [hH]
    cases sg
    · exact (Int.ofNat_tmod a 3600000000000).symm
    · show Int.tmod (-(a : Int)) _ = -_
      rw [Int.tmod_def, Int.neg_tdiv, ← Int.ofNat_tdiv]
      omega
  have oi : ∀ x : Nat, Float64.ofInt (if sg then -(x : Int) else (x : Int))
      = roundFloat64 (decide ((if sg then -(x : Int) else (x : Int)) < 0)) x 1 := by
    intro x
    unfold Float64.ofInt
    congr 1
    cases sg <;> simp
  have hs : ∀ x : Nat, decide ((if sg then -(x : Int) else (x : Int)) < 0) = sg ∨ x = 0 := by
    intro x
    cases sg
    · exact Or.inl (decide_eq_false (by simp))
    · by_cases hx : x = 0
      · exact Or.inr hx
      · exact Or.inl (decide_eq_true (by simp; omega))
  show goInt (((Float64.ofInt (Int.tdiv (if sg then -(a : Int) else (a : Int)) time.Hour)).add
    ((Float64.ofInt (Int.tmod (if sg then -(a : Int) else (a : Int)) time.Hour)).div
      (.finite false 3600000000000 0))).div (.finite false 24 0)) = _
  rw [hour, nsec, oi, oi]
  have htr := trunc_days sg _ _ (a / 3600000000000) (a % 3600000000000)
    (Nat.mod_lt _ (by norm_num)) (by omega) (by omega) (hs _) (hs _)
  unfold goInt
  rw [htr, Nat.div_div_eq_div_mul]
  have hb : a / (3600000000000 * 24) ≤ 170 := by omega
  have e : (3600000000000 * 24 : Nat) = 86400000000000 := by norm_num
  rw [e] at hb ⊢
  generalize a / 86400000000000 = K at hb
  show (if -(2 ^ 63 : Int) ≤ (if sg then -(K : Int) else (K : Int))
      ∧ (if sg then -(K : Int) else (K : Int)) < 2 ^ 63
    then (if sg then -(K : Int) else (K : Int)) else -(2 ^ 63)) = _
  rw [if_pos]
  cases sg
  · constructor
    · exact le_trans (Int.neg_nonpos_of_nonneg (by positivity)) (Int.ofNat_nonneg K)
    · exact lt_of_le_of_lt (show (K : Int) ≤ 170 by omega) (by norm_num)
  · constructor
    · have : (-(2 ^ 63) : Int) ≤ -170 := by norm_num
      exact le_trans this (show -(170 : Int) ≤ -(K : Int) by omega)
    · exact lt_of_le_of_lt (Int.neg_nonpos_of_nonneg (Int.ofNat_nonneg K)) (by positivity)

set_option maxRecDepth 100000 in
set_option exponentiation.threshold 4096 in
/-- At 171 days less one nanosecond the sum `float64(hour) + float64(nsec)/(60*60*1e9)`
of `Hours()`, 4103 hours and a fraction of an hour that is one nanosecond short
of a whole one, rounds to 4104 hours, and the day count of the code is 171. -/
theorem remainingDays_171_days_less_1 : remainingDays 0 ⟨false, 171 * day - 1⟩ = 171 := by
  decide

/-- Below 171 days less one nanosecond, before or after the expiry, the day
count of the code is the whole days in the time until the expiry. -/
theorem remainingDays_eq_tdiv (now : Int) (x509Cert : Certificate)
    (h1 : -(171 * day - 1) < time.Until now x509Cert.NotAfter)
    (h2 : time.Until now x509Cert.NotAfter < 171 * day - 1) :
    remainingDays now x509Cert = Int.tdiv (time.Until now x509Cert.NotAfter) day := by
  unfold remainingDays
  generalize time.Until now x509Cert.NotAfter = d at h1 h2
  have hD : day = ((86400000000000 : Nat) : Int) := by decide
  rw [hD] at h1 h2 ⊢
  rcases Int.natAbs_eq d with e | e
  · rw [e] at h1 h2 ⊢
    generalize d.natAbs = a at h1 h2
    rw [← Int.ofNat_tdiv]
    exact goInt_days false a (by omega)
  · rw [e] at h1 h2 ⊢
    generalize d.natAbs = a at h1 h2
    rw [Int.neg_tdiv, ← Int.ofNat_tdiv]
    exact goInt_days true a (by omega)

/-- Content of a file after a write. -/
theorem content_put (fs : FileSystem) (name data : String) (perm : Nat) (p : String) :
    (fs.put name data perm).content p = if p = name then some data else fs.content p := by
  unfold FileSystem.content FileSystem.put
  by_cases h : p = name <;> simp [h]

/-- A write changes no other file. -/
theorem files_put_ne (fs : FileSystem) (name data : String) (perm : Nat) (p : String)
    (h : p ≠ name) : (fs.put name data perm).files p = fs.files p := by
  simp [FileSystem.put, h]

/-- The file at a path after a write: the data, with the mode the file had, or
`perm` less the umask for a new file. -/
theorem files_put_self (fs : FileSystem) (name data : String) (perm : Nat) :
    (fs.put name data perm).files name
      = some ⟨data, match fs.files name with
          | some f => f.mode
          | none => andNot perm fs.umask⟩ := by
  simp [FileSystem.put]

/-- A write fails exactly at the paths that are denied. -/
theorem WriteFile_fst_eq_none (fs : FileSystem) (name data : String) (perm : Nat) :
    (os.WriteFile fs name data perm).1 = none ↔ fs.denied name = false := by
  unfold os.WriteFile FileSystem.denied
  rcases fs.fault name with _ | f
  · simp
  · cases f <;> simp

/-- A write without fault. -/
theorem WriteFile_of_not_denied (fs : FileSystem) (name data : String) (perm : Nat)
    (h : fs.denied name = false) :
    os.WriteFile fs name data perm = (none, fs.put name data perm) := by
  unfold FileSystem.denied at h
  unfold os.WriteFile
  rcases hf : fs.fault name with _ | f
  · rfl
  · rw [hf] at h
    simp at h

/-- A write, failed or not, changes no other file. -/
theorem WriteFile_files_ne (fs : FileSystem) (name data : String) (perm : Nat) (p : String)
    (h : p ≠ name) : (os.WriteFile fs name data perm).2.files p = fs.files p := by
  unfold os.WriteFile
  rcases fs.fault name with _ | f
  · exact files_put_ne _ _ _ _ _ h
  · cases f
    · rfl
    · exact files_put_ne _ _ _ _ _ h
    · exact files_put_ne _ _ _ _ _ h

/-- What a write that fails leaves at its path. -/
theorem WriteFile_failed (fs : FileSystem) (name data : String) (perm : Nat) :
    (∀ msg, fs.fault name = some (.atOpen msg) →
      os.WriteFile fs name data perm = (some ("open " ++ name ++ ": " ++ msg), fs)) ∧
    (∀ written msg, fs.fault name = some (.atWrite written msg) →
      (os.WriteFile fs name data perm).1 = some ("write " ++ name ++ ": " ++ msg) ∧
      (os.WriteFile fs name data perm).2.content name
        = some (String.mk (data.data.take written))) ∧
    (∀ msg, fs.fault name = some (.atClose msg) →
      (os.WriteFile fs name data perm).1 = some ("close " ++ name ++ ": " ++ msg) ∧
      (os.WriteFile fs name data perm).2.content name = some data) := by
  refine ⟨fun msg h => ?_, fun written msg h => ?_, fun msg h => ?_⟩
  · simp [os.WriteFile, h]
  · simp [os.WriteFile, h, content_put]
  · simp [os.WriteFile, h, content_put]

/-- Saving when the write of the certificate fails. -/
theorem saveResource_cert_denied (resource : Resource) (config : UserConfig) (s : Sys)
    (h1 : s.fs.denied (certPath config) = true) :
    saveResource resource config s =
      ((os.WriteFile s.fs (certPath config) resource.Certificate 0o600).1,
        { s with
          fs := (os.WriteFile s.fs (certPath config) resource.Certificate 0o600).2
          writes := s.writes ++ [certPath config] }) := by
  have hne : (os.WriteFile s.fs (certPath config) resource.Certificate 0o600).1 ≠ none := by
    rw [Ne, WriteFile_fst_eq_none, h1]
    simp
  unfold saveResource writeFile
  rcases he : (os.WriteFile s.fs (certPath config) resource.Certificate 0o600).1 with _ | e
  · exact absurd he hne
  · rfl

/-- Saving when the write of the key is the first that fails. -/
theorem saveResource_key_denied (resource : Resource) (config : UserConfig) (s : Sys)
    (h1 : s.fs.denied (certPath config) = false) (h2 : s.fs.denied (keyPath config) = true) :
    saveResource resource config s =
      ((os.WriteFile (s.fs.put (certPath config) resource.Certificate 0o600)
          (keyPath config) resource.PrivateKey 0o600).1,
        { s with
          fs := (os.WriteFile (s.fs.put (certPath config) resource.Certificate 0o600)
            (keyPath config) resource.PrivateKey 0o600).2
          writes := s.writes ++ [certPath config, keyPath config] }) := by
  have hne : (os.WriteFile (s.fs.put (certPath config) resource.Certificate 0o600)
      (keyPath config) resource.PrivateKey 0o600).1 ≠ none := by
    rw [Ne, WriteFile_fst_eq_none]
    have : (s.fs.put (certPath config) resource.Certificate 0o600).denied (keyPath config)
        = s.fs.denied (keyPath config) := rfl
    rw [this, h2]
    simp
  unfold saveResource writeFile
  rw [WriteFile_of_not_denied _ _ _ _ h1]
  simp only
  rcases he : (os.WriteFile (s.fs.put (certPath config) resource.Certificate 0o600)
      (keyPath config) resource.PrivateKey 0o600).1 with _ | e
  · exact absurd he hne
  · simp

/-- Saving when the write of the issuer certificate is the first that fails. -/
theorem saveResource_issuer_denied (resource : Resource) (config : UserConfig) (s : Sys)
    (h1 : s.fs.denied (certPath config) = false) (h2 : s.fs.denied (keyPath config) = false)
    (h3 : s.fs.denied (issuerPath config) = true) :
    saveResource resource config s =
      ((os.WriteFile ((s.fs.put (certPath config) resource.Certificate 0o600).put
          (keyPath config) resource.PrivateKey 0o600)
          (issuerPath config) resource.IssuerCertificate 0o600).1,
        { s with
          fs := (os.WriteFile ((s.fs.put (certPath config) resource.Certificate 0o600).put
            (keyPath config) resource.PrivateKey 0o600)
            (issuerPath config) resource.IssuerCertificate 0o600).2
          writes := s.writes ++ [certPath config, keyPath config, issuerPath config] }) := by
  have hne : (os.WriteFile ((s.fs.put (certPath config) resource.Certificate 0o600).put
      (keyPath config) resource.PrivateKey 0o600)
      (issuerPath config) resource.IssuerCertificate 0o600).1 ≠ none := by
    rw [Ne, WriteFile_fst_eq_none]
    have : ((s.fs.put (certPath config) resource.Certificate 0o600).put
        (keyPath config) resource.PrivateKey 0o600).denied (issuerPath config)
        = s.fs.denied (issuerPath config) := rfl
    rw [this, h3]
    simp
  have h2' : (s.fs.put (certPath config) resource.Certificate 0o600).denied (keyPath config)
      = false := h2
  unfold saveResource writeFile
  rw [WriteFile_of_not_denied _ _ _ _ h1]
  simp only
  rw [WriteFile_of_not_denied _ _ _ _ h2']
  simp only
  rcases he : (os.WriteFile ((s.fs.put (certPath config) resource.Certificate 0o600).put
      (keyPath config) resource.PrivateKey 0o600)
      (issuerPath config) resource.IssuerCertificate 0o600).1 with _ | e
  · exact absurd he hne
  · simp

/-- Saving when the three writes succeed. -/
theorem saveResource_ok (resource : Resource) (config : UserConfig) (s : Sys)
    (h1 : s.fs.denied (certPath config) = false) (h2 : s.fs.denied (keyPath config) = false)
    (h3 : s.fs.denied (issuerPath config) = false) :
    saveResource resource config s =
      (none,
        { s with
          fs := ((s.fs.put (certPath config) resource.Certificate 0o600).put
            (keyPath config) resource.PrivateKey 0o600).put
            (issuerPath config) resource.IssuerCertificate 0o600
          writes := s.writes ++ [certPath config, keyPath config, issuerPath config] }) := by
  have h2' : (s.fs.put (certPath config) resource.Certificate 0o600).denied (keyPath config)
      = false := h2
  have h3' : ((s.fs.put (certPath config) resource.Certificate 0o600).put
      (keyPath config) resource.PrivateKey 0o600).denied (issuerPath config) = false := h3
  unfold saveResource writeFile
  rw [WriteFile_of_not_denied _ _ _ _ h1]
  simp only
  rw [WriteFile_of_not_denied _ _ _ _ h2']
  simp only
  rw [WriteFile_of_not_denied _ _ _ _ h3']
  simp

/-- The three files after three successful writes. -/
theorem content_after_save (resource : Resource) (config : UserConfig) (fs : FileSystem) :
    let fs3 := ((fs.put (certPath config) resource.Certificate 0o600).put
            (keyPath config) resource.PrivateKey 0o600).put
            (issuerPath config) resource.IssuerCertificate 0o600
    fs3.content (certPath config) = some resource.Certificate ∧
    fs3.content (keyPath config) = some resource.PrivateKey ∧
    fs3.content (issuerPath config) = some resource.IssuerCertificate := by
  obtain ⟨h1, h2, h3⟩ := bundle_paths_ne config
  simp [content_put, h1, h2, h3]

/-- Saving succeeds exactly when the three paths can be written. -/
theorem saveResource_fst_eq_none (resource : Resource) (config : UserConfig) (s : Sys) :
    (saveResource resource config s).1 = none ↔
      (s.fs.denied (certPath config) = false ∧ s.fs.denied (keyPath config) = false ∧
        s.fs.denied (issuerPath config) = false) := by
  cases h1 : s.fs.denied (certPath config)
  · cases h2 : s.fs.denied (keyPath config)
    · cases h3 : s.fs.denied (issuerPath config)
      · simp [saveResource_ok resource config s h1 h2 h3]
      · rw [saveResource_issuer_denied resource config s h1 h2 h3]
        simp only [WriteFile_fst_eq_none]
        have : ((s.fs.put (certPath config) resource.Certificate 0o600).put
            (keyPath config) resource.PrivateKey 0o600).denied (issuerPath config)
            = s.fs.denied (issuerPath config) := rfl
        rw [this, h3]
        simp
    · rw [saveResource_key_denied resource config s h1 h2]
      simp only [WriteFile_fst_eq_none]
      have : (s.fs.put (certPath config) resource.Certificate 0o600).denied (keyPath config)
          = s.fs.denied (keyPath config) := rfl
      rw [this, h2]
      simp
  · rw [saveResource_cert_denied resource config s h1]
    simp only [WriteFile_fst_eq_none, h1]
    simp

/-- A request changes nothing but the count of requests. -/
theorem RequestCertificate_snd (lego : Lego) (config : UserConfig) (s : Sys) :
    (RequestCertificate lego config s).2 = { s with requests := s.requests + 1 } := by
  unfold RequestCertificate
  cases h : NewClient lego config with
  | returned v => cases v <;> rfl
  | exited msg => rfl
  | panicked msg => rfl

/-- Saving leaves the count of requests alone. -/
theorem saveResource_requests (resource : Resource) (config : UserConfig) (s : Sys) :
    (saveResource resource config s).2.requests = s.requests := by
  unfold saveResource
  split
  · next h => rw [← congrArg Prod.snd h]; rfl
  · next h1 =>
    have e1 := congrArg Prod.snd h1
    simp only at e1
    split
    · next h2 => rw [← congrArg Prod.snd h2, ← e1]; rfl
    · next h2 =>
      have e2 := congrArg Prod.snd h2
      simp only at e2
      split
      · next h3 => rw [← congrArg Prod.snd h3, ← e2, ← e1]; rfl
      · next h3 => rw [← congrArg Prod.snd h3, ← e2, ← e1]; rfl

/-- The issuing block makes exactly one request. -/
theorem requestAndSave_requests (env : Env) (config : UserConfig) (s : Sys) :
    (requestAndSave env config s).2.requests = s.requests + 1 := by
  have hs := RequestCertificate_snd env.lego config s
  unfold requestAndSave
  split
  · next h => rw [← congrArg Prod.snd h, hs]
  · next h => rw [← congrArg Prod.snd h, hs]
  · next h => rw [← congrArg Prod.snd h, hs]
  · next r s1 h =>
    have e1 : s1 = { s with requests := s.requests + 1 } := by
      rw [← hs, h]
    have hr := saveResource_requests r config s1
    split
    · next h2 => rw [h2] at hr; simp only at hr; rw [hr, e1]
    · next h2 => rw [h2] at hr; simp only at hr; rw [hr, e1]

/-- Missing or unreadable bundle: the issuing block runs, whatever `days` is. -/
theorem GetOrRenewCertificate_of_read_error (env : Env) (config : UserConfig) (days : Int) (s : Sys)
    (e : String) (hread : readCert env s.fs (certPath config) = .error e) :
    GetOrRenewCertificate env config days s = requestAndSave env config s := by
  unfold GetOrRenewCertificate requestAndSave
  rw [hread]

/-- A CA certificate at the head of the bundle: error, nothing done. -/
theorem GetOrRenewCertificate_of_ca (env : Env) (config : UserConfig) (days : Int) (s : Sys)
    (leaf : Certificate) (rest : List Certificate)
    (hread : readCert env s.fs (certPath config) = .ok (leaf :: rest))
    (hca : leaf.IsCA = true) :
    GetOrRenewCertificate env config days s
      = (.returned (false, some "Certificate bundle starts with a CA certificate"), s) := by
  unfold GetOrRenewCertificate
  rw [hread]
  simp [hca]

/-- A leaf that is not a CA certificate: the decision on `days`. -/
theorem GetOrRenewCertificate_of_leaf (env : Env) (config : UserConfig) (days : Int) (s : Sys)
    (leaf : Certificate) (rest : List Certificate)
    (hread : readCert env s.fs (certPath config) = .ok (leaf :: rest))
    (hca : leaf.IsCA = false) :
    GetOrRenewCertificate env config days s =
      if 0 ≤ days then
        if days < remainingDays env.now leaf then (.returned (false, none), s)
        else requestAndSave env config s
      else (.returned (false, none), s) := by
  unfold GetOrRenewCertificate requestAndSave
  rw [hread]
  simp [hca]

/-- How a call of `GetOrRenewCertificate` can go. -/
theorem GetOrRenewCertificate_cases (env : Env) (config : UserConfig) (days : Int) (s : Sys) :
    GetOrRenewCertificate env config days s = requestAndSave env config s ∨
    GetOrRenewCertificate env config days s
      = (.panicked "index out of range [0] with length 0", s) ∨
    GetOrRenewCertificate env config days s
      = (.returned (false, some "Certificate bundle starts with a CA certificate"), s) ∨
    GetOrRenewCertificate env config days s = (.returned (false, none), s) := by
  cases hread : readCert env s.fs (certPath config) with
  | error e => exact Or.inl (GetOrRenewCertificate_of_read_error env config days s e hread)
  | ok certs =>
    cases certs with
    | nil =>
      refine Or.inr (Or.inl ?_)
      unfold GetOrRenewCertificate
      rw [hread]
    | cons leaf rest =>
      cases hca : leaf.IsCA
      · rw [GetOrRenewCertificate_of_leaf env config days s leaf rest hread hca]
        by_cases hd : 0 ≤ days
        · by_cases hf : days < remainingDays env.now leaf
          · simp [hd, hf]
          · simp [hd, hf]
        · simp [hd]
      · exact Or.inr (Or.inr (Or.inl
          (GetOrRenewCertificate_of_ca env config days s leaf rest hread hca)))

/-- The issuing block when the request fails: the error of the request, no write. -/
theorem requestAndSave_request_error (env : Env) (config : UserConfig) (s : Sys) (err : String)
    (h : (RequestCertificate env.lego config s).1 = .returned (.error err)) :
    requestAndSave env config s
      = (.returned (false, some err), { s with requests := s.requests + 1 }) := by
  have hs := RequestCertificate_snd env.lego config s
  unfold requestAndSave
  generalize RequestCertificate env.lego config s = r at h hs
  obtain ⟨o, s1⟩ := r
  simp only at h hs
  subst h hs
  rfl

/-- The issuing block when the request succeeds: the outcome of saving. -/
theorem requestAndSave_request_ok (env : Env) (config : UserConfig) (s : Sys)
    (resource : Resource)
    (h : (RequestCertificate env.lego config s).1 = .returned (.ok resource)) :
    requestAndSave env config s =
      (.returned
        (decide ((saveResource resource config { s with requests := s.requests + 1 }).1 = none),
          (saveResource resource config { s with requests := s.requests + 1 }).1),
        (saveResource resource config { s with requests := s.requests + 1 }).2) := by
  have hs := RequestCertificate_snd env.lego config s
  unfold requestAndSave
  generalize RequestCertificate env.lego config s = r at h hs
  obtain ⟨o, s1⟩ := r
  simp only at h hs
  subst h hs
  simp only
  generalize saveResource resource config { s with requests := s.requests + 1 } = w
  obtain ⟨e, s2⟩ := w
  cases e <;> simp

/-- The issuing block returns an error only with `changed = false`, and
`changed = true` only after a successful request and three writes. -/
theorem requestAndSave_returned (env : Env) (config : UserConfig) (s : Sys)
    (changed : Bool) (e : GoError)
    (h : (requestAndSave env config s).1 = .returned (changed, e)) :
    (e ≠ none → changed = false) ∧
    (changed = true → e = none ∧ ∃ resource,
      (RequestCertificate env.lego config s).1 = .returned (.ok resource) ∧
      (saveResource resource config (RequestCertificate env.lego config s).2).1 = none ∧
      (requestAndSave env config s).2.writes
        = s.writes ++ [certPath config, keyPath config, issuerPath config]) := by
  have hs := RequestCertificate_snd env.lego config s
  cases hr : (RequestCertificate env.lego config s).1 with
  | exited msg =>
    exfalso
    unfold requestAndSave at h
    generalize RequestCertificate env.lego config s = r at h hr
    obtain ⟨o, s1⟩ := r
    simp only at hr
    subst hr
    simp at h
  | panicked msg =>
    exfalso
    unfold requestAndSave at h
    generalize RequestCertificate env.lego config s = r at h hr
    obtain ⟨o, s1⟩ := r
    simp only at hr
    subst hr
    simp at h
  | returned v =>
    cases v with
    | error err =>
      rw [requestAndSave_request_error env config s err hr] at h
      simp only [Outcome.returned.injEq, Prod.mk.injEq] at h
      obtain ⟨h1, h2⟩ := h
      subst h1
      exact ⟨fun _ => rfl, fun hc => by simp at hc⟩
    | ok resource =>
      have hq := requestAndSave_request_ok env config s resource hr
      rw [hq] at h
      simp only [Outcome.returned.injEq, Prod.mk.injEq] at h
      obtain ⟨h1, h2⟩ := h
      refine ⟨fun hne => ?_, fun hc => ?_⟩
      · rw [← h1, h2]
        simpa using hne
      · rw [hc] at h1
        have hnone : (saveResource resource config { s with requests := s.requests + 1 }).1
            = none := by simpa using h1
        refine ⟨by rw [← h2, hnone], resource, rfl, by rw [hs]; exact hnone, ?_⟩
        rw [hq]
        have hd := (saveResource_fst_eq_none resource config
          { s with requests := s.requests + 1 }).mp hnone
        have hok := saveResource_ok resource config
          { s with requests := s.requests + 1 } hd.1 hd.2.1 hd.2.2
        simp only [hok]

/-! ## Theorems: DNS credential resolution -/

/-- C1: the credential comes from the first configured source in the order
inline, file, vault. A non-empty `DNSAuthToken` is returned as is, with no
error and no store call, whatever the file and vault options hold; otherwise a
non-empty `DNSAuthTokenFile` makes the result exactly what the file store
returns for that path (value and error), with that single call and no call to
the vault store, even when `DNSAuthTokenVault` is set. -/
theorem getDNSAuthToken_source_order (c : RawUserConfig) (storage : Stores) :
    (c.DNSAuthToken ≠ "" → c.getDNSAuthToken storage = ⟨c.DNSAuthToken, none, []⟩) ∧
    (c.DNSAuthToken = "" → c.DNSAuthTokenFile ≠ "" →
      c.getDNSAuthToken storage =
        ⟨(storage.Files c.DNSAuthTokenFile).1, (storage.Files c.DNSAuthTokenFile).2,
          [.fileGetToken c.DNSAuthTokenFile]⟩) := by
  constructor
  · intro h
    simp [RawUserConfig.getDNSAuthToken, h]
  · intro h hf
    simp [RawUserConfig.getDNSAuthToken, h, hf]

/-- Witness for C1 with all three sources set, on succeeding and on failing stores. -/
theorem getDNSAuthToken_source_order_witness :
    (tokenConfig "XXXXX" "/run/secrets/token" "test-vault").getDNSAuthToken (failingStores "boom")
      = ⟨"XXXXX", none, []⟩ ∧
    (tokenConfig "" "/run/secrets/token" "test-vault").getDNSAuthToken (TestStores "YYYYY")
      = ⟨"YYYYY", none, [.fileGetToken "/run/secrets/token"]⟩ ∧
    (tokenConfig "" "/run/secrets/token" "test-vault").getDNSAuthToken (failingStores "boom")
      = ⟨"", some "boom", [.fileGetToken "/run/secrets/token"]⟩ :=
  ⟨(getDNSAuthToken_source_order _ _).1 (by decide),
   (getDNSAuthToken_source_order _ _).2 (by decide) (by decide),
   (getDNSAuthToken_source_order _ _).2 (by decide) (by decide)⟩

/-- C2: with the three source options empty, whatever the secret name is, the
result is the empty token, the error naming the three accepted variables, and
no store call. -/
theorem getDNSAuthToken_no_source (c : RawUserConfig) (storage : Stores)
    (ht : c.DNSAuthToken = "") (hf : c.DNSAuthTokenFile = "") (hv : c.DNSAuthTokenVault = "") :
    c.getDNSAuthToken storage =
      ⟨"", some "Invalid DNS auth token. Use one of 'DNS_AUTH_TOKEN_VAULT', 'DNS_AUTH_TOKEN_FILE' or 'DNS_AUTH_TOKEN' env variable",
        []⟩ := by
  simp only [RawUserConfig.getDNSAuthToken, ht, hf, hv, ne_eq, not_true_eq_false, if_false]
  decide

/-- Witness for C2: the default raw configuration of the test `TestGetAuthTokenFail`. -/
theorem getDNSAuthToken_no_source_witness :
    (tokenConfig "" "" "").getDNSAuthToken (TestStores "")
      = ⟨"", some "Invalid DNS auth token. Use one of 'DNS_AUTH_TOKEN_VAULT', 'DNS_AUTH_TOKEN_FILE' or 'DNS_AUTH_TOKEN' env variable",
          []⟩ :=
  getDNSAuthToken_no_source (tokenConfig "" "" "") (TestStores "") rfl rfl rfl

/-- C3, as stated, fails: the explicit URI `http://vault.example/` is not used
verbatim. The vault store is called with the expanded
`https://http://vault.example/.vault.azure.net/`. -/
theorem getDNSAuthToken_http_locator_not_verbatim :
    ((tokenConfig "" "" "http://vault.example/").getDNSAuthToken (TestStores "XXXXX")).calls
      = [.keyvaultGetToken "https://http://vault.example/.vault.azure.net/" "do-auth-token"] ∧
    ((tokenConfig "" "" "http://vault.example/").getDNSAuthToken (TestStores "XXXXX")).calls
      ≠ [.keyvaultGetToken "http://vault.example/" "do-auth-token"] := by
  decide

/-- C3, amended: with the inline token and the token file empty and a non-empty
vault locator `v`, an empty secret name fails with `Invalid DNS auth token: `
and no store call; otherwise the result is exactly what the vault store returns
for `(uri, DNSAuthTokenSecret)`, that being the only store call, where `uri` is
`v` itself when `v` starts with `https://` and `"https://" ++ v ++ ".vault.azure.net/"`
for every other `v`. -/
theorem getDNSAuthToken_vault (c : RawUserConfig) (storage : Stores)
    (ht : c.DNSAuthToken = "") (hf : c.DNSAuthTokenFile = "") (hv : c.DNSAuthTokenVault ≠ "") :
    (c.DNSAuthTokenSecret = "" →
      c.getDNSAuthToken storage = ⟨"", some "Invalid DNS auth token: ", []⟩) ∧
    (c.DNSAuthTokenSecret ≠ "" →
      (HasPrefix c.DNSAuthTokenVault "https://" = true →
        c.getDNSAuthToken storage =
          ⟨(storage.Keyvault c.DNSAuthTokenVault c.DNSAuthTokenSecret).1,
           (storage.Keyvault c.DNSAuthTokenVault c.DNSAuthTokenSecret).2,
           [.keyvaultGetToken c.DNSAuthTokenVault c.DNSAuthTokenSecret]⟩) ∧
      (HasPrefix c.DNSAuthTokenVault "https://" = false →
        c.getDNSAuthToken storage =
          ⟨(storage.Keyvault ("https://" ++ c.DNSAuthTokenVault ++ ".vault.azure.net/")
              c.DNSAuthTokenSecret).1,
           (storage.Keyvault ("https://" ++ c.DNSAuthTokenVault ++ ".vault.azure.net/")
              c.DNSAuthTokenSecret).2,
           [.keyvaultGetToken ("https://" ++ c.DNSAuthTokenVault ++ ".vault.azure.net/")
              c.DNSAuthTokenSecret]⟩)) := by
  refine ⟨fun hs => ?_, fun hs => ⟨fun hp => ?_, fun hp => ?_⟩⟩
  · by_cases hp : HasPrefix c.DNSAuthTokenVault "https://" = true <;>
      simp [RawUserConfig.getDNSAuthToken, RawUserConfig.getDNSAuthTokenVaultURI,
        RawUserConfig.getDNSAuthTokenSecretName, ht, hf, hv, hs, hp]
  · simp [RawUserConfig.getDNSAuthToken, RawUserConfig.getDNSAuthTokenVaultURI,
      RawUserConfig.getDNSAuthTokenSecretName, ht, hf, hv, hs, hp]
  · simp [RawUserConfig.getDNSAuthToken, RawUserConfig.getDNSAuthTokenVaultURI,
      RawUserConfig.getDNSAuthTokenSecretName, ht, hf, hv, hs, hp]

/-- Witness for the amended C3: a bare name (as in `TestGetAuthTokenFromKeyVault`),
an `https://` locator, and an empty secret name. -/
theorem getDNSAuthToken_vault_witness :
    (tokenConfig "" "" "test-vault").getDNSAuthToken (TestStores "XXXXX")
      = ⟨"XXXXX", none,
          [.keyvaultGetToken "https://test-vault.vault.azure.net/" "do-auth-token"]⟩ ∧
    (tokenConfig "" "" "https://kv.example.net/").getDNSAuthToken (TestStores "XXXXX")
      = ⟨"XXXXX", none, [.keyvaultGetToken "https://kv.example.net/" "do-auth-token"]⟩ ∧
    ({ tokenConfig "" "" "test-vault" with DNSAuthTokenSecret := "" }).getDNSAuthToken
        (TestStores "XXXXX")
      = ⟨"", some "Invalid DNS auth token: ", []⟩ :=
  ⟨((getDNSAuthToken_vault (tokenConfig "" "" "test-vault") (TestStores "XXXXX")
      rfl rfl (by decide)).2 (by decide)).2 (by decide),
   ((getDNSAuthToken_vault (tokenConfig "" "" "https://kv.example.net/") (TestStores "XXXXX")
      rfl rfl (by decide)).2 (by decide)).1 (by decide),
   (getDNSAuthToken_vault { tokenConfig "" "" "test-vault" with DNSAuthTokenSecret := "" }
      (TestStores "XXXXX") rfl rfl (by decide)).1 rfl⟩

/-! ## Theorems: certificate renewal -/

/-- C4, as stated, fails: a leaf that is not a CA certificate, with 171 days less
one nanosecond until `NotAfter`, has 170 whole days remaining, which is not
above the threshold 170. In `float64` arithmetic `Hours()` rounds to 4104 and
`int(Hours() / 24.0)` is 171: the call returns `(false, nil)` and requests
nothing. -/
theorem GetOrRenewCertificate_whole_days_fails :
    Int.tdiv (time.Until 0 (171 * day - 1)) day = 170 ∧
    remainingDays 0 ⟨false, 171 * day - 1⟩ = 171 ∧
    GetOrRenewCertificate (exampleEnv ⟨false, 171 * day - 1⟩ okLego) exampleConfig 170
      storedSys = (.returned (false, none), storedSys) := by
  have hd : remainingDays 0 ⟨false, 171 * day - 1⟩ = 171 := remainingDays_171_days_less_1
  refine ⟨by decide, hd, ?_⟩
  rw [GetOrRenewCertificate_of_leaf (exampleEnv ⟨false, 171 * day - 1⟩ okLego) exampleConfig
    170 storedSys ⟨false, 171 * day - 1⟩ [] rfl rfl]
  show (if (0 : Int) ≤ 170 then
      if 170 < remainingDays 0 ⟨false, 171 * day - 1⟩ then
        ((Outcome.returned (false, none) : Outcome (Bool × GoError)), storedSys)
      else requestAndSave (exampleEnv ⟨false, 171 * day - 1⟩ okLego) exampleConfig storedSys
    else (.returned (false, none), storedSys)) = _
  rw [hd]
  rfl

/-- C4: for a stored bundle whose leaf parses and is not a CA certificate and a
threshold `N ≥ 0`, the decision is taken on the day count
`int(time.Until(NotAfter).Hours() / 24.0)` of the code, computed in `float64`.
More than `N` days: `(false, nil)`, no request, no write. At most `N` days: one
certificate request, and `(true, nil)` when the request and the writes succeed.
In particular a count of `N + 1` leaves the certificate alone, a count of
`N - 1` or of exactly `N` renews it. The count is the whole days until
`NotAfter` whenever that time is less than 171 days less one nanosecond, before
or after the expiry, and a certificate that has expired is always renewed. -/
theorem GetOrRenewCertificate_threshold (env : Env) (config : UserConfig) (N : Int) (s : Sys)
    (leaf : Certificate) (rest : List Certificate) (hN : 0 ≤ N)
    (hread : readCert env s.fs (certPath config) = .ok (leaf :: rest))
    (hca : leaf.IsCA = false) :
    (N < remainingDays env.now leaf →
      GetOrRenewCertificate env config N s = (.returned (false, none), s)) ∧
    (remainingDays env.now leaf ≤ N →
      (GetOrRenewCertificate env config N s).2.requests = s.requests + 1 ∧
      ∀ resource, (RequestCertificate env.lego config s).1 = .returned (.ok resource) →
        (saveResource resource config (RequestCertificate env.lego config s).2).1 = none →
        (GetOrRenewCertificate env config N s).1 = .returned (true, none)) ∧
    (remainingDays env.now leaf = N + 1 →
      GetOrRenewCertificate env config N s = (.returned (false, none), s)) ∧
    (remainingDays env.now leaf = N - 1 →
      (GetOrRenewCertificate env config N s).2.requests = s.requests + 1) ∧
    (remainingDays env.now leaf = N →
      (GetOrRenewCertificate env config N s).2.requests = s.requests + 1) ∧
    (-(171 * day - 1) < time.Until env.now leaf.NotAfter →
      time.Until env.now leaf.NotAfter < 171 * day - 1 →
      remainingDays env.now leaf = Int.tdiv (time.Until env.now leaf.NotAfter) day) ∧
    (time.Until env.now leaf.NotAfter ≤ 0 →
      (GetOrRenewCertificate env config N s).2.requests = s.requests + 1) := by
  have key := GetOrRenewCertificate_of_leaf env config N s leaf rest hread hca
  rw [if_pos hN] at key
  have fresh : N < remainingDays env.now leaf →
      GetOrRenewCertificate env config N s = (.returned (false, none), s) := by
    intro h
    rw [key, if_pos h]
  have renew : remainingDays env.now leaf ≤ N →
      GetOrRenewCertificate env config N s = requestAndSave env config s := by
    intro h
    rw [key, if_neg (not_lt.mpr h)]
  refine ⟨fresh, fun h => ⟨?_, fun resource hreq hsave => ?_⟩, fun h => fresh (by omega),
    fun h => ?_, fun h => ?_, remainingDays_eq_tdiv env.now leaf, fun h => ?_⟩
  · rw [renew h]; exact requestAndSave_requests env config s
  · rw [renew h]
    unfold requestAndSave
    generalize RequestCertificate env.lego config s = r at hreq hsave
    obtain ⟨o, s1⟩ := r
    simp only at hreq hsave
    subst hreq
    simp only
    generalize saveResource resource config s1 = w at hsave
    obtain ⟨e, s2⟩ := w
    simp only at hsave
    subst hsave
    rfl
  · rw [renew (by omega)]; exact requestAndSave_requests env config s
  · rw [renew (by omega)]; exact requestAndSave_requests env config s
  · rw [renew (le_trans (remainingDays_nonpos env.now leaf h) hN)]
    exact requestAndSave_requests env config s

/-- Witness for C4 at threshold 21: 22 days left, 20 days left, 21 days left. -/
theorem GetOrRenewCertificate_threshold_witness :
    GetOrRenewCertificate (exampleEnv ⟨false, 22 * day⟩ okLego) exampleConfig 21 storedSys
      = (.returned (false, none), storedSys) ∧
    (GetOrRenewCertificate (exampleEnv ⟨false, 20 * day⟩ okLego) exampleConfig 21 storedSys).1
      = .returned (true, none) ∧
    (GetOrRenewCertificate (exampleEnv ⟨false, 21 * day⟩ okLego) exampleConfig 21
      storedSys).2.requests = 1 :=
  ⟨(GetOrRenewCertificate_threshold (exampleEnv ⟨false, 22 * day⟩ okLego) exampleConfig 21
      storedSys ⟨false, 22 * day⟩ [] (by decide) rfl rfl).1
      (by rw [remainingDays_eq_tdiv _ _ (by decide) (by decide)]; decide),
   ((GetOrRenewCertificate_threshold (exampleEnv ⟨false, 20 * day⟩ okLego) exampleConfig 21
      storedSys ⟨false, 20 * day⟩ [] (by decide) rfl rfl).2.1
      (by rw [remainingDays_eq_tdiv _ _ (by decide) (by decide)]; decide)).2
      issued rfl rfl,
   (GetOrRenewCertificate_threshold (exampleEnv ⟨false, 21 * day⟩ okLego) exampleConfig 21
      storedSys ⟨false, 21 * day⟩ [] (by decide) rfl rfl).2.2.2.2.1
      (by rw [remainingDays_eq_tdiv _ _ (by decide) (by decide)]; decide)⟩

/-- C5 at its failing input: a leaf that is not a CA certificate and is still
valid for 21 days and 12 hours, checked with the threshold 21. The day count is
21, which is not above the threshold: a certificate is requested, the bundle is
rewritten and `(true, nil)` is returned. -/
theorem GetOrRenewCertificate_renews_above_21_days :
    21 * day < time.Until 0 (21 * day + 12 * time.Hour) ∧
    remainingDays 0 ⟨false, 21 * day + 12 * time.Hour⟩ = 21 ∧
    (GetOrRenewCertificate (exampleEnv ⟨false, 21 * day + 12 * time.Hour⟩ okLego)
      exampleConfig 21 storedSys).1 = .returned (true, none) ∧
    (GetOrRenewCertificate (exampleEnv ⟨false, 21 * day + 12 * time.Hour⟩ okLego)
      exampleConfig 21 storedSys).2.requests = 1 ∧
    (GetOrRenewCertificate (exampleEnv ⟨false, 21 * day + 12 * time.Hour⟩ okLego)
      exampleConfig 21 storedSys).2.fs.content "/out/example.com.crt" = some "NEW CERT" := by
  have hd : remainingDays 0 ⟨false, 21 * day + 12 * time.Hour⟩ = 21 := by
    rw [remainingDays_eq_tdiv 0 ⟨false, 21 * day + 12 * time.Hour⟩ (by decide) (by decide)]
    decide
  have hrun : GetOrRenewCertificate (exampleEnv ⟨false, 21 * day + 12 * time.Hour⟩ okLego)
      exampleConfig 21 storedSys
      = requestAndSave (exampleEnv ⟨false, 21 * day + 12 * time.Hour⟩ okLego)
          exampleConfig storedSys := by
    rw [GetOrRenewCertificate_of_leaf (exampleEnv ⟨false, 21 * day + 12 * time.Hour⟩ okLego)
      exampleConfig 21 storedSys ⟨false, 21 * day + 12 * time.Hour⟩ [] rfl rfl]
    have hd2 : remainingDays (exampleEnv ⟨false, 21 * day + 12 * time.Hour⟩ okLego).now
        ⟨false, 21 * day + 12 * time.Hour⟩ = 21 := hd
    rw [hd2]
    rfl
  rw [hrun, hd]
  decide

/-- C6: a stored bundle whose first certificate has the CA flag set makes
`GetOrRenewCertificate` return `changed = false` with the error
`Certificate bundle starts with a CA certificate` for every threshold; no
certificate is requested, no write is made, the files are as they were. -/
theorem GetOrRenewCertificate_ca_leaf (env : Env) (config : UserConfig) (days : Int) (s : Sys)
    (leaf : Certificate) (rest : List Certificate)
    (hread : readCert env s.fs (certPath config) = .ok (leaf :: rest))
    (hca : leaf.IsCA = true) :
    (GetOrRenewCertificate env config days s).1
      = .returned (false, some "Certificate bundle starts with a CA certificate") ∧
    (GetOrRenewCertificate env config days s).2.requests = s.requests ∧
    (GetOrRenewCertificate env config days s).2.writes = s.writes ∧
    (GetOrRenewCertificate env config days s).2.fs = s.fs := by
  rw [GetOrRenewCertificate_of_ca env config days s leaf rest hread hca]
  exact ⟨rfl, rfl, rfl, rfl⟩

/-- Witness for C6: a CA certificate at the head of the bundle, threshold -1. -/
theorem GetOrRenewCertificate_ca_leaf_witness :
    (GetOrRenewCertificate (exampleEnv ⟨true, 90 * day⟩ okLego) exampleConfig (-1) storedSys).1
      = .returned (false, some "Certificate bundle starts with a CA certificate") ∧
    (GetOrRenewCertificate (exampleEnv ⟨true, 90 * day⟩ okLego) exampleConfig (-1)
      storedSys).2.requests = 0 ∧
    (GetOrRenewCertificate (exampleEnv ⟨true, 90 * day⟩ okLego) exampleConfig (-1)
      storedSys).2.writes = [] ∧
    (GetOrRenewCertificate (exampleEnv ⟨true, 90 * day⟩ okLego) exampleConfig (-1)
      storedSys).2.fs = storedSys.fs :=
  GetOrRenewCertificate_ca_leaf (exampleEnv ⟨true, 90 * day⟩ okLego) exampleConfig (-1)
    storedSys ⟨true, 90 * day⟩ [] rfl rfl

/-- C7: with a negative threshold and a stored bundle whose leaf parses and is
not a CA certificate, `GetOrRenewCertificate` returns `(false, nil)` whatever
`NotAfter` is; no certificate is requested and no write is made. -/
theorem GetOrRenewCertificate_negative_days (env : Env) (config : UserConfig) (days : Int)
    (s : Sys) (leaf : Certificate) (rest : List Certificate) (hdays : days < 0)
    (hread : readCert env s.fs (certPath config) = .ok (leaf :: rest))
    (hca : leaf.IsCA = false) :
    GetOrRenewCertificate env config days s = (.returned (false, none), s) := by
  rw [GetOrRenewCertificate_of_leaf env config days s leaf rest hread hca, if_neg (by omega)]

/-- Witness for C7: threshold -1 on a certificate that expired 100 days ago. -/
theorem GetOrRenewCertificate_negative_days_witness :
    GetOrRenewCertificate (exampleEnv ⟨false, -100 * day⟩ okLego) exampleConfig (-1) storedSys
      = (.returned (false, none), storedSys) :=
  GetOrRenewCertificate_negative_days (exampleEnv ⟨false, -100 * day⟩ okLego) exampleConfig (-1)
    storedSys ⟨false, -100 * day⟩ [] (by decide) rfl rfl

/-- C8, as stated, fails: with no bundle on disk and an ACME client whose
request fails, `GetOrRenewCertificate` returns `changed = false` with the error
of the request, and writes no file. -/
theorem GetOrRenewCertificate_missing_not_always_changed :
    readCert (exampleEnv ⟨false, 0⟩ (failingLego "acme: error: 429")) emptySys.fs
        (certPath exampleConfig)
      = .error "open /out/example.com.crt: no such file or directory" ∧
    (GetOrRenewCertificate (exampleEnv ⟨false, 0⟩ (failingLego "acme: error: 429"))
      exampleConfig 21 emptySys).1 = .returned (false, some "acme: error: 429") ∧
    (GetOrRenewCertificate (exampleEnv ⟨false, 0⟩ (failingLego "acme: error: 429"))
      exampleConfig 21 emptySys).2.writes = [] ∧
    (GetOrRenewCertificate (exampleEnv ⟨false, 0⟩ (failingLego "acme: error: 429"))
      exampleConfig 21 emptySys).2.fs.content "/out/example.com.crt" = none :=
  ⟨rfl, by decide, by decide, by decide⟩

/-- C8, amended: when the leaf file is absent or cannot be parsed,
`GetOrRenewCertificate` requests a new certificate whatever the threshold is.
If the request succeeds and the three paths can be written, it returns
`(true, nil)` after writing the leaf, key and issuer files, which then hold the
new resource. If the request fails it returns `changed = false` with the error
of the request and writes nothing; if a write fails it returns
`changed = false` with the error of the write. -/
theorem GetOrRenewCertificate_missing_bundle (env : Env) (config : UserConfig) (days : Int)
    (s : Sys) (e : String) (hread : readCert env s.fs (certPath config) = .error e) :
    (GetOrRenewCertificate env config days s).2.requests = s.requests + 1 ∧
    (∀ resource, (RequestCertificate env.lego config s).1 = .returned (.ok resource) →
      s.fs.denied (certPath config) = false → s.fs.denied (keyPath config) = false →
      s.fs.denied (issuerPath config) = false →
      (GetOrRenewCertificate env config days s).1 = .returned (true, none) ∧
      (GetOrRenewCertificate env config days s).2.writes
        = s.writes ++ [certPath config, keyPath config, issuerPath config] ∧
      (GetOrRenewCertificate env config days s).2.fs.content (certPath config)
        = some resource.Certificate ∧
      (GetOrRenewCertificate env config days s).2.fs.content (keyPath config)
        = some resource.PrivateKey ∧
      (GetOrRenewCertificate env config days s).2.fs.content (issuerPath config)
        = some resource.IssuerCertificate) ∧
    (∀ err, (RequestCertificate env.lego config s).1 = .returned (.error err) →
      GetOrRenewCertificate env config days s
        = (.returned (false, some err), { s with requests := s.requests + 1 })) ∧
    (∀ resource err, (RequestCertificate env.lego config s).1 = .returned (.ok resource) →
      (saveResource resource config (RequestCertificate env.lego config s).2).1 = some err →
      (GetOrRenewCertificate env config days s).1 = .returned (false, some err)) := by
  rw [GetOrRenewCertificate_of_read_error env config days s e hread]
  refine ⟨requestAndSave_requests env config s, fun resource hreq h1 h2 h3 => ?_,
    fun err hreq => requestAndSave_request_error env config s err hreq,
    fun resource err hreq hsave => ?_⟩
  · rw [requestAndSave_request_ok env config s resource hreq]
    have hok := saveResource_ok resource config { s with requests := s.requests + 1 } h1 h2 h3
    have hc := content_after_save resource config s.fs
    rw [hok]
    exact ⟨by simp, rfl, hc.1, hc.2.1, hc.2.2⟩
  · rw [requestAndSave_request_ok env config s resource hreq]
    rw [RequestCertificate_snd] at hsave
    simp [hsave]

/-- Witness for the amended C8: no bundle on disk, threshold -1, a CA that issues. -/
theorem GetOrRenewCertificate_missing_bundle_witness :
    (GetOrRenewCertificate (exampleEnv ⟨false, 0⟩ okLego) exampleConfig (-1) emptySys).1
      = .returned (true, none) ∧
    (GetOrRenewCertificate (exampleEnv ⟨false, 0⟩ okLego) exampleConfig (-1) emptySys).2.writes
      = [] ++ ["/out/example.com.crt", "/out/example.com.key", "/out/example.com.issuer.crt"] ∧
    (GetOrRenewCertificate (exampleEnv ⟨false, 0⟩ okLego) exampleConfig (-1)
      emptySys).2.fs.content "/out/example.com.crt" = some "NEW CERT" ∧
    (GetOrRenewCertificate (exampleEnv ⟨false, 0⟩ okLego) exampleConfig (-1)
      emptySys).2.fs.content "/out/example.com.key" = some "NEW KEY" ∧
    (GetOrRenewCertificate (exampleEnv ⟨false, 0⟩ okLego) exampleConfig (-1)
      emptySys).2.fs.content "/out/example.com.issuer.crt" = some "NEW ISSUER" :=
  (GetOrRenewCertificate_missing_bundle (exampleEnv ⟨false, 0⟩ okLego) exampleConfig (-1)
    emptySys "open /out/example.com.crt: no such file or directory" rfl).2.1 issued rfl rfl rfl rfl

/-- The files after the issuing block: those before it, or those that
`saveResource` leaves for the resource obtained, its error being the one
returned. -/
theorem requestAndSave_fs (env : Env) (config : UserConfig) (s : Sys) :
    (requestAndSave env config s).2.fs = s.fs ∨
    ∃ resource,
      (RequestCertificate env.lego config s).1 = .returned (.ok resource) ∧
      requestAndSave env config s =
        (.returned
          (decide ((saveResource resource config { s with requests := s.requests + 1 }).1
            = none),
            (saveResource resource config { s with requests := s.requests + 1 }).1),
          (saveResource resource config { s with requests := s.requests + 1 }).2) := by
  have hs := RequestCertificate_snd env.lego config s
  cases hreq : (RequestCertificate env.lego config s).1 with
  | exited msg =>
    left
    unfold requestAndSave
    generalize RequestCertificate env.lego config s = r at hreq hs
    obtain ⟨o, s1⟩ := r
    simp only at hreq hs
    subst hreq hs
    rfl
  | panicked msg =>
    left
    unfold requestAndSave
    generalize RequestCertificate env.lego config s = r at hreq hs
    obtain ⟨o, s1⟩ := r
    simp only at hreq hs
    subst hreq hs
    rfl
  | returned r =>
    cases r with
    | error err =>
      left
      rw [requestAndSave_request_error env config s err hreq]
    | ok resource =>
      right
      exact ⟨resource, rfl, requestAndSave_request_ok env config s resource hreq⟩

/-- The files after `GetOrRenewCertificate`: those before it, or those that
`saveResource` leaves for the resource obtained, its error being the one
returned. -/
theorem GetOrRenewCertificate_fs (env : Env) (config : UserConfig) (days : Int) (s : Sys) :
    (GetOrRenewCertificate env config days s).2.fs = s.fs ∨
    ∃ resource,
      (RequestCertificate env.lego config s).1 = .returned (.ok resource) ∧
      GetOrRenewCertificate env config days s =
        (.returned
          (decide ((saveResource resource config { s with requests := s.requests + 1 }).1
            = none),
            (saveResource resource config { s with requests := s.requests + 1 }).1),
          (saveResource resource config { s with requests := s.requests + 1 }).2) := by
  rcases GetOrRenewCertificate_cases env config days s with h | h | h | h
  · rw [h]
    exact requestAndSave_fs env config s
  · exact Or.inl (by rw [h])
  · exact Or.inl (by rw [h])
  · exact Or.inl (by rw [h])

/-- C9, as stated, fails: when the key file cannot be opened for writing,
`saveResource` returns an error after the leaf file has been replaced, and so
does `GetOrRenewCertificate` on a certificate with 5 days left and the
threshold 21. The leaf file holds the new certificate, the key file the old
key. -/
theorem saveResource_not_atomic :
    (saveResource issued exampleConfig keyDeniedSys).1
      = some "open /out/example.com.key: permission denied" ∧
    keyDeniedSys.fs.content "/out/example.com.crt" = some "BUNDLE" ∧
    (saveResource issued exampleConfig keyDeniedSys).2.fs.content "/out/example.com.crt"
      = some "NEW CERT" ∧
    (saveResource issued exampleConfig keyDeniedSys).2.fs.content "/out/example.com.key"
      = some "OLD KEY" ∧
    (GetOrRenewCertificate (exampleEnv ⟨false, 5 * day⟩ okLego) exampleConfig 21 keyDeniedSys).1
      = .returned (false, some "open /out/example.com.key: permission denied") ∧
    (GetOrRenewCertificate (exampleEnv ⟨false, 5 * day⟩ okLego) exampleConfig 21
      keyDeniedSys).2.fs.content "/out/example.com.crt" = some "NEW CERT" ∧
    (GetOrRenewCertificate (exampleEnv ⟨false, 5 * day⟩ okLego) exampleConfig 21
      keyDeniedSys).2.fs.content "/out/example.com.key" = some "OLD KEY" := by
  have hd : remainingDays (exampleEnv ⟨false, 5 * day⟩ okLego).now ⟨false, 5 * day⟩ = 5 := by
    rw [remainingDays_eq_tdiv (exampleEnv ⟨false, 5 * day⟩ okLego).now ⟨false, 5 * day⟩
      (by decide) (by decide)]
    decide
  have hrun : GetOrRenewCertificate (exampleEnv ⟨false, 5 * day⟩ okLego) exampleConfig 21
      keyDeniedSys = requestAndSave (exampleEnv ⟨false, 5 * day⟩ okLego) exampleConfig
        keyDeniedSys := by
    rw [GetOrRenewCertificate_of_leaf (exampleEnv ⟨false, 5 * day⟩ okLego) exampleConfig 21
      keyDeniedSys ⟨false, 5 * day⟩ [] rfl rfl, hd]
    rfl
  rw [hrun]
  decide

/-- C9, amended: `saveResource` writes the leaf, key and issuer files in this
order and stops at the first write that fails. When it returns no error the
three files hold the contents of the new resource, and it returns no error
exactly when none of the three writes fails. When it returns an error, the
files written before the failing write hold the new contents; the file whose
write failed is as it was if it could not be opened, holds only the bytes
written before the failure if the write failed, and holds the new content if
the close failed; every other file is as it was before the call.
`GetOrRenewCertificate` leaves the files as they were, or as this
`saveResource` leaves them for the resource it obtained, and then returns the
error of `saveResource`. -/
theorem saveResource_stops_at_first_failure (resource : Resource) (config : UserConfig)
    (s : Sys) :
    ((saveResource resource config s).1 = none →
      (saveResource resource config s).2.fs.content (certPath config)
        = some resource.Certificate ∧
      (saveResource resource config s).2.fs.content (keyPath config)
        = some resource.PrivateKey ∧
      (saveResource resource config s).2.fs.content (issuerPath config)
        = some resource.IssuerCertificate) ∧
    (s.fs.denied (certPath config) = true →
      (saveResource resource config s).1 ≠ none ∧
      (∀ p, p ≠ certPath config →
        (saveResource resource config s).2.fs.files p = s.fs.files p) ∧
      (∀ msg, s.fs.fault (certPath config) = some (.atOpen msg) →
        (saveResource resource config s).2.fs = s.fs) ∧
      (∀ written msg, s.fs.fault (certPath config) = some (.atWrite written msg) →
        (saveResource resource config s).2.fs.content (certPath config)
          = some (String.mk (resource.Certificate.data.take written))) ∧
      (∀ msg, s.fs.fault (certPath config) = some (.atClose msg) →
        (saveResource resource config s).2.fs.content (certPath config)
          = some resource.Certificate)) ∧
    (s.fs.denied (certPath config) = false → s.fs.denied (keyPath config) = true →
      (saveResource resource config s).1 ≠ none ∧
      (saveResource resource config s).2.fs.content (certPath config)
        = some resource.Certificate ∧
      (∀ p, p ≠ certPath config → p ≠ keyPath config →
        (saveResource resource config s).2.fs.files p = s.fs.files p) ∧
      (∀ msg, s.fs.fault (keyPath config) = some (.atOpen msg) →
        (saveResource resource config s).2.fs.files (keyPath config)
          = s.fs.files (keyPath config)) ∧
      (∀ written msg, s.fs.fault (keyPath config) = some (.atWrite written msg) →
        (saveResource resource config s).2.fs.content (keyPath config)
          = some (String.mk (resource.PrivateKey.data.take written))) ∧
      (∀ msg, s.fs.fault (keyPath config) = some (.atClose msg) →
        (saveResource resource config s).2.fs.content (keyPath config)
          = some resource.PrivateKey)) ∧
    (s.fs.denied (certPath config) = false → s.fs.denied (keyPath config) = false →
      s.fs.denied (issuerPath config) = true →
      (saveResource resource config s).1 ≠ none ∧
      (saveResource resource config s).2.fs.content (certPath config)
        = some resource.Certificate ∧
      (saveResource resource config s).2.fs.content (keyPath config)
        = some resource.PrivateKey ∧
      (∀ p, p ≠ certPath config → p ≠ keyPath config → p ≠ issuerPath config →
        (saveResource resource config s).2.fs.files p = s.fs.files p) ∧
      (∀ msg, s.fs.fault (issuerPath config) = some (.atOpen msg) →
        (saveResource resource config s).2.fs.files (issuerPath config)
          = s.fs.files (issuerPath config)) ∧
      (∀ written msg, s.fs.fault (issuerPath config) = some (.atWrite written msg) →
        (saveResource resource config s).2.fs.content (issuerPath config)
          = some (String.mk (resource.IssuerCertificate.data.take written))) ∧
      (∀ msg, s.fs.fault (issuerPath config) = some (.atClose msg) →
        (saveResource resource config s).2.fs.content (issuerPath config)
          = some resource.IssuerCertificate)) ∧
    ((saveResource resource config s).1 = none ↔
      (s.fs.denied (certPath config) = false ∧ s.fs.denied (keyPath config) = false ∧
        s.fs.denied (issuerPath config) = false)) ∧
    (∀ (env : Env) (days : Int) (s0 : Sys),
      (GetOrRenewCertificate env config days s0).2.fs = s0.fs ∨
      ∃ obtained,
        (RequestCertificate env.lego config s0).1 = .returned (.ok obtained) ∧
        GetOrRenewCertificate env config days s0 =
          (.returned
            (decide ((saveResource obtained config
              { s0 with requests := s0.requests + 1 }).1 = none),
              (saveResource obtained config { s0 with requests := s0.requests + 1 }).1),
            (saveResource obtained config { s0 with requests := s0.requests + 1 }).2)) := by
  obtain ⟨n1, n2, n3⟩ := bundle_paths_ne config
  refine ⟨fun h => ?_, fun h1 => ?_, fun h1 h2 => ?_, fun h1 h2 h3 => ?_,
    saveResource_fst_eq_none resource config s,
    fun env days s0 => GetOrRenewCertificate_fs env config days s0⟩
  · have hd := (saveResource_fst_eq_none resource config s).mp h
    rw [saveResource_ok resource config s hd.1 hd.2.1 hd.2.2]
    exact content_after_save resource config s.fs
  · have hw := WriteFile_failed s.fs (certPath config) resource.Certificate 0o600
    rw [saveResource_cert_denied resource config s h1]
    refine ⟨?_, fun p hp => ?_, fun msg hf => ?_, fun written msg hf => ?_, fun msg hf => ?_⟩
    · simp only [ne_eq, WriteFile_fst_eq_none, h1]
      simp
    · exact WriteFile_files_ne _ _ _ _ _ hp
    · simp only
      rw [hw.1 msg hf]
    · exact (hw.2.1 written msg hf).2
    · exact (hw.2.2 msg hf).2
  · have hw := WriteFile_failed (s.fs.put (certPath config) resource.Certificate 0o600)
      (keyPath config) resource.PrivateKey 0o600
    have hden : (s.fs.put (certPath config) resource.Certificate 0o600).denied (keyPath config)
        = true := h2
    rw [saveResource_key_denied resource config s h1 h2]
    refine ⟨?_, ?_, fun p hp hk => ?_, fun msg hf => ?_, fun written msg hf => ?_,
      fun msg hf => ?_⟩
    · simp only [ne_eq, WriteFile_fst_eq_none, hden]
      simp
    · simp only [FileSystem.content]
      rw [WriteFile_files_ne _ _ _ _ _ n1, files_put_self]
      rfl
    · simp only
      rw [WriteFile_files_ne _ _ _ _ _ hk, files_put_ne _ _ _ _ _ hp]
    · simp only
      rw [hw.1 msg hf]
      exact files_put_ne _ _ _ _ _ (Ne.symm n1)
    · exact (hw.2.1 written msg hf).2
    · exact (hw.2.2 msg hf).2
  · have hw := WriteFile_failed ((s.fs.put (certPath config) resource.Certificate 0o600).put
      (keyPath config) resource.PrivateKey 0o600)
      (issuerPath config) resource.IssuerCertificate 0o600
    have hden : ((s.fs.put (certPath config) resource.Certificate 0o600).put
        (keyPath config) resource.PrivateKey 0o600).denied (issuerPath config) = true := h3
    rw [saveResource_issuer_denied resource config s h1 h2 h3]
    refine ⟨?_, ?_, ?_, fun p hp hk hi => ?_, fun msg hf => ?_, fun written msg hf => ?_,
      fun msg hf => ?_⟩
    · simp only [ne_eq, WriteFile_fst_eq_none, hden]
      simp
    · simp only [FileSystem.content]
      rw [WriteFile_files_ne _ _ _ _ _ n2, files_put_ne _ _ _ _ _ n1, files_put_self]
      rfl
    · simp only [FileSystem.content]
      rw [WriteFile_files_ne _ _ _ _ _ n3, files_put_self]
      rfl
    · simp only
      rw [WriteFile_files_ne _ _ _ _ _ hi, files_put_ne _ _ _ _ _ hk,
        files_put_ne _ _ _ _ _ hp]
    · simp only
      rw [hw.1 msg hf, files_put_ne _ _ _ _ _ (Ne.symm n3),
        files_put_ne _ _ _ _ _ (Ne.symm n2)]
    · exact (hw.2.1 written msg hf).2
    · exact (hw.2.2 msg hf).2

/-- Witness for the amended C9: the key file cannot be opened, the leaf file is
replaced and the key and issuer files are untouched; the disk fills up after
three bytes of the key, the leaf file is replaced and the key file holds those
three bytes. -/
theorem saveResource_stops_at_first_failure_witness :
    (saveResource issued exampleConfig keyDeniedSys).1 ≠ none ∧
    (saveResource issued exampleConfig keyDeniedSys).2.fs.content (certPath exampleConfig)
      = some "NEW CERT" ∧
    (saveResource issued exampleConfig keyDeniedSys).2.fs.files "/out/example.com.issuer.crt"
      = keyDeniedSys.fs.files "/out/example.com.issuer.crt" ∧
    (saveResource issued exampleConfig keyDeniedSys).2.fs.files (keyPath exampleConfig)
      = keyDeniedSys.fs.files (keyPath exampleConfig) ∧
    (saveResource issued exampleConfig keyTornSys).2.fs.content (certPath exampleConfig)
      = some "NEW CERT" ∧
    (saveResource issued exampleConfig keyTornSys).2.fs.content (keyPath exampleConfig)
      = some (String.mk ("NEW KEY".data.take 3)) :=
  ⟨((saveResource_stops_at_first_failure issued exampleConfig keyDeniedSys).2.2.1 rfl rfl).1,
   ((saveResource_stops_at_first_failure issued exampleConfig keyDeniedSys).2.2.1 rfl rfl).2.1,
   ((saveResource_stops_at_first_failure issued exampleConfig keyDeniedSys).2.2.1 rfl rfl).2.2.1
      "/out/example.com.issuer.crt" (by decide) (by decide),
   ((saveResource_stops_at_first_failure issued exampleConfig keyDeniedSys).2.2.1
      rfl rfl).2.2.2.1 "permission denied" rfl,
   ((saveResource_stops_at_first_failure issued exampleConfig keyTornSys).2.2.1 rfl rfl).2.1,
   ((saveResource_stops_at_first_failure issued exampleConfig keyTornSys).2.2.1
      rfl rfl).2.2.2.2.1 3 "no space left on device" rfl⟩

/-- C10: a failed certificate request is never swallowed. In the missing-bundle
branch and in the renewal branch, an error of `RequestCertificate` is returned
as it is with `changed = false`, and nothing but the request has happened: no
write, the filesystem unchanged. Whenever `GetOrRenewCertificate` returns an
error, `changed` is false; `changed = true` is returned only with a nil error,
after a successful request and three successful writes. -/
theorem GetOrRenewCertificate_error_not_swallowed (env : Env) (config : UserConfig)
    (days : Int) (s : Sys) :
    (∀ e err, readCert env s.fs (certPath config) = .error e →
      (RequestCertificate env.lego config s).1 = .returned (.error err) →
      GetOrRenewCertificate env config days s
        = (.returned (false, some err), { s with requests := s.requests + 1 })) ∧
    (∀ leaf rest err, readCert env s.fs (certPath config) = .ok (leaf :: rest) →
      leaf.IsCA = false → 0 ≤ days → remainingDays env.now leaf ≤ days →
      (RequestCertificate env.lego config s).1 = .returned (.error err) →
      GetOrRenewCertificate env config days s
        = (.returned (false, some err), { s with requests := s.requests + 1 })) ∧
    (∀ changed err,
      (GetOrRenewCertificate env config days s).1 = .returned (changed, some err) →
      changed = false) ∧
    (∀ e, (GetOrRenewCertificate env config days s).1 = .returned (true, e) →
      e = none ∧ ∃ resource,
        (RequestCertificate env.lego config s).1 = .returned (.ok resource) ∧
        (saveResource resource config (RequestCertificate env.lego config s).2).1 = none ∧
        (GetOrRenewCertificate env config days s).2.writes
          = s.writes ++ [certPath config, keyPath config, issuerPath config]) := by
  refine ⟨fun e err hread hreq => ?_, fun leaf rest err hread hca hd hrem hreq => ?_,
    fun changed err h => ?_, fun e h => ?_⟩
  · rw [GetOrRenewCertificate_of_read_error env config days s e hread]
    exact requestAndSave_request_error env config s err hreq
  · rw [GetOrRenewCertificate_of_leaf env config days s leaf rest hread hca, if_pos hd,
      if_neg (not_lt.mpr hrem)]
    exact requestAndSave_request_error env config s err hreq
  · rcases GetOrRenewCertificate_cases env config days s with hc | hc | hc | hc
    · rw [hc] at h
      exact (requestAndSave_returned env config s changed (some err) h).1 (by simp)
    · rw [hc] at h; simp at h
    · rw [hc] at h
      simp only [Outcome.returned.injEq, Prod.mk.injEq] at h
      exact h.1.symm
    · rw [hc] at h
      simp only [Outcome.returned.injEq, Prod.mk.injEq] at h
      exact h.1.symm
  · rcases GetOrRenewCertificate_cases env config days s with hc | hc | hc | hc
    · rw [hc] at h ⊢
      exact (requestAndSave_returned env config s true e h).2 rfl
    · rw [hc] at h; simp at h
    · rw [hc] at h; simp at h
    · rw [hc] at h; simp at h

/-- Witness for C10: the request fails in the missing-bundle branch and in the
renewal branch (5 days left, threshold 21). -/
theorem GetOrRenewCertificate_error_not_swallowed_witness :
    GetOrRenewCertificate (exampleEnv ⟨false, 5 * day⟩ (failingLego "acme: error: 429"))
        exampleConfig 21 emptySys
      = (.returned (false, some "acme: error: 429"), { emptySys with requests := 0 + 1 }) ∧
    GetOrRenewCertificate (exampleEnv ⟨false, 5 * day⟩ (failingLego "acme: error: 429"))
        exampleConfig 21 storedSys
      = (.returned (false, some "acme: error: 429"), { storedSys with requests := 0 + 1 }) :=
  ⟨(GetOrRenewCertificate_error_not_swallowed
      (exampleEnv ⟨false, 5 * day⟩ (failingLego "acme: error: 429")) exampleConfig 21
      emptySys).1 "open /out/example.com.crt: no such file or directory" "acme: error: 429"
      rfl rfl,
   (GetOrRenewCertificate_error_not_swallowed
      (exampleEnv ⟨false, 5 * day⟩ (failingLego "acme: error: 429")) exampleConfig 21
      storedSys).2.1 ⟨false, 5 * day⟩ [] "acme: error: 429" rfl rfl (by decide)
      (by rw [remainingDays_eq_tdiv _ _ (by decide) (by decide)]; decide) rfl⟩

/-! ## Theorems: persisted layout -/

/-- A mode without the bits of the umask has no bit outside the mode asked for. -/
theorem andNot_and_eq_zero (a b c : Nat) (h : a &&& c = 0) : andNot a b &&& c = 0 := by
  unfold andNot
  rw [Nat.and_xor_distrib_right, h, Nat.and_assoc, Nat.and_comm b c, ← Nat.and_assoc, h]
  simp

/-- A umask that has none of the bits asked for changes nothing. -/
theorem andNot_of_disjoint (a b : Nat) (h : a &&& b = 0) : andNot a b = a := by
  unfold andNot
  rw [h]
  simp

/-- C11, as stated, fails: a file of the bundle that exists with mode 0644
still has mode 0644 after `saveResource` has written the new content to it
without error; it is not given the owner-only mode 0600. -/
theorem saveResource_keeps_mode :
    (saveResource issued exampleConfig looseSys).1 = none ∧
    looseSys.fs.files "/out/example.com.key" = some ⟨"OLD KEY", 0o644⟩ ∧
    (saveResource issued exampleConfig looseSys).2.fs.files "/out/example.com.key"
      = some ⟨"NEW KEY", 0o644⟩ ∧
    (saveResource issued exampleConfig looseSys).2.fs.files "/out/example.com.crt"
      = some ⟨"NEW CERT", 0o644⟩ := by
  decide

/-- C11, amended: when `saveResource` returns no error, the files at
`Join(OutputDirectory, Filename + ".crt")`, `... + ".key"` and
`... + ".issuer.crt"`, three paths that share one stem, hold the certificate,
the private key and the issuer certificate of the resource. The three writes
are `os.WriteFile` calls with permission 0600: a file that did not exist is
created with mode 0600 less the bits of the umask, which has no permission for
group or others and is 0600 when the umask has no owner read or write bit; a
file that existed keeps the mode it had. No other path is written: the write log
gains exactly the three paths and every other file is as before. The leaf path
is the one that `GetOrRenewCertificate` reads back: reading it now yields the
certificate just written. -/
theorem saveResource_layout (resource : Resource) (config : UserConfig) (s : Sys)
    (hok : (saveResource resource config s).1 = none) :
    ((saveResource resource config s).2.fs.content (certPath config)
        = some resource.Certificate ∧
      (saveResource resource config s).2.fs.content (keyPath config)
        = some resource.PrivateKey ∧
      (saveResource resource config s).2.fs.content (issuerPath config)
        = some resource.IssuerCertificate) ∧
    (∃ stem, certPath config = stem ++ ".crt" ∧ keyPath config = stem ++ ".key" ∧
      issuerPath config = stem ++ ".issuer.crt") ∧
    (saveResource resource config s).2
      = (writeFile (issuerPath config) resource.IssuerCertificate 0o600
          (writeFile (keyPath config) resource.PrivateKey 0o600
            (writeFile (certPath config) resource.Certificate 0o600 s).2).2).2 ∧
    (∀ p, p = certPath config ∨ p = keyPath config ∨ p = issuerPath config →
      s.fs.files p = none →
      ((saveResource resource config s).2.fs.files p).map File.mode
        = some (andNot 0o600 s.fs.umask)) ∧
    andNot 0o600 s.fs.umask &&& 0o077 = 0 ∧
    (0o600 &&& s.fs.umask = 0 → andNot 0o600 s.fs.umask = 0o600) ∧
    (∀ p f, p = certPath config ∨ p = keyPath config ∨ p = issuerPath config →
      s.fs.files p = some f →
      ((saveResource resource config s).2.fs.files p).map File.mode = some f.mode) ∧
    (saveResource resource config s).2.writes
      = s.writes ++ [certPath config, keyPath config, issuerPath config] ∧
    (∀ p, p ≠ certPath config → p ≠ keyPath config → p ≠ issuerPath config →
      (saveResource resource config s).2.fs.files p = s.fs.files p) ∧
    (∀ env : Env, readCert env (saveResource resource config s).2.fs (certPath config)
      = env.ParsePEMBundle resource.Certificate) := by
  obtain ⟨n1, n2, n3⟩ := bundle_paths_ne config
  have hd := (saveResource_fst_eq_none resource config s).mp hok
  have hsave := saveResource_ok resource config s hd.1 hd.2.1 hd.2.2
  have hc := content_after_save resource config s.fs
  obtain ⟨stem, hstem⟩ := filepath.Join_ext config.OutputDirectory config.Filename
  have hmode : ∀ p, p = certPath config ∨ p = keyPath config ∨ p = issuerPath config →
      ((((s.fs.put (certPath config) resource.Certificate 0o600).put (keyPath config)
        resource.PrivateKey 0o600).put (issuerPath config) resource.IssuerCertificate
        0o600).files p).map File.mode
      = some (match s.fs.files p with
          | some f => f.mode
          | none => andNot 0o600 s.fs.umask) := by
    intro p hp
    rcases hp with hp | hp | hp
    · subst hp
      rw [files_put_ne _ _ _ _ _ n2, files_put_ne _ _ _ _ _ n1, files_put_self]
      rfl
    · subst hp
      rw [files_put_ne _ _ _ _ _ n3, files_put_self, files_put_ne _ _ _ _ _ (Ne.symm n1)]
      rfl
    · subst hp
      rw [files_put_self, files_put_ne _ _ _ _ _ (Ne.symm n3),
        files_put_ne _ _ _ _ _ (Ne.symm n2)]
      rfl
  rw [hsave]
  refine ⟨hc, ⟨stem, hstem ".crt" (by decide) (by decide) (by decide),
    hstem ".key" (by decide) (by decide) (by decide),
    hstem ".issuer.crt" (by decide) (by decide) (by decide)⟩, ?_, ?_,
    andNot_and_eq_zero _ _ _ (by decide), andNot_of_disjoint _ _, ?_, rfl, ?_, ?_⟩
  · have h2' : (s.fs.put (certPath config) resource.Certificate 0o600).denied (keyPath config)
        = false := hd.2.1
    have h3' : ((s.fs.put (certPath config) resource.Certificate 0o600).put
        (keyPath config) resource.PrivateKey 0o600).denied (issuerPath config) = false := hd.2.2
    simp only [writeFile]
    rw [WriteFile_of_not_denied _ _ _ _ hd.1]
    simp only
    rw [WriteFile_of_not_denied _ _ _ _ h2']
    simp only
    rw [WriteFile_of_not_denied _ _ _ _ h3']
    simp
  · intro p hp hnone
    simp only
    rw [hmode p hp, hnone]
  · intro p f hp hsome
    simp only
    rw [hmode p hp, hsome]
  · intro p h1 h2 h3
    simp only
    rw [files_put_ne _ _ _ _ _ h3, files_put_ne _ _ _ _ _ h2, files_put_ne _ _ _ _ _ h1]
  · intro env
    have h := hc.1
    simp only [FileSystem.content] at h
    simp only [readCert, os.ReadFile]
    cases hf : (((s.fs.put (certPath config) resource.Certificate 0o600).put (keyPath config)
        resource.PrivateKey 0o600).put (issuerPath config) resource.IssuerCertificate
        0o600).files (certPath config) with
    | none => rw [hf] at h; simp at h
    | some f =>
      rw [hf] at h
      simp only [Option.map_some', Option.some.injEq] at h
      simp [h]

/-- Witness for the amended C11: the bundle of `example.com` written under
`/out`, where no file existed, with the umask 022; and written over files of
mode 0644. -/
theorem saveResource_layout_witness :
    (saveResource issued exampleConfig emptySys).2.fs.files "/out/example.com.crt"
      = some ⟨"NEW CERT", 0o600⟩ ∧
    (saveResource issued exampleConfig emptySys).2.fs.files "/out/example.com.key"
      = some ⟨"NEW KEY", 0o600⟩ ∧
    (saveResource issued exampleConfig emptySys).2.fs.files "/out/example.com.issuer.crt"
      = some ⟨"NEW ISSUER", 0o600⟩ ∧
    (saveResource issued exampleConfig emptySys).2.writes
      = [] ++ [certPath exampleConfig, keyPath exampleConfig, issuerPath exampleConfig] ∧
    (saveResource issued exampleConfig emptySys).2.fs.files "/out/other.txt"
      = emptySys.fs.files "/out/other.txt" ∧
    ((saveResource issued exampleConfig looseSys).2.fs.files (keyPath exampleConfig)).map
      File.mode = some 0o644 :=
  ⟨by decide, by decide, by decide,
   (saveResource_layout issued exampleConfig emptySys rfl).2.2.2.2.2.2.2.1,
   (saveResource_layout issued exampleConfig emptySys rfl).2.2.2.2.2.2.2.2.1 "/out/other.txt"
      (by decide) (by decide) (by decide),
   (saveResource_layout issued exampleConfig looseSys rfl).2.2.2.2.2.2.1
      (keyPath exampleConfig) ⟨"OLD KEY", 0o644⟩ (Or.inr (Or.inl rfl)) rfl⟩

/-! ## Theorems: resolution of the options -/

/-- C12: a `CADir` whose upper-casing is `STAGING`, `PRODUCTION` or `TEST` is
resolved without error to the staging endpoint, the production endpoint or the
local test endpoint. -/
theorem getCADir_well_known (libs : Libs) (c : RawUserConfig) :
    (strings.ToUpper libs c.CADir = "STAGING" →
      c.getCADir libs = ("https://acme-staging-v02.api.letsencrypt.org/directory", none)) ∧
    (strings.ToUpper libs c.CADir = "PRODUCTION" →
      c.getCADir libs = ("https://acme-v02.api.letsencrypt.org/directory", none)) ∧
    (strings.ToUpper libs c.CADir = "TEST" →
      c.getCADir libs = ("http://localhost:4000/directory", none)) := by
  refine ⟨fun h => ?_, fun h => ?_, fun h => ?_⟩
  · simp only [RawUserConfig.getCADir, h]
    rfl
  · simp only [RawUserConfig.getCADir, h]
    rfl
  · simp only [RawUserConfig.getCADir, h]
    rfl

/-- Witness for C12: `staging`, `Production` and `test`. -/
theorem getCADir_well_known_witness :
    ({ exampleRaw "example.com" with CADir := "staging" }).getCADir exampleLibs
      = ("https://acme-staging-v02.api.letsencrypt.org/directory", none) ∧
    ({ exampleRaw "example.com" with CADir := "Production" }).getCADir exampleLibs
      = ("https://acme-v02.api.letsencrypt.org/directory", none) ∧
    ({ exampleRaw "example.com" with CADir := "test" }).getCADir exampleLibs
      = ("http://localhost:4000/directory", none) :=
  ⟨(getCADir_well_known exampleLibs { exampleRaw "example.com" with CADir := "staging" }).1
      (by decide),
   (getCADir_well_known exampleLibs { exampleRaw "example.com" with CADir := "Production" }).2.1
      (by decide),
   (getCADir_well_known exampleLibs { exampleRaw "example.com" with CADir := "test" }).2.2
      (by decide)⟩

/-- C13: for a `CADir` whose upper-casing is none of the three well-known names,
`getCADir` succeeds exactly when the string starts with `http://` or
`https://`, and then returns it as it is; otherwise it returns the empty string
and the error `Invalid CA directory: ` followed by the input. For every
`CADir`, a value returned without error starts with `http://` or `https://`. -/
theorem getCADir_explicit (libs : Libs) (c : RawUserConfig) :
    (strings.ToUpper libs c.CADir ≠ "STAGING" → strings.ToUpper libs c.CADir ≠ "PRODUCTION" →
      strings.ToUpper libs c.CADir ≠ "TEST" →
      ((c.getCADir libs).2 = none ↔
        (HasPrefix c.CADir "http://" = true ∨ HasPrefix c.CADir "https://" = true)) ∧
      (HasPrefix c.CADir "http://" = true ∨ HasPrefix c.CADir "https://" = true →
        c.getCADir libs = (c.CADir, none)) ∧
      (¬ (HasPrefix c.CADir "http://" = true ∨ HasPrefix c.CADir "https://" = true) →
        c.getCADir libs = ("", some ("Invalid CA directory: " ++ c.CADir)))) ∧
    ((c.getCADir libs).2 = none →
      HasPrefix (c.getCADir libs).1 "http://" = true ∨
        HasPrefix (c.getCADir libs).1 "https://" = true) := by
  have hs : constants.ACME_STAGING_ENV = "STAGING" := rfl
  have hp : constants.ACME_PRODUCTION_ENV = "PRODUCTION" := rfl
  have ht : constants.ACME_TEST_ENV = "TEST" := rfl
  constructor
  · intro h1 h2 h3
    by_cases hx : HasPrefix c.CADir "http://" = true ∨ HasPrefix c.CADir "https://" = true
    · have e : c.getCADir libs = (c.CADir, none) := by
        simp only [RawUserConfig.getCADir, hs, hp, ht, h1, h2, h3, if_false]
        rcases hx with hx | hx <;> simp [hx]
      exact ⟨⟨fun _ => hx, fun _ => by rw [e]⟩, fun _ => e, fun hn => absurd hx hn⟩
    · have e : c.getCADir libs = ("", some ("Invalid CA directory: " ++ c.CADir)) := by
        simp only [RawUserConfig.getCADir, hs, hp, ht, h1, h2, h3, if_false]
        simp only [not_or, Bool.not_eq_true] at hx
        simp [hx.1, hx.2]
      exact ⟨⟨fun h => by rw [e] at h; simp at h, fun h => absurd h hx⟩,
        fun h => absurd h hx, fun _ => e⟩
  · intro hok
    unfold RawUserConfig.getCADir at hok ⊢
    split_ifs at hok ⊢ with a b d e
    · exact Or.inr (by decide)
    · exact Or.inr (by decide)
    · exact Or.inl (by decide)
    · cases h1 : HasPrefix c.CADir "http://" <;> cases h2 : HasPrefix c.CADir "https://" <;>
        simp [h1, h2] at e ⊢

/-- Witness for C13: `http://somewhere:4000/directory` and `bad/value`, as in
`TestGetCADir`. -/
theorem getCADir_explicit_witness :
    ({ exampleRaw "example.com" with CADir := "http://somewhere:4000/directory" }).getCADir
        exampleLibs = ("http://somewhere:4000/directory", none) ∧
    ({ exampleRaw "example.com" with CADir := "bad/value" }).getCADir exampleLibs
      = ("", some "Invalid CA directory: bad/value") :=
  ⟨((getCADir_explicit exampleLibs
      { exampleRaw "example.com" with CADir := "http://somewhere:4000/directory" }).1
      (by decide) (by decide) (by decide)).2.1 (Or.inl (by decide)),
   ((getCADir_explicit exampleLibs { exampleRaw "example.com" with CADir := "bad/value" }).1
      (by decide) (by decide) (by decide)).2.2 (by decide)⟩

/-- C14: `getKeyType` succeeds exactly on `RSA2048`, `RSA4096` and `RSA8192`,
compared as they are written, and returns the key types `2048`, `4096` and
`8192` of lego; every other string fails with the message that lists the three
allowed values. -/
theorem getKeyType_exact (c : RawUserConfig) :
    (c.KeyType = "RSA2048" → c.getKeyType = (certcrypto.RSA2048, none)) ∧
    (c.KeyType = "RSA4096" → c.getKeyType = (certcrypto.RSA4096, none)) ∧
    (c.KeyType = "RSA8192" → c.getKeyType = (certcrypto.RSA8192, none)) ∧
    (c.KeyType ≠ "RSA2048" → c.KeyType ≠ "RSA4096" → c.KeyType ≠ "RSA8192" →
      c.getKeyType.2
        = some "Invalid key type. Allowed values are 'RSA2048', 'RSA4096' and 'RSA8192'.") ∧
    (c.getKeyType.2 = none ↔
      (c.KeyType = "RSA2048" ∨ c.KeyType = "RSA4096" ∨ c.KeyType = "RSA8192")) := by
  have k1 : constants.KEY_TYPE_RSA2048 = "RSA2048" := rfl
  have k2 : constants.KEY_TYPE_RSA4096 = "RSA4096" := rfl
  have k3 : constants.KEY_TYPE_RSA8192 = "RSA8192" := rfl
  have a1 : c.KeyType = "RSA2048" → c.getKeyType = (certcrypto.RSA2048, none) := by
    intro h
    simp [RawUserConfig.getKeyType, k1, h]
  have a2 : c.KeyType = "RSA4096" → c.getKeyType = (certcrypto.RSA4096, none) := by
    intro h
    simp only [RawUserConfig.getKeyType, k1, k2, h]
    decide
  have a3 : c.KeyType = "RSA8192" → c.getKeyType = (certcrypto.RSA8192, none) := by
    intro h
    simp only [RawUserConfig.getKeyType, k1, k2, k3, h]
    decide
  have a4 : c.KeyType ≠ "RSA2048" → c.KeyType ≠ "RSA4096" → c.KeyType ≠ "RSA8192" →
      c.getKeyType.2
        = some "Invalid key type. Allowed values are 'RSA2048', 'RSA4096' and 'RSA8192'." := by
    intro h1 h2 h3
    simp only [RawUserConfig.getKeyType, k1, k2, k3, h1, h2, h3, if_false]
    decide
  refine ⟨a1, a2, a3, a4, ⟨fun h => ?_, fun h => ?_⟩⟩
  · by_contra hn
    simp only [not_or] at hn
    rw [a4 hn.1 hn.2.1 hn.2.2] at h
    simp at h
  · rcases h with h | h | h
    · rw [a1 h]
    · rw [a2 h]
    · rw [a3 h]

/-- Witness for C14: `RSA4096`, and the lower-case spelling `rsa2048`. -/
theorem getKeyType_exact_witness :
    ({ exampleRaw "example.com" with KeyType := "RSA4096" }).getKeyType = ("4096", none) ∧
    ({ exampleRaw "example.com" with KeyType := "rsa2048" }).getKeyType.2
      = some "Invalid key type. Allowed values are 'RSA2048', 'RSA4096' and 'RSA8192'." :=
  ⟨(getKeyType_exact { exampleRaw "example.com" with KeyType := "RSA4096" }).2.1 rfl,
   (getKeyType_exact { exampleRaw "example.com" with KeyType := "rsa2048" }).2.2.2.1
      (by decide) (by decide) (by decide)⟩

namespace strings

/-- Splitting always yields one piece at least. -/
theorem splitChars_ne_nil (sep : Char) (l : List Char) : splitChars sep l ≠ [] := by
  cases l with
  | nil => simp [splitChars]
  | cons c cs =>
    unfold splitChars
    split_ifs
    · simp
    · split <;> simp

/-- The single empty piece comes from the empty string only. -/
theorem splitChars_eq_empty_piece (sep : Char) (l : List Char) :
    splitChars sep l = [[]] ↔ l = [] := by
  constructor
  · intro h
    cases l with
    | nil => rfl
    | cons c cs =>
      exfalso
      unfold splitChars at h
      split_ifs at h with hc
      · simp only [List.cons.injEq, true_and] at h
        exact splitChars_ne_nil sep cs h
      · split at h <;> simp at h
  · intro h
    subst h
    rfl

/-- No piece contains the separator. -/
theorem splitChars_no_sep (sep : Char) (l : List Char) :
    ∀ piece ∈ splitChars sep l, sep ∉ piece := by
  induction l with
  | nil => simp [splitChars]
  | cons c cs ih =>
    unfold splitChars
    split_ifs with hc
    · intro piece hp
      rcases List.mem_cons.mp hp with h | h
      · subst h; simp
      · exact ih piece h
    · split
      · next h => exact absurd h (splitChars_ne_nil sep cs)
      · next e es h =>
        rw [h] at ih
        intro piece hp
        rcases List.mem_cons.mp hp with h2 | h2
        · subst h2
          intro hmem
          rcases List.mem_cons.mp hmem with h3 | h3
          · exact hc h3.symm
          · exact ih e (List.mem_cons_self _ _) h3
        · exact ih piece (List.mem_cons_of_mem _ h2)

/-- The pieces, written one after the other with the separator between two of
them, give the string back. -/
theorem intercalate_splitChars (sep : Char) (l : List Char) :
    List.intercalate [sep] (splitChars sep l) = l := by
  induction l with
  | nil => simp [splitChars, List.intercalate]
  | cons c cs ih =>
    unfold splitChars
    split_ifs with hc
    · cases h : splitChars sep cs with
      | nil => exact absurd h (splitChars_ne_nil sep cs)
      | cons e es =>
        rw [h] at ih
        simp only [List.intercalate, List.intersperse, List.flatten] at ih ⊢
        simp [hc, ih]
    · split
      · next h => exact absurd h (splitChars_ne_nil sep cs)
      · next e es h =>
        rw [h] at ih
        cases es with
        | nil =>
          simp only [List.intercalate, List.intersperse, List.flatten] at ih ⊢
          simpa using ih
        | cons e2 es2 =>
          simp only [List.intercalate, List.intersperse, List.flatten] at ih ⊢
          simpa using ih

end strings

/-- The message of `getDomains`. -/
theorem getDomains_message :
    "A comma-separated list of domain names must be provided through "
      ++ constants.DOMAINS ++ " environment variable"
    = "A comma-separated list of domain names must be provided through DOMAINS environment variable" := by
  decide

/-- What `getDomains` returns: the error for the empty string, the pieces for
every other string. -/
theorem getDomains_eq (c : RawUserConfig) :
    c.getDomains = if c.Domains = "" then
        ([], some "A comma-separated list of domain names must be provided through DOMAINS environment variable")
      else (strings.Split c.Domains ',', none) := by
  have hne : (strings.Split c.Domains ',').length ≠ 0 := by
    simp [strings.Split, strings.splitChars_ne_nil]
  have hiff : ((strings.Split c.Domains ',').length = 1 ∧
      (strings.Split c.Domains ',').head? = some "") ↔ c.Domains = "" := by
    constructor
    · rintro ⟨h1, h2⟩
      have hs : strings.splitChars ',' c.Domains.data = [[]] := by
        unfold strings.Split at h1 h2
        cases hsp : strings.splitChars ',' c.Domains.data with
        | nil => exact absurd hsp (strings.splitChars_ne_nil _ _)
        | cons e es =>
          rw [hsp] at h1 h2
          simp only [List.map_cons, List.length_cons, List.length_map, add_left_eq_self,
            List.length_eq_zero] at h1
          simp only [List.map_cons, List.head?_cons, Option.some.injEq] at h2
          have he : e = [] := by
            have := congrArg String.data h2
            simpa using this
          rw [h1, he]
      have := (strings.splitChars_eq_empty_piece ',' c.Domains.data).mp hs
      exact String.ext this
    · intro h
      rw [h]
      decide
  unfold RawUserConfig.getDomains
  simp only [getDomains_message]
  rw [if_neg hne]
  by_cases h : c.Domains = ""
  · rw [if_pos (hiff.mpr h), if_pos h]
  · rw [if_neg (fun hh => h (hiff.mp hh)), if_neg h]

/-- A list of domains returned without error is not empty. -/
theorem getDomains_ne_nil (c : RawUserConfig) (h : c.getDomains.2 = none) :
    c.getDomains.1 ≠ [] := by
  rw [getDomains_eq] at h ⊢
  by_cases hd : c.Domains = ""
  · rw [if_pos hd] at h
    simp at h
  · rw [if_neg hd]
    simp [strings.Split, strings.splitChars_ne_nil]

/-- C15, as stated, fails: a `DOMAINS` string made of one blank is not rejected,
`getDomains` returns the blank as the only domain, without error. -/
theorem getDomains_blank_accepted :
    ({ exampleRaw " " with Domains := " " }).getDomains = ([" "], none) := by
  decide

/-- C15, amended: `getDomains` fails exactly on the empty `DOMAINS` string, with
an empty list and the error that names `DOMAINS`; for every other string,
strings of white space included, it returns without error the pieces between
commas, in order: no piece contains a comma, and the pieces joined by commas
are the string. A list returned without error is never empty. -/
theorem getDomains_split (c : RawUserConfig) :
    (c.Domains = "" → c.getDomains =
      ([], some "A comma-separated list of domain names must be provided through DOMAINS environment variable")) ∧
    (c.Domains ≠ "" → c.getDomains = (strings.Split c.Domains ',', none)) ∧
    (∀ piece ∈ strings.Split c.Domains ',', ',' ∉ piece.data) ∧
    List.intercalate [','] ((strings.Split c.Domains ',').map String.data) = c.Domains.data ∧
    (c.getDomains.2 = none → c.getDomains.1 ≠ []) := by
  have heq := getDomains_eq c
  refine ⟨fun h => by rw [heq, if_pos h], fun h => by rw [heq, if_neg h], ?_, ?_, ?_⟩
  · intro piece hp
    unfold strings.Split at hp
    obtain ⟨l, hl, rfl⟩ := List.mem_map.mp hp
    exact strings.splitChars_no_sep ',' c.Domains.data l hl
  · unfold strings.Split
    rw [List.map_map]
    have : (String.data ∘ String.mk) = id := by
      funext l
      rfl
    rw [this, List.map_id]
    exact strings.intercalate_splitChars ',' c.Domains.data
  · intro hok
    rw [heq] at hok ⊢
    by_cases h : c.Domains = ""
    · rw [if_pos h] at hok
      simp at hok
    · rw [if_neg h]
      simp [strings.Split, strings.splitChars_ne_nil]

/-- Witness for the amended C15: the empty string, `example.com`, and a list of
two domains. -/
theorem getDomains_split_witness :
    (exampleRaw "").getDomains =
      ([], some "A comma-separated list of domain names must be provided through DOMAINS environment variable") ∧
    (exampleRaw "example.com").getDomains = (["example.com"], none) ∧
    (exampleRaw "*.example.com,example.com").getDomains
      = (["*.example.com", "example.com"], none) :=
  ⟨(getDomains_split (exampleRaw "")).1 rfl,
   (getDomains_split (exampleRaw "example.com")).2.1 (by decide),
   (getDomains_split (exampleRaw "*.example.com,example.com")).2.1 (by decide)⟩

namespace strings

/-- Replacing a character other than the separator by another one commutes
with splitting. -/
theorem splitChars_map (sep old new : Char) (ho : old ≠ sep) (hn : new ≠ sep) (l : List Char) :
    splitChars sep (l.map fun c => if c = old then new else c)
      = (splitChars sep l).map (fun piece => piece.map fun c => if c = old then new else c) := by
  induction l with
  | nil => rfl
  | cons c cs ih =>
    by_cases hc : c = sep
    · have hco : c ≠ old := fun h => ho (h ▸ hc)
      simp only [List.map_cons, splitChars, if_neg hco, if_pos hc, ih, List.map_nil]
    · by_cases hco : c = old
      · simp only [List.map_cons, splitChars, if_pos hco, if_neg hn, if_neg hc, ih]
        cases h : splitChars sep cs with
        | nil => exact absurd h (splitChars_ne_nil sep cs)
        | cons e es => simp [hco]
      · simp only [List.map_cons, splitChars, if_neg hco, if_neg hc, ih]
        cases h : splitChars sep cs with
        | nil => exact absurd h (splitChars_ne_nil sep cs)
        | cons e es => simp [hco]

end strings

namespace idna

/-- A label that starts with `xn--` after the wildcard marker has been replaced
started with `xn--` before. -/
theorem ace_of_replaced (label : List Char)
    (h : "xn--".data.isPrefixOf (label.map fun c => if c = '*' then '_' else c) = true) :
    "xn--".data.isPrefixOf label = true := by
  have key : ∀ (c t : Char), t ≠ '_' → (if c = '*' then '_' else c) = t → c = t := by
    intro c t ht hc
    by_cases hs : c = '*'
    · rw [if_pos hs] at hc
      exact absurd hc.symm ht
    · rw [if_neg hs] at hc
      exact hc
  have hx : "xn--".data = ['x', 'n', '-', '-'] := rfl
  rw [hx] at h ⊢
  match label, h with
  | a :: b :: c :: d :: rest, h =>
    simp only [List.map_cons, List.isPrefixOf, Bool.and_eq_true, beq_iff_eq] at h ⊢
    obtain ⟨h1, h2, h3, h4, _⟩ := h
    exact ⟨(key a 'x' (by decide) h1.symm).symm ▸ rfl, (key b 'n' (by decide) h2.symm).symm ▸ rfl,
      (key c '-' (by decide) h3.symm).symm ▸ rfl, (key d '-' (by decide) h4.symm).symm ▸ rfl,
      trivial⟩
  | [], h => simp [List.isPrefixOf] at h
  | [_], h => simp [List.isPrefixOf] at h
  | [_, _], h => simp [List.isPrefixOf] at h
  | [_, _, _], h => simp [List.isPrefixOf] at h

/-- A plain name stays plain when the wildcard marker is replaced. -/
theorem plain_replaceAll (d : String) (h : plain d = true) :
    plain (strings.ReplaceAll d '*' '_') = true := by
  unfold plain at h ⊢
  simp only [Bool.and_eq_true, List.all_eq_true, Bool.not_eq_true', decide_eq_true_eq] at h ⊢
  obtain ⟨hascii, hlab⟩ := h
  constructor
  · intro c hc
    simp only [strings.ReplaceAll, List.mem_map] at hc
    obtain ⟨c0, hc0, rfl⟩ := hc
    by_cases hs : c0 = '*'
    · rw [if_pos hs]; decide
    · rw [if_neg hs]; exact hascii c0 hc0
  · intro label hl
    simp only [strings.ReplaceAll] at hl
    rw [strings.splitChars_map '.' '*' '_' (by decide) (by decide)] at hl
    obtain ⟨l0, hl0, rfl⟩ := List.mem_map.mp hl
    have := hlab l0 hl0
    by_contra hcon
    have hp := ace_of_replaced l0 (by simpa using hcon)
    rw [hp] at this
    exact absurd this (by decide)

end idna

/-- C16: for a domain whose characters are all ASCII and none of whose labels
starts with `xn--`, `sanitizeDomain` returns without error the domain with
every `*` replaced by `_` and every other character kept, in the same place.
The result contains no `*`, and a domain without `*` is returned unchanged. -/
theorem sanitizeDomain_plain (libs : Libs) (domain : String) (h : idna.plain domain = true) :
    sanitizeDomain libs domain
      = (String.mk (domain.data.map fun c => if c = '*' then '_' else c), none) ∧
    '*' ∉ (sanitizeDomain libs domain).1.data ∧
    ('*' ∉ domain.data → sanitizeDomain libs domain = (domain, none)) := by
  have e : sanitizeDomain libs domain
      = (String.mk (domain.data.map fun c => if c = '*' then '_' else c), none) := by
    unfold sanitizeDomain idna.ToASCII
    rw [if_pos (idna.plain_replaceAll domain h)]
    rfl
  refine ⟨e, ?_, fun hn => ?_⟩
  · rw [e]
    simp only [List.mem_map, not_exists, not_and]
    intro c _ hc
    by_cases hs : c = '*'
    · rw [if_pos hs] at hc
      exact absurd hc (by decide)
    · rw [if_neg hs] at hc
      exact hs hc
  · rw [e]
    have : (domain.data.map fun c => if c = '*' then '_' else c) = domain.data := by
      conv_rhs => rw [← List.map_id domain.data]
      apply List.map_congr_left
      intro c hc
      have : c ≠ '*' := fun hs => hn (hs ▸ hc)
      simp [this]
    rw [this]

/-- Witness for C16: `*.example.com` and `example.com`, as in the tests. -/
theorem sanitizeDomain_plain_witness :
    sanitizeDomain exampleLibs "*.example.com" = ("_.example.com", none) ∧
    sanitizeDomain exampleLibs "example.com" = ("example.com", none) :=
  ⟨(sanitizeDomain_plain exampleLibs "*.example.com" (by decide)).1,
   (sanitizeDomain_plain exampleLibs "example.com" (by decide)).2.2 (by decide)⟩

/-- A resolution that succeeds: every step has succeeded, and the fields of the
configuration are the values of the steps. -/
theorem parse_ok (libs : Libs) (c : RawUserConfig) (storage : Stores) (s s' : ConfigSys)
    (cfg : UserConfig) (h : c.parse libs storage s = (.returned (cfg, none), s')) :
    c.getDomains = (cfg.Domains, none) ∧
    c.getFilename libs cfg.Domains = some (cfg.Filename, none) ∧
    c.getAccountEmail = (cfg.Email, none) ∧
    c.getTOSAgreement libs = (cfg.TermsOfServiceAgreed, none) ∧
    (c.getAccountKey libs s).1 = .returned (cfg.Key, none) ∧
    c.getCADir libs = (cfg.CADirURL, none) ∧
    c.getKeyType = (cfg.CADirKeyType, none) ∧
    c.getDNSResolvers = (cfg.DNSResolvers, none) ∧
    c.getDNSTimeout libs = (cfg.DNSTimeout, none) ∧
    c.getDisableCPOption libs = (cfg.DisableCP, none) ∧
    (c.getOutputDirectory libs (c.getAccountKey libs s).2).1 = (cfg.OutputDirectory, none) ∧
    (c.getDNSAuthToken storage).token = cfg.AuthToken ∧
    (c.getDNSAuthToken storage).err = none ∧
    cfg.WebRoot = c.WebRoot ∧
    c.getWebEnabled libs = (cfg.WebEnabled, none) ∧
    s' = { (c.getOutputDirectory libs (c.getAccountKey libs s).2).2 with
      calls := (c.getOutputDirectory libs (c.getAccountKey libs s).2).2.calls
        ++ (c.getDNSAuthToken storage).calls } := by
  unfold RawUserConfig.parse at h
  split at h
  · simp at h
  next ds hd =>
  split at h
  · simp at h
  · simp at h
  next name hf =>
  split at h
  · simp at h
  next email he =>
  split at h
  · simp at h
  next tos ht =>
  split at h
  · simp at h
  · simp at h
  · simp at h
  next key s1 hk =>
  split at h
  · simp at h
  next ca hca =>
  split at h
  · simp at h
  next kt hkt =>
  split at h
  · simp at h
  next res hres =>
  split at h
  · simp at h
  next tmo hto =>
  split at h
  · simp at h
  next cp hcp =>
  split at h
  · simp at h
  next od s2 hod =>
  split at h
  · simp at h
  next tok calls htok =>
  split at h
  · simp at h
  next web hweb =>
  simp only [Prod.mk.injEq, Outcome.returned.injEq, and_true] at h
  obtain ⟨hcfg, hs⟩ := h
  subst hcfg
  subst hs
  rw [hk]
  simp only
  rw [hod, htok]
  simp [hd, hf, he, ht, hca, hkt, hres, hto, hcp, hweb]

/-- The boolean strings that `strconv.ParseBool` reads as true. -/
theorem ParseBool_true_iff (libs : Libs) (str : String) :
    strconv.ParseBool libs str = (true, none) ↔
      (str = "1" ∨ str = "t" ∨ str = "T" ∨ str = "true" ∨ str = "TRUE" ∨ str = "True") := by
  unfold strconv.ParseBool
  split_ifs with h1 h2
  · simp [h1]
  · simp [h1]
  · simp [h1]

/-- C18: `getTOSAgreement` returns `(true, nil)` exactly when `LE_TOS_AGREED`
parses as the boolean true (`1`, `t`, `T`, `true`, `TRUE`, `True`), and never
`(false, nil)`. A value that parses as false gives the error that names
`LE_TOS_AGREED`; a value that `strconv.ParseBool` rejects, such as the empty
string, gives the error of `ParseBool`. Hence a configuration resolved without
error has `TermsOfServiceAgreed = true`. -/
theorem getTOSAgreement_hard_fail (libs : Libs) (c : RawUserConfig) :
    (c.getTOSAgreement libs = (true, none) ↔
      strconv.ParseBool libs c.TOSAgreed = (true, none)) ∧
    (c.getTOSAgreement libs = (true, none) ↔
      (c.TOSAgreed = "1" ∨ c.TOSAgreed = "t" ∨ c.TOSAgreed = "T" ∨ c.TOSAgreed = "true" ∨
        c.TOSAgreed = "TRUE" ∨ c.TOSAgreed = "True")) ∧
    c.getTOSAgreement libs ≠ (false, none) ∧
    (strconv.ParseBool libs c.TOSAgreed = (false, none) →
      c.getTOSAgreement libs = (false,
        some "It is mandatory to agree to Let's Encrypt Term of Usage through LE_TOS_AGREED environment variable")) ∧
    (∀ e, (strconv.ParseBool libs c.TOSAgreed).2 = some e →
      c.getTOSAgreement libs = (false, some e)) ∧
    (c.TOSAgreed = "" → (c.getTOSAgreement libs).2 ≠ none) ∧
    (∀ storage s cfg s', c.parse libs storage s = (.returned (cfg, none), s') →
      cfg.TermsOfServiceAgreed = true) := by
  have hmsg : "It is mandatory to agree to Let's Encrypt Term of Usage through "
      ++ constants.LE_TOS_AGREED ++ " environment variable"
      = "It is mandatory to agree to Let's Encrypt Term of Usage through LE_TOS_AGREED environment variable" := by
    decide
  have hiff : c.getTOSAgreement libs = (true, none) ↔
      strconv.ParseBool libs c.TOSAgreed = (true, none) := by
    unfold RawUserConfig.getTOSAgreement
    rcases hp : strconv.ParseBool libs c.TOSAgreed with ⟨b, _ | e⟩
    · cases b <;> simp
    · simp
  have hne : c.getTOSAgreement libs ≠ (false, none) := by
    unfold RawUserConfig.getTOSAgreement
    rcases hp : strconv.ParseBool libs c.TOSAgreed with ⟨b, _ | e⟩
    · cases b <;> simp
    · simp
  refine ⟨hiff, hiff.trans (ParseBool_true_iff libs c.TOSAgreed), hne, fun h => ?_,
    fun e h => ?_, fun h => ?_, fun storage s cfg s' h => ?_⟩
  · unfold RawUserConfig.getTOSAgreement
    rw [h]
    simp [hmsg]
  · unfold RawUserConfig.getTOSAgreement
    rcases hp : strconv.ParseBool libs c.TOSAgreed with ⟨b, _ | e2⟩
    · rw [hp] at h; simp at h
    · rw [hp] at h
      simp only [Option.some.injEq] at h
      simp [h]
  · unfold RawUserConfig.getTOSAgreement strconv.ParseBool
    rw [h]
    simp
  · have ht := (parse_ok libs c storage s s' cfg h).2.2.2.1
    cases hb : cfg.TermsOfServiceAgreed
    · rw [hb] at ht
      exact absurd ht hne
    · rfl

/-- Witness for C18: `false` is refused with the message, `true` is accepted. -/
theorem getTOSAgreement_hard_fail_witness :
    ({ exampleRaw "example.com" with TOSAgreed := "false" }).getTOSAgreement exampleLibs
      = (false, some "It is mandatory to agree to Let's Encrypt Term of Usage through LE_TOS_AGREED environment variable") ∧
    (exampleRaw "example.com").getTOSAgreement exampleLibs = (true, none) :=
  ⟨(getTOSAgreement_hard_fail exampleLibs
      { exampleRaw "example.com" with TOSAgreed := "false" }).2.2.2.1 (by decide),
   (getTOSAgreement_hard_fail exampleLibs (exampleRaw "example.com")).1.mpr (by decide)⟩

/-- C19, as stated, fails: `DNS_TIMEOUT = -5` is accepted and gives the
negative duration of minus five seconds. -/
theorem getDNSTimeout_negative :
    ({ exampleRaw "example.com" with DNSTimeout := "-5" }).getDNSTimeout exampleLibs
      = (-5000000000, none) ∧
    (({ exampleRaw "example.com" with DNSTimeout := "-5" }).getDNSTimeout exampleLibs).1 < 0 := by
  decide

/-- Values of `int64` are not changed by wrapping. -/
theorem wrapInt64_of_fits (x : Int) (h1 : -(2 ^ 63) ≤ x) (h2 : x < 2 ^ 63) : wrapInt64 x = x := by
  unfold wrapInt64
  rw [Int.emod_eq_of_lt (by omega) (by omega)]
  omega

/-- C19, amended: `getDNSTimeout` parses `DNS_TIMEOUT` as a number of seconds of
either sign. When `strconv.ParseFloat(s, 32)` fails, it returns the zero
duration and that error. When it succeeds with a finite value whose whole part
is `v` and `v` seconds fit a `Duration`, it returns `v` seconds without error:
a non-negative duration for `v ≥ 0`, a negative one for `v < 0`. -/
theorem getDNSTimeout_seconds (libs : Libs) (c : RawUserConfig) :
    (∀ e, (strconv.ParseFloat32 libs c.DNSTimeout).2 = some e →
      c.getDNSTimeout libs = (0, some e)) ∧
    (∀ f v, strconv.ParseFloat32 libs c.DNSTimeout = (f, none) → f.trunc = some v →
      -(2 ^ 63) ≤ v * 1000000000 → v * 1000000000 < 2 ^ 63 →
      c.getDNSTimeout libs = (v * time.Second, none) ∧
      (0 ≤ v → 0 ≤ (c.getDNSTimeout libs).1) ∧
      (v < 0 → (c.getDNSTimeout libs).1 < 0)) := by
  constructor
  · intro e h
    unfold RawUserConfig.getDNSTimeout
    rcases hp : strconv.ParseFloat32 libs c.DNSTimeout with ⟨f, _ | e2⟩
    · rw [hp] at h; simp at h
    · rw [hp] at h
      simp only [Option.some.injEq] at h
      simp [h]
  · intro f v hp hv h1 h2
    have hsec : time.Second = 1000000000 := rfl
    have e : c.getDNSTimeout libs = (v * time.Second, none) := by
      unfold RawUserConfig.getDNSTimeout
      rw [hp]
      simp only
      have hin : -(2 ^ 63) ≤ v ∧ v < 2 ^ 63 := by constructor <;> omega
      have hto : toInt64 libs f = v := by
        unfold toInt64
        rw [hv]
        simp only
        rw [if_pos hin]
      rw [hto, hsec, wrapInt64_of_fits _ h1 h2]
    rw [e, hsec]
    exact ⟨rfl, fun h => by simp only; omega, fun h => by simp only; omega⟩

/-- Witness for the amended C19: `12.000000` is twelve seconds, `-5` is minus
five seconds, `abc` is an error. -/
theorem getDNSTimeout_seconds_witness :
    ({ exampleRaw "example.com" with DNSTimeout := "12.000000" }).getDNSTimeout exampleLibs
      = (12 * time.Second, none) ∧
    ({ exampleRaw "example.com" with DNSTimeout := "-5" }).getDNSTimeout exampleLibs
      = (-5 * time.Second, none) ∧
    ({ exampleRaw "example.com" with DNSTimeout := "abc" }).getDNSTimeout exampleLibs
      = (0, some "strconv.ParseFloat: parsing \"abc\": invalid syntax") :=
  ⟨((getDNSTimeout_seconds exampleLibs
      { exampleRaw "example.com" with DNSTimeout := "12.000000" }).2
      (.finite false 12582912 (-20)) 12 (by decide) (by decide) (by decide) (by decide)).1,
   ((getDNSTimeout_seconds exampleLibs { exampleRaw "example.com" with DNSTimeout := "-5" }).2
      (.finite true 10485760 (-21)) (-5) (by decide) (by decide) (by decide) (by decide)).1,
   (getDNSTimeout_seconds exampleLibs { exampleRaw "example.com" with DNSTimeout := "abc" }).1
      "strconv.ParseFloat: parsing \"abc\": invalid syntax" (by decide)⟩

/-- C17, as stated, fails: an operator-supplied `FILENAME` is not sanitized. With
`FILENAME = *.example.com` the resolution succeeds and the artifact name is
`*.example.com`, wildcard marker included. -/
theorem parse_filename_not_sanitized :
    (({ exampleRaw "example.com" with Filename := "*.example.com" }).parse exampleLibs
      (TestStores "") emptyConfigSys).1
      = .returned
          ({ Email := "support@example.com",
             Key := "k",
             CADirURL := "https://acme-staging-v02.api.letsencrypt.org/directory",
             CADirKeyType := "2048",
             TermsOfServiceAgreed := true,
             Domains := ["example.com"],
             Filename := "*.example.com",
             OutputDirectory := "/srv",
             AuthToken := "XXXXX",
             DisableCP := true,
             DNSResolvers := [],
             DNSTimeout := 0,
             WebRoot := "",
             WebEnabled := false }, none) ∧
    '*' ∈ "*.example.com".data := by
  decide

/-- C17, amended: in a configuration resolved without error, an empty
`FILENAME` gives the artifact name `sanitizeDomain(first domain)`, which
contains no `*` (as long as `idna.ToASCII` brings in no `*` of its own when it
transcodes a name that is not plain); a non-empty `FILENAME` is the artifact
name as it is, not sanitized. -/
theorem parse_filename (libs : Libs) (c : RawUserConfig) (storage : Stores) (s s' : ConfigSys)
    (cfg : UserConfig) (h : c.parse libs storage s = (.returned (cfg, none), s')) :
    (c.Filename = "" →
      ∃ first rest, cfg.Domains = first :: rest ∧
        sanitizeDomain libs first = (cfg.Filename, none) ∧
        ((∀ str, (libs.punycode str).2 = none → '*' ∉ str.data →
            '*' ∉ (libs.punycode str).1.data) →
          '*' ∉ cfg.Filename.data)) ∧
    (c.Filename ≠ "" → cfg.Filename = c.Filename) := by
  have hf := (parse_ok libs c storage s s' cfg h).2.1
  constructor
  · intro hempty
    unfold RawUserConfig.getFilename at hf
    rw [if_pos hempty] at hf
    cases hd : cfg.Domains with
    | nil => rw [hd] at hf; simp at hf
    | cons first rest =>
      rw [hd] at hf
      simp only at hf
      rcases hsan : sanitizeDomain libs first with ⟨name, _ | e⟩
      · rw [hsan] at hf
        simp only [Option.some.injEq, Prod.mk.injEq, and_true] at hf
        subst hf
        refine ⟨first, rest, rfl, hsan, fun hpuny => ?_⟩
        have hrep : '*' ∉ (strings.ReplaceAll first '*' '_').data := by
          simp only [strings.ReplaceAll, List.mem_map, not_exists, not_and]
          intro ch _ hc
          by_cases hs : ch = '*'
          · rw [if_pos hs] at hc
            exact absurd hc (by decide)
          · rw [if_neg hs] at hc
            exact hs hc
        unfold sanitizeDomain idna.ToASCII at hsan
        split_ifs at hsan with hplain
        · simp only [Prod.mk.injEq, and_true] at hsan
          rw [← hsan]
          exact hrep
        · have h2 : (libs.punycode (strings.ReplaceAll first '*' '_')).2 = none := by
            rw [hsan]
          have h1 : (libs.punycode (strings.ReplaceAll first '*' '_')).1 = cfg.Filename := by
            rw [hsan]
          rw [← h1]
          exact hpuny _ h2 hrep
      · rw [hsan] at hf
        simp at hf
  · intro hne
    unfold RawUserConfig.getFilename at hf
    rw [if_neg hne] at hf
    simp only [Option.some.injEq, Prod.mk.injEq, and_true] at hf
    exact hf.symm

/-- Witness for the amended C17: the name derived from `*.example.com` has no
`*`, and the name supplied as `bundle` is kept. -/
theorem parse_filename_witness :
    '*' ∉ "_.example.com".data ∧
    "bundle" = ({ exampleRaw "example.com" with Filename := "bundle" }).Filename :=
  ⟨match (parse_filename exampleLibs (exampleRaw "*.example.com,example.com") (TestStores "")
      emptyConfigSys
      ((exampleRaw "*.example.com,example.com").parse exampleLibs (TestStores "")
        emptyConfigSys).2
      { Email := "support@example.com",
        Key := "k",
        CADirURL := "https://acme-staging-v02.api.letsencrypt.org/directory",
        CADirKeyType := "2048",
        TermsOfServiceAgreed := true,
        Domains := ["*.example.com", "example.com"],
        Filename := "_.example.com",
        OutputDirectory := "/srv",
        AuthToken := "XXXXX",
        DisableCP := true,
        DNSResolvers := [],
        DNSTimeout := 0,
        WebRoot := "",
        WebEnabled := false } (by rfl)).1 rfl with
    | ⟨_, _, _, _, himp⟩ => himp (fun _ hnone => absurd hnone (by simp [exampleLibs])),
   (parse_filename exampleLibs ({ exampleRaw "example.com" with Filename := "bundle" })
      (TestStores "") emptyConfigSys
      (({ exampleRaw "example.com" with Filename := "bundle" }).parse exampleLibs
        (TestStores "") emptyConfigSys).2
      { Email := "support@example.com",
        Key := "k",
        CADirURL := "https://acme-staging-v02.api.letsencrypt.org/directory",
        CADirKeyType := "2048",
        TermsOfServiceAgreed := true,
        Domains := ["example.com"],
        Filename := "bundle",
        OutputDirectory := "/srv",
        AuthToken := "XXXXX",
        DisableCP := true,
        DNSResolvers := [],
        DNSTimeout := 0,
        WebRoot := "",
        WebEnabled := false } (by rfl)).2 (by decide)⟩

/-- The account key step acts on the files and on the count of keys only. -/
theorem getAccountKey_frame (libs : Libs) (c : RawUserConfig) (s : ConfigSys) :
    (c.getAccountKey libs s).2.mkdirs = s.mkdirs ∧
    (c.getAccountKey libs s).2.calls = s.calls := by
  unfold RawUserConfig.getAccountKey
  repeat' split
  all_goals exact ⟨rfl, rfl⟩

/-- The output directory step: its result does not depend on the state, and it
leaves the store calls alone. -/
theorem getOutputDirectory_frame (libs : Libs) (c : RawUserConfig) (s t : ConfigSys) :
    (c.getOutputDirectory libs s).1 = (c.getOutputDirectory libs t).1 ∧
    (c.getOutputDirectory libs s).2.calls = s.calls := by
  unfold RawUserConfig.getOutputDirectory
  split
  · exact ⟨rfl, rfl⟩
  · split <;> exact ⟨rfl, rfl⟩

/-- The filename step cannot panic after the domains step has succeeded. -/
theorem getFilename_isSome (libs : Libs) (c : RawUserConfig) (h : c.getDomains.2 = none) :
    c.getFilename libs c.getDomains.1 ≠ none := by
  have hne := getDomains_ne_nil c h
  unfold RawUserConfig.getFilename
  split_ifs
  · cases hd : c.getDomains.1 with
    | nil => exact absurd hd hne
    | cons first rest =>
      simp only
      split <;> simp
  · simp
/-- The error that `parse` returns is the first error of the steps, and the
state it leaves is the one of the last step it has run. -/
theorem parse_first_error (libs : Libs) (c : RawUserConfig) (storage : Stores) (s : ConfigSys) :
    ((firstError ((c.stepErrors libs storage s).take 4) ≠ none ∨
        ∃ r, (c.getAccountKey libs s).1 = .returned r) →
      ∃ cfg, (c.parse libs storage s).1
        = .returned (cfg, firstError (c.stepErrors libs storage s))) ∧
    (firstError ((c.stepErrors libs storage s).take 4) ≠ none →
      (c.parse libs storage s).2 = s) ∧
    (firstError ((c.stepErrors libs storage s).take 10) ≠ none →
      (c.parse libs storage s).2.mkdirs = s.mkdirs ∧ (c.parse libs storage s).2.calls = s.calls) ∧
    (firstError ((c.stepErrors libs storage s).take 11) ≠ none →
      (c.parse libs storage s).2.calls = s.calls) := by
  have hkf := getAccountKey_frame libs c s
  have hof := getOutputDirectory_frame libs c (c.getAccountKey libs s).2 s
  have hfs := getFilename_isSome libs c
  rcases hd : c.getDomains with ⟨ds, _ | e1⟩
  swap
  · simp [RawUserConfig.parse, RawUserConfig.stepErrors, firstError, hd]
  rw [hd] at hfs
  rcases hf : c.getFilename libs ds with _ | ⟨name, _ | e2⟩
  · exact absurd hf (hfs rfl)
  swap
  · simp [RawUserConfig.parse, RawUserConfig.stepErrors, firstError, hd, hf]
  rcases he : c.getAccountEmail with ⟨email, _ | e3⟩
  swap
  · simp [RawUserConfig.parse, RawUserConfig.stepErrors, firstError, hd, hf, he]
  rcases ht : c.getTOSAgreement libs with ⟨tos, _ | e4⟩
  swap
  · simp [RawUserConfig.parse, RawUserConfig.stepErrors, firstError, hd, hf, he, ht]
  rcases hk : c.getAccountKey libs s with ⟨_ | _ | _, s1⟩
  rotate_left
  · simp [RawUserConfig.parse, RawUserConfig.stepErrors, firstError, hd, hf, he, ht, hk]
    rw [hk] at hkf
    exact ⟨fun _ => hkf, fun _ => hkf.2⟩
  · simp [RawUserConfig.parse, RawUserConfig.stepErrors, firstError, hd, hf, he, ht, hk]
    rw [hk] at hkf
    exact ⟨fun _ => hkf, fun _ => hkf.2⟩
  next r =>
  rw [hk] at hkf hof
  simp only at hkf hof
  obtain ⟨key, _ | e5⟩ := r
  swap
  · simp [RawUserConfig.parse, RawUserConfig.stepErrors, firstError, hd, hf, he, ht, hk, hkf]
  rcases hca : c.getCADir libs with ⟨ca, _ | e6⟩
  swap
  · simp [RawUserConfig.parse, RawUserConfig.stepErrors, firstError, hd, hf, he, ht, hk, hkf,
      hca]
  rcases hkt : c.getKeyType with ⟨kt, _ | e7⟩
  swap
  · simp [RawUserConfig.parse, RawUserConfig.stepErrors, firstError, hd, hf, he, ht, hk, hkf,
      hca, hkt]
  rcases hres : c.getDNSResolvers with ⟨res, _ | e8⟩
  swap
  · simp [RawUserConfig.parse, RawUserConfig.stepErrors, firstError, hd, hf, he, ht, hk, hkf,
      hca, hkt, hres]
  rcases hto : c.getDNSTimeout libs with ⟨tmo, _ | e9⟩
  swap
  · simp [RawUserConfig.parse, RawUserConfig.stepErrors, firstError, hd, hf, he, ht, hk, hkf,
      hca, hkt, hres, hto]
  rcases hcp : c.getDisableCPOption libs with ⟨cp, _ | e10⟩
  swap
  · simp [RawUserConfig.parse, RawUserConfig.stepErrors, firstError, hd, hf, he, ht, hk, hkf,
      hca, hkt, hres, hto, hcp]
  rcases hod : c.getOutputDirectory libs s1 with ⟨⟨od, _ | e11⟩, s2⟩
  swap
  · rw [hod] at hof
    simp only at hof
    simp [RawUserConfig.parse, RawUserConfig.stepErrors, firstError, hd, hf, he, ht, hk, hkf,
      hca, hkt, hres, hto, hcp, hod, ← hof.1, hof.2]
  rw [hod] at hof
  simp only at hof
  rcases htok : c.getDNSAuthToken storage with ⟨tok, _ | e12, calls⟩
  swap
  · simp [RawUserConfig.parse, RawUserConfig.stepErrors, firstError, hd, hf, he, ht, hk, hkf,
      hca, hkt, hres, hto, hcp, hod, ← hof.1, htok]
  rcases hweb : c.getWebEnabled libs with ⟨web, _ | e13⟩
  swap
  · simp [RawUserConfig.parse, RawUserConfig.stepErrors, firstError, hd, hf, he, ht, hk, hkf,
      hca, hkt, hres, hto, hcp, hod, ← hof.1, htok, hweb]
  simp [RawUserConfig.parse, RawUserConfig.stepErrors, firstError, hd, hf, he, ht, hk, hkf,
    hca, hkt, hres, hto, hcp, hod, ← hof.1, htok, hweb]
/-- C20: `parse` is fail-fast in the order domains, filename, email, terms of
service, account key, CA directory, key type, DNS resolvers, DNS timeout,
propagation-check flag, output directory, credential, web flag. Unless the
account key step is reached and does not return, `parse` returns, and its error
is the error of the earliest failing step (nil when none fails). No later step
is run: when one of the first four steps fails the state is untouched (no key
is generated, no key file written); when one of the first ten fails no
directory is made and no store is consulted; when one of the first eleven
fails no store is consulted. In particular an empty `DOMAINS` gives the
`DOMAINS` message whatever the other options are, and a non-empty `DOMAINS`
whose filename step passes together with an empty `ACCOUNT_EMAIL` gives the
`ACCOUNT_EMAIL` message, both with the state untouched. -/
theorem parse_fail_fast (libs : Libs) (c : RawUserConfig) (storage : Stores) (s : ConfigSys) :
    ((firstError ((c.stepErrors libs storage s).take 4) ≠ none ∨
        ∃ r, (c.getAccountKey libs s).1 = .returned r) →
      ∃ cfg, (c.parse libs storage s).1
        = .returned (cfg, firstError (c.stepErrors libs storage s))) ∧
    (firstError ((c.stepErrors libs storage s).take 4) ≠ none →
      (c.parse libs storage s).2 = s) ∧
    (firstError ((c.stepErrors libs storage s).take 10) ≠ none →
      (c.parse libs storage s).2.mkdirs = s.mkdirs ∧ (c.parse libs storage s).2.calls = s.calls) ∧
    (firstError ((c.stepErrors libs storage s).take 11) ≠ none →
      (c.parse libs storage s).2.calls = s.calls) ∧
    (c.Domains = "" →
      c.parse libs storage s = (.returned (UserConfig.zero,
        some "A comma-separated list of domain names must be provided through DOMAINS environment variable"),
        s)) ∧
    (c.Domains ≠ "" →
      (∃ name, c.getFilename libs (strings.Split c.Domains ',') = some (name, none)) →
      c.AccountEmail = "" →
      ∃ cfg, c.parse libs storage s = (.returned (cfg,
        some "An email must be provided through ACCOUNT_EMAIL environment variable"), s)) := by
  obtain ⟨hA, hB1, hB2, hB3⟩ := parse_first_error libs c storage s
  refine ⟨hA, hB1, hB2, hB3, fun hd => ?_, fun hd hf he => ?_⟩
  · have h : c.getDomains = ([], some "A comma-separated list of domain names must be provided through DOMAINS environment variable") := by
      rw [getDomains_eq, if_pos hd]
    simp [RawUserConfig.parse, h]
  · have h : c.getDomains = (strings.Split c.Domains ',', none) := by
      rw [getDomains_eq, if_neg hd]
    obtain ⟨name, hname⟩ := hf
    have hem : c.getAccountEmail
        = ("", some "An email must be provided through ACCOUNT_EMAIL environment variable") := by
      unfold RawUserConfig.getAccountEmail
      rw [if_pos he]
      decide
    simp [RawUserConfig.parse, h, hname, hem]

/-- Witness for C20: an empty `DOMAINS` with every other option invalid, and
`DOMAINS = example.com` with an empty `ACCOUNT_EMAIL`, as in
`TestNewUserConfigFromEnv`. -/
theorem parse_fail_fast_witness :
    ({ tokenConfig "" "" "" with TOSAgreed := "no", CADir := "bad/value", KeyType := "x" }).parse
        exampleLibs (TestStores "") emptyConfigSys
      = (.returned (UserConfig.zero,
          some "A comma-separated list of domain names must be provided through DOMAINS environment variable"),
          emptyConfigSys) ∧
    (∃ cfg, ({ tokenConfig "" "" "" with Domains := "example.com" }).parse
        exampleLibs (TestStores "") emptyConfigSys
      = (.returned (cfg,
          some "An email must be provided through ACCOUNT_EMAIL environment variable"),
          emptyConfigSys)) :=
  ⟨(parse_fail_fast exampleLibs
      { tokenConfig "" "" "" with TOSAgreed := "no", CADir := "bad/value", KeyType := "x" }
      (TestStores "") emptyConfigSys).2.2.2.2.1 rfl,
   (parse_fail_fast exampleLibs { tokenConfig "" "" "" with Domains := "example.com" }
      (TestStores "") emptyConfigSys).2.2.2.2.2 (by decide) ⟨"example.com", by decide⟩ rfl⟩

/-! ## The file store and the environment -/

theorem strings.HasSuffix_append (t suffix : String) :
    strings.HasSuffix (t ++ suffix) suffix = true := by
  simp [strings.HasSuffix, String.data_append, List.reverse_append]

theorem strings.TrimSuffix_append (t suffix : String) :
    strings.TrimSuffix (t ++ suffix) suffix = t := by
  simp [strings.TrimSuffix, strings.HasSuffix_append, String.data_append]

theorem strings.TrimSuffix_of_no_suffix (s suffix : String)
    (h : strings.HasSuffix s suffix = false) : strings.TrimSuffix s suffix = s := by
  simp [strings.TrimSuffix, h]

theorem strings.HasSuffix_iff (s suffix : String) :
    strings.HasSuffix s suffix = true ↔ ∃ t : String, s = t ++ suffix := by
  constructor
  · intro h
    unfold strings.HasSuffix at h
    rw [List.isPrefixOf_iff_prefix] at h
    obtain ⟨r, hr⟩ := h
    refine ⟨String.mk r.reverse, ?_⟩
    apply String.ext
    have := congrArg List.reverse hr
    simp at this
    simp [String.data_append, this]
  · rintro ⟨t, rfl⟩
    exact strings.HasSuffix_append t suffix

theorem FileStore.GetToken_of_content (fs : FileSystem) (path c : String)
    (hread : os.ReadFile fs path = .ok c) :
    FileStore.GetToken fs path =
      if strings.TrimSuffix c "\n" = "" then ("", some ("Invalid token found in " ++ path))
      else (strings.TrimSuffix c "\n", none) := by
  simp only [FileStore.GetToken, hread]

/-- C23: `FileStore.GetToken` on a readable file with content `c` returns `c`
without one trailing line feed (when `c` is `t` followed by a line feed the token
is `t`, otherwise it is `c` itself); it fails with
`Invalid token found in <path>` exactly when `c` is empty or a lone line feed,
fails with the read error when the file cannot be read, and a token returned
without error is never empty. -/
theorem FileStore_GetToken_strips_one_newline (fs : FileSystem) (path : String) :
    (∀ err, os.ReadFile fs path = .error err →
      FileStore.GetToken fs path = ("", some err)) ∧
    (∀ c, os.ReadFile fs path = .ok c →
      (∀ t, c = t ++ "\n" → t ≠ "" → FileStore.GetToken fs path = (t, none)) ∧
      ((∀ t, c ≠ t ++ "\n") → c ≠ "" → FileStore.GetToken fs path = (c, none)) ∧
      (c = "" ∨ c = "\n" →
        FileStore.GetToken fs path = ("", some ("Invalid token found in " ++ path))) ∧
      ((FileStore.GetToken fs path).2 ≠ none → c = "" ∨ c = "\n")) ∧
    ((FileStore.GetToken fs path).2 = none → (FileStore.GetToken fs path).1 ≠ "") := by
  refine ⟨?_, ?_, ?_⟩
  · intro err hread
    simp only [FileStore.GetToken, hread]
  · intro c hread
    rw [FileStore.GetToken_of_content fs path c hread]
    refine ⟨?_, ?_, ?_, ?_⟩
    · rintro t rfl ht
      rw [strings.TrimSuffix_append, if_neg ht]
    · intro hno hc
      have hs : strings.HasSuffix c "\n" = false := by
        cases h : strings.HasSuffix c "\n"
        · rfl
        · obtain ⟨t, ht⟩ := (strings.HasSuffix_iff c "\n").1 h
          exact absurd ht (hno t)
      rw [strings.TrimSuffix_of_no_suffix c "\n" hs, if_neg hc]
    · rintro (rfl | rfl) <;> rfl
    · intro herr
      by_cases hemp : strings.TrimSuffix c "\n" = ""
      · cases h : strings.HasSuffix c "\n"
        · left
          rw [strings.TrimSuffix_of_no_suffix c "\n" h] at hemp
          exact hemp
        · right
          obtain ⟨t, rfl⟩ := (strings.HasSuffix_iff c "\n").1 h
          rw [strings.TrimSuffix_append] at hemp
          rw [hemp]
          rfl
      · rw [if_neg hemp] at herr
        exact absurd rfl herr
  · intro hnone
    cases hread : os.ReadFile fs path with
    | error err =>
      simp [FileStore.GetToken, hread] at hnone
    | ok c =>
      rw [FileStore.GetToken_of_content fs path c hread] at hnone ⊢
      by_cases hemp : strings.TrimSuffix c "\n" = ""
      · rw [if_pos hemp] at hnone
        exact absurd hnone (by simp)
      · rw [if_neg hemp]
        exact hemp

theorem FileStore_GetToken_strips_one_newline_witness :
    FileStore.GetToken tokenFiles "/run/secrets/token" = ("XXXXX\n", none) ∧
    FileStore.GetToken tokenFiles "/run/secrets/blank" =
      ("", some "Invalid token found in /run/secrets/blank") ∧
    FileStore.GetToken tokenFiles "/run/secrets/absent" =
      ("", some "open /run/secrets/absent: no such file or directory") :=
  ⟨((FileStore_GetToken_strips_one_newline tokenFiles "/run/secrets/token").2.1
      "XXXXX\n\n" rfl).1 "XXXXX\n" (by decide) (by decide),
   ((FileStore_GetToken_strips_one_newline tokenFiles "/run/secrets/blank").2.1
      "\n" rfl).2.2.1 (by decide),
   (FileStore_GetToken_strips_one_newline tokenFiles "/run/secrets/absent").1
      "open /run/secrets/absent: no such file or directory" rfl⟩

/-- C27: `getEnv` returns the value of a variable that is defined, the empty
string included, and the fallback when the variable is not defined; what it
returns equals the fallback only when the variable is not defined or is defined
as the fallback itself. -/
theorem getEnv_value_or_fallback (environ : String → Option String) (key fallback : String) :
    (∀ value, environ key = some value → getEnv environ key fallback = value) ∧
    (environ key = some "" → getEnv environ key fallback = "") ∧
    (environ key = none → getEnv environ key fallback = fallback) ∧
    (getEnv environ key fallback = fallback ↔
      environ key = none ∨ environ key = some fallback) := by
  unfold getEnv
  cases h : environ key with
  | none => simp
  | some v => simp

theorem getEnv_value_or_fallback_witness :
    getEnv exampleEnviron "FILENAME" "fallback" = "" ∧
    getEnv exampleEnviron "CA_DIR" "STAGING" = "STAGING" ∧
    getEnv exampleEnviron "DOMAINS" "fallback" ≠ "fallback" :=
  ⟨(getEnv_value_or_fallback exampleEnviron "FILENAME" "fallback").2.1 (by decide),
   (getEnv_value_or_fallback exampleEnviron "CA_DIR" "STAGING").2.2.1 (by decide),
   fun h => absurd ((getEnv_value_or_fallback exampleEnviron "DOMAINS" "fallback").2.2.2.1 h)
     (by decide)⟩

theorem NewRawUserConfig_of_undefined (environ : String → Option String)
    (webRoot webEnabled : String)
    (hundef : ∀ key ∈ [constants.ACCOUNT_KEY_FILE, constants.LE_TOS_AGREED, constants.CA_DIR,
      constants.LE_CRT_KEY_TYPE, constants.DISABLE_CP, constants.DNS_TIMEOUT,
      constants.OUTPUT_DIRECTORY, constants.DNS_AUTH_TOKEN_SECRET, constants.FILENAME,
      constants.DNS_RESOLVERS, constants.DNS_AUTH_TOKEN, constants.DNS_AUTH_TOKEN_FILE,
      constants.DNS_AUTH_TOKEN_VAULT], environ key = none) :
    NewRawUserConfig environ webRoot webEnabled =
      { AccountEmail := getEnv environ constants.ACCOUNT_EMAIL ""
        AccountKeyFile := "./account.key"
        TOSAgreed := "true"
        CADir := "STAGING"
        KeyType := "RSA2048"
        Domains := getEnv environ constants.DOMAINS ""
        Filename := ""
        OutputDirectory := "./"
        DisableCP := "true"
        DNSTimeout := "0"
        DNSResolver := ""
        DNSAuthToken := ""
        DNSAuthTokenFile := ""
        DNSAuthTokenVault := ""
        DNSAuthTokenSecret := "do-auth-token"
        WebRoot := getEnv environ constants.WEB_ROOT webRoot
        WebEnabled := getEnv environ constants.WEB_ENABLED webEnabled } := by
  have h1 := hundef constants.ACCOUNT_KEY_FILE (by simp)
  have h2 := hundef constants.LE_TOS_AGREED (by simp)
  have h3 := hundef constants.CA_DIR (by simp)
  have h4 := hundef constants.LE_CRT_KEY_TYPE (by simp)
  have h5 := hundef constants.DISABLE_CP (by simp)
  have h6 := hundef constants.DNS_TIMEOUT (by simp)
  have h7 := hundef constants.OUTPUT_DIRECTORY (by simp)
  have h8 := hundef constants.DNS_AUTH_TOKEN_SECRET (by simp)
  have h9 := hundef constants.FILENAME (by simp)
  have h10 := hundef constants.DNS_RESOLVERS (by simp)
  have h11 := hundef constants.DNS_AUTH_TOKEN (by simp)
  have h12 := hundef constants.DNS_AUTH_TOKEN_FILE (by simp)
  have h13 := hundef constants.DNS_AUTH_TOKEN_VAULT (by simp)
  simp only [NewRawUserConfig, getEnv, h1, h2, h3, h4, h5, h6, h7, h8, h9, h10, h11, h12, h13]
  rfl

/-- C26: when none of the optional variables is defined in the environment,
`NewRawUserConfig` holds the documented defaults (`./account.key`, `true`,
`STAGING`, `RSA2048`, `true`, `0`, `./`, `do-auth-token`, and an empty file
name, resolver string and token fields), and these resolve to the staging
endpoint of Let's Encrypt, the RSA-2048 key type, `DisableCP = true`, a zero DNS
timeout and an empty list of resolvers. -/
theorem NewRawUserConfig_defaults (libs : Libs) (environ : String → Option String)
    (webRoot webEnabled : String)
    (hundef : ∀ key ∈ [constants.ACCOUNT_KEY_FILE, constants.LE_TOS_AGREED, constants.CA_DIR,
      constants.LE_CRT_KEY_TYPE, constants.DISABLE_CP, constants.DNS_TIMEOUT,
      constants.OUTPUT_DIRECTORY, constants.DNS_AUTH_TOKEN_SECRET, constants.FILENAME,
      constants.DNS_RESOLVERS, constants.DNS_AUTH_TOKEN, constants.DNS_AUTH_TOKEN_FILE,
      constants.DNS_AUTH_TOKEN_VAULT], environ key = none) :
    (NewRawUserConfig environ webRoot webEnabled).AccountKeyFile = "./account.key" ∧
    (NewRawUserConfig environ webRoot webEnabled).TOSAgreed = "true" ∧
    (NewRawUserConfig environ webRoot webEnabled).CADir = "STAGING" ∧
    (NewRawUserConfig environ webRoot webEnabled).KeyType = "RSA2048" ∧
    (NewRawUserConfig environ webRoot webEnabled).DisableCP = "true" ∧
    (NewRawUserConfig environ webRoot webEnabled).DNSTimeout = "0" ∧
    (NewRawUserConfig environ webRoot webEnabled).OutputDirectory = "./" ∧
    (NewRawUserConfig environ webRoot webEnabled).DNSAuthTokenSecret = "do-auth-token" ∧
    (NewRawUserConfig environ webRoot webEnabled).Filename = "" ∧
    (NewRawUserConfig environ webRoot webEnabled).DNSResolver = "" ∧
    (NewRawUserConfig environ webRoot webEnabled).DNSAuthToken = "" ∧
    (NewRawUserConfig environ webRoot webEnabled).DNSAuthTokenFile = "" ∧
    (NewRawUserConfig environ webRoot webEnabled).DNSAuthTokenVault = "" ∧
    (NewRawUserConfig environ webRoot webEnabled).getCADir libs =
      ("https://acme-staging-v02.api.letsencrypt.org/directory", none) ∧
    (NewRawUserConfig environ webRoot webEnabled).getKeyType = ("2048", none) ∧
    (NewRawUserConfig environ webRoot webEnabled).getDisableCPOption libs = (true, none) ∧
    (NewRawUserConfig environ webRoot webEnabled).getDNSTimeout libs = (0, none) ∧
    (NewRawUserConfig environ webRoot webEnabled).getDNSResolvers = ([], none) := by
  rw [NewRawUserConfig_of_undefined environ webRoot webEnabled hundef]
  refine ⟨rfl, rfl, rfl, rfl, rfl, rfl, rfl, rfl, rfl, rfl, rfl, rfl, rfl, ?_, ?_, ?_, ?_, ?_⟩
  · rfl
  · rfl
  · rfl
  · rfl
  · rfl

theorem NewRawUserConfig_defaults_witness :
    (NewRawUserConfig requiredEnviron "" "false").CADir = "STAGING" ∧
    (NewRawUserConfig requiredEnviron "" "false").getCADir exampleLibs =
      ("https://acme-staging-v02.api.letsencrypt.org/directory", none) ∧
    (NewRawUserConfig requiredEnviron "" "false").getDNSTimeout exampleLibs = (0, none) :=
  ⟨(NewRawUserConfig_defaults exampleLibs requiredEnviron "" "false" (by decide)).2.2.1,
   (NewRawUserConfig_defaults exampleLibs requiredEnviron "" "false" (by decide)).2.2.2.2.2.2.2.2.2.2.2.2.2.1,
   (NewRawUserConfig_defaults exampleLibs requiredEnviron "" "false" (by decide)).2.2.2.2.2.2.2.2.2.2.2.2.2.2.2.2.1⟩

/-! ## The day count and the two renewal decisions -/

/-- The day count of the specification is floored integer division. -/
theorem daysRemainingFloor_eq (now : Int) (c : Certificate) :
    daysRemainingFloor now c = time.Until now c.NotAfter / 86400000000000 := by
  unfold daysRemainingFloor
  have hH : ((time.Hour : Int) : ℚ) = 3600000000000 := by
    norm_num [time.Hour, time.Minute, time.Second]
  rw [hH]
  have e : ((time.Until now c.NotAfter : Int) : ℚ) / 3600000000000 / 24
      = ((time.Until now c.NotAfter : Int) : ℚ) / ((86400000000000 : Nat) : ℚ) := by
    push_cast
    ring
  rw [e, Rat.floor_intCast_div_natCast]
  rfl

/-- Truncated division by a day, by floored division. -/
theorem tdiv_day (d : Int) :
    Int.tdiv d 86400000000000 =
      if 0 ≤ d then d / 86400000000000 else -((-d) / 86400000000000) := by
  by_cases hd : 0 ≤ d
  · rw [if_pos hd, Int.tdiv_eq_ediv hd (by norm_num)]
  · rw [if_neg hd]
    have h : d = -(-d) := by omega
    conv_lhs => rw [h]
    rw [Int.neg_tdiv, Int.tdiv_eq_ediv (by omega) (by norm_num)]

/-- C29, as stated, fails: with 171 days less one nanosecond until `NotAfter`
the day count of the code is 171, the floor of the hours until expiry over 24
is 170, and for the threshold 170 the test of the code holds while the test of
the specified formula does not. -/
theorem remainingDays_decision_ne_floor :
    remainingDays 0 ⟨false, 171 * day - 1⟩ = 171 ∧
    daysRemainingFloor 0 ⟨false, 171 * day - 1⟩ = 170 ∧
    (170 : Int) < remainingDays 0 ⟨false, 171 * day - 1⟩ ∧
    ¬ ((170 : Int) < daysRemainingFloor 0 ⟨false, 171 * day - 1⟩) := by
  have hd : remainingDays 0 ⟨false, 171 * day - 1⟩ = 171 := remainingDays_171_days_less_1
  have hf : daysRemainingFloor 0 ⟨false, 171 * day - 1⟩ = 170 := by
    rw [daysRemainingFloor_eq]
    decide
  rw [hd, hf]
  decide

/-- C29, amended: for every threshold `N ≥ 0` and every certificate whose time
until `NotAfter` is less than 171 days less one nanosecond, expired or not, the
test of the code, `N <` the day count `int(Hours() / 24.0)` computed in
`float64`, holds exactly when the test of the specified formula, `N <` the floor
of the hours until expiry over 24, holds. The two day counts are equal when the
certificate has not expired, and the one of the code is greater by one when it
has expired, by less than 171 days less one nanosecond, by a time that is not a
whole number of days. -/
theorem remainingDays_decision_eq_floor (now : Int) (x509Cert : Certificate) (N : Int)
    (hN : 0 ≤ N) (hlt : time.Until now x509Cert.NotAfter < 171 * day - 1) :
    (N < remainingDays now x509Cert ↔ N < daysRemainingFloor now x509Cert) ∧
    (0 ≤ time.Until now x509Cert.NotAfter →
      remainingDays now x509Cert = daysRemainingFloor now x509Cert) ∧
    (time.Until now x509Cert.NotAfter < 0 →
      -(171 * day - 1) < time.Until now x509Cert.NotAfter →
      time.Until now x509Cert.NotAfter % 86400000000000 ≠ 0 →
      remainingDays now x509Cert = daysRemainingFloor now x509Cert + 1) := by
  have hD : day = 86400000000000 := by decide
  have hin : -(171 * day - 1) < time.Until now x509Cert.NotAfter →
      remainingDays now x509Cert
        = if 0 ≤ time.Until now x509Cert.NotAfter
          then time.Until now x509Cert.NotAfter / 86400000000000
          else -((-time.Until now x509Cert.NotAfter) / 86400000000000) := by
    intro h1
    rw [remainingDays_eq_tdiv now x509Cert h1 hlt, hD, tdiv_day]
  have hneg := remainingDays_nonpos now x509Cert
  rw [daysRemainingFloor_eq]
  rw [hD] at hin hlt
  generalize time.Until now x509Cert.NotAfter = d at hin hneg hlt
  generalize remainingDays now x509Cert = r at hin hneg
  refine ⟨?_, fun h0 => ?_, fun h0 h1 hm => ?_⟩
  · by_cases hd : 0 ≤ d
    · rw [hin (by omega), if_pos hd]
    · have hr := hneg (by omega)
      constructor <;> intro h <;> omega
  · rw [hin (by omega), if_pos h0]
  · rw [hin h1, if_neg (by omega)]
    omega

theorem remainingDays_decision_eq_floor_witness :
    (21 < remainingDays 0 ⟨false, 30 * day⟩ ↔ 21 < daysRemainingFloor 0 ⟨false, 30 * day⟩) ∧
    remainingDays 0 ⟨false, -(12 * time.Hour)⟩
      = daysRemainingFloor 0 ⟨false, -(12 * time.Hour)⟩ + 1 :=
  ⟨(remainingDays_decision_eq_floor 0 ⟨false, 30 * day⟩ 21 (by decide) (by decide)).1,
   (remainingDays_decision_eq_floor 0 ⟨false, -(12 * time.Hour)⟩ 0 (by decide)
     (by decide)).2.2 (by decide) (by decide) (by decide)⟩

/-- C30: on a stored bundle whose leaf parses, `needRenewal` and the inline
decision of `GetOrRenewCertificate` agree for every threshold `days ≥ 0`: a CA
leaf gives the same error in both, and otherwise `needRenewal` answers `true`
exactly when the truncated day count is at most `days`, which is exactly when
`GetOrRenewCertificate` runs the issuing block and so makes a request. For
`days < 0` and a leaf that is not a CA certificate they differ: `needRenewal`
returns `(true, nil)`, `GetOrRenewCertificate` returns `(false, nil)` and
requests nothing. -/
theorem needRenewal_vs_GetOrRenewCertificate (env : Env) (config : UserConfig) (days : Int)
    (s : Sys) (leaf : Certificate) (rest : List Certificate)
    (hread : readCert env s.fs (certPath config) = .ok (leaf :: rest)) :
    (leaf.IsCA = true →
      needRenewal env.now leaf days
        = (false, some "Certificate bundle starts with a CA certificate") ∧
      GetOrRenewCertificate env config days s
        = (.returned (false, some "Certificate bundle starts with a CA certificate"), s)) ∧
    (leaf.IsCA = false → 0 ≤ days →
      (needRenewal env.now leaf days).2 = none ∧
      ((needRenewal env.now leaf days).1 = true ↔ remainingDays env.now leaf ≤ days) ∧
      (remainingDays env.now leaf ≤ days →
        GetOrRenewCertificate env config days s = requestAndSave env config s ∧
        (GetOrRenewCertificate env config days s).2.requests = s.requests + 1) ∧
      (days < remainingDays env.now leaf →
        GetOrRenewCertificate env config days s = (.returned (false, none), s))) ∧
    (leaf.IsCA = false → days < 0 →
      needRenewal env.now leaf days = (true, none) ∧
      GetOrRenewCertificate env config days s = (.returned (false, none), s)) := by
  refine ⟨fun hca => ⟨?_, GetOrRenewCertificate_of_ca env config days s leaf rest hread hca⟩,
    fun hca hdays => ?_, fun hca hdays => ⟨?_, ?_⟩⟩
  · simp [needRenewal, hca]
  · have hg := GetOrRenewCertificate_of_leaf env config days s leaf rest hread hca
    rw [if_pos hdays] at hg
    refine ⟨?_, ?_, fun hle => ?_, fun hlt => ?_⟩
    · simp only [needRenewal, hca]
      by_cases h : remainingDays env.now leaf > days <;> simp [hdays, h]
    · simp only [needRenewal, hca]
      by_cases h : remainingDays env.now leaf > days
      · simp [hdays, h]
      · simp [hdays, h]
        omega
    · rw [if_neg (by omega)] at hg
      rw [hg]
      exact ⟨rfl, requestAndSave_requests env config s⟩
    · rw [if_pos hlt] at hg
      exact hg
  · have : ¬ days ≥ 0 := by omega
    simp [needRenewal, hca, this]
  · rw [GetOrRenewCertificate_of_leaf env config days s leaf rest hread hca, if_neg (by omega)]

theorem needRenewal_vs_GetOrRenewCertificate_witness :
    needRenewal 0 ⟨false, -100 * day⟩ (-1) = (true, none) ∧
    GetOrRenewCertificate (exampleEnv ⟨false, -100 * day⟩ okLego) exampleConfig (-1) storedSys
      = (.returned (false, none), storedSys) :=
  (needRenewal_vs_GetOrRenewCertificate (exampleEnv ⟨false, -100 * day⟩ okLego) exampleConfig
    (-1) storedSys ⟨false, -100 * day⟩ [] rfl).2.2 rfl (by decide)

/-! ## Theorems: what a resolved configuration holds -/

/-- C21, as stated, fails: with `DOMAINS = ,example.com` and no `FILENAME` the
resolution succeeds, and the artifact name of the configuration it returns is
the empty string: `Filename` is not set. -/
theorem parse_empty_filename :
    ((exampleRaw ",example.com").parse exampleLibs (TestStores "") emptyConfigSys).1
      = .returned
          ({ Email := "support@example.com",
             Key := "k",
             CADirURL := "https://acme-staging-v02.api.letsencrypt.org/directory",
             CADirKeyType := "2048",
             TermsOfServiceAgreed := true,
             Domains := ["", "example.com"],
             Filename := "",
             OutputDirectory := "/srv",
             AuthToken := "XXXXX",
             DisableCP := true,
             DNSResolvers := [],
             DNSTimeout := 0,
             WebRoot := "",
             WebEnabled := false }, none) := by
  decide

/-- C21, amended: in a configuration that `parse` returns with a nil error,
`Domains` is the non-empty list of the pieces of `DOMAINS` between commas,
`Email` is `ACCOUNT_EMAIL` and is not empty, `TermsOfServiceAgreed` is true,
`CADirURL` is one of the three well-known endpoints or starts with `http://` or
`https://`, `CADirKeyType` is the RSA-2048, RSA-4096 or RSA-8192 key type, and
`AuthToken` is what the selected credential source delivered, without error.
`Filename` is `FILENAME` when that is not empty, and otherwise the sanitized
first domain: it is not empty when `FILENAME` is not empty or the first domain
is a non-empty plain name, and it is empty when the first domain is empty. -/
theorem parse_all_or_nothing (libs : Libs) (c : RawUserConfig) (storage : Stores)
    (s s' : ConfigSys) (cfg : UserConfig)
    (h : c.parse libs storage s = (.returned (cfg, none), s')) :
    cfg.Domains = strings.Split c.Domains ',' ∧ cfg.Domains ≠ [] ∧
    cfg.Email = c.AccountEmail ∧ cfg.Email ≠ "" ∧
    cfg.TermsOfServiceAgreed = true ∧
    (cfg.CADirURL = "https://acme-v02.api.letsencrypt.org/directory" ∨
      cfg.CADirURL = "https://acme-staging-v02.api.letsencrypt.org/directory" ∨
      cfg.CADirURL = "http://localhost:4000/directory" ∨
      HasPrefix cfg.CADirURL "http://" = true ∨ HasPrefix cfg.CADirURL "https://" = true) ∧
    (cfg.CADirKeyType = certcrypto.RSA2048 ∨ cfg.CADirKeyType = certcrypto.RSA4096 ∨
      cfg.CADirKeyType = certcrypto.RSA8192) ∧
    (c.Filename ≠ "" → cfg.Filename = c.Filename ∧ cfg.Filename ≠ "") ∧
    (c.Filename = "" → ∃ first rest, cfg.Domains = first :: rest ∧
      sanitizeDomain libs first = (cfg.Filename, none) ∧
      (idna.plain first = true → first ≠ "" → cfg.Filename ≠ "") ∧
      (first = "" → cfg.Filename = "")) ∧
    cfg.AuthToken = (c.getDNSAuthToken storage).token ∧
    (c.getDNSAuthToken storage).err = none := by
  obtain ⟨hd, hf, he, ht, -, hca, hkt, -, -, -, -, htok, herr, -, -, -⟩ :=
    parse_ok libs c storage s s' cfg h
  have hdom : cfg.Domains = strings.Split c.Domains ',' ∧ cfg.Domains ≠ [] := by
    have hne := getDomains_ne_nil c (by rw [hd])
    rw [hd] at hne
    rw [getDomains_eq] at hd
    by_cases hz : c.Domains = ""
    · rw [if_pos hz] at hd
      simp at hd
    · rw [if_neg hz] at hd
      exact ⟨(congrArg Prod.fst hd).symm, hne⟩
  have hemail : cfg.Email = c.AccountEmail ∧ cfg.Email ≠ "" := by
    unfold RawUserConfig.getAccountEmail at he
    by_cases hz : c.AccountEmail = ""
    · rw [if_pos hz] at he
      simp at he
    · rw [if_neg hz] at he
      have e : cfg.Email = c.AccountEmail := (congrArg Prod.fst he).symm
      exact ⟨e, by rw [e]; exact hz⟩
  have htos : cfg.TermsOfServiceAgreed = true := by
    unfold RawUserConfig.getTOSAgreement at ht
    split at ht
    · simp at ht
    · split at ht
      · simp at ht
      · exact (congrArg Prod.fst ht).symm
  have hcadir : cfg.CADirURL = "https://acme-v02.api.letsencrypt.org/directory" ∨
      cfg.CADirURL = "https://acme-staging-v02.api.letsencrypt.org/directory" ∨
      cfg.CADirURL = "http://localhost:4000/directory" ∨
      HasPrefix cfg.CADirURL "http://" = true ∨ HasPrefix cfg.CADirURL "https://" = true := by
    unfold RawUserConfig.getCADir at hca
    split_ifs at hca with h1 h2 h3 h4
    · exact Or.inl (congrArg Prod.fst hca).symm
    · exact Or.inr (Or.inl (congrArg Prod.fst hca).symm)
    · exact Or.inr (Or.inr (Or.inl (congrArg Prod.fst hca).symm))
    · simp at hca
    · have e : c.CADir = cfg.CADirURL := congrArg Prod.fst hca
      rw [← e]
      simp only [Bool.not_eq_true', Bool.not_eq_false, Bool.or_eq_true, Bool.not_eq_eq_eq_not,
        Bool.not_true, Bool.not_false] at h4
      cases h5 : HasPrefix c.CADir "http://"
      · cases h6 : HasPrefix c.CADir "https://"
        · rw [h5, h6] at h4
          simp at h4
        · exact Or.inr (Or.inr (Or.inr (Or.inr rfl)))
      · exact Or.inr (Or.inr (Or.inr (Or.inl rfl)))
  have hkey : cfg.CADirKeyType = certcrypto.RSA2048 ∨ cfg.CADirKeyType = certcrypto.RSA4096 ∨
      cfg.CADirKeyType = certcrypto.RSA8192 := by
    unfold RawUserConfig.getKeyType at hkt
    split_ifs at hkt
    · exact Or.inl (congrArg Prod.fst hkt).symm
    · exact Or.inr (Or.inl (congrArg Prod.fst hkt).symm)
    · exact Or.inr (Or.inr (congrArg Prod.fst hkt).symm)
    · simp at hkt
  refine ⟨hdom.1, hdom.2, hemail.1, hemail.2, htos, hcadir, hkey, ?_, ?_, htok.symm, herr⟩
  · intro hne
    unfold RawUserConfig.getFilename at hf
    rw [if_neg hne] at hf
    simp only [Option.some.injEq, Prod.mk.injEq, and_true] at hf
    exact ⟨hf.symm, by rw [← hf]; exact hne⟩
  · intro hempty
    unfold RawUserConfig.getFilename at hf
    rw [if_pos hempty] at hf
    cases hds : cfg.Domains with
    | nil => rw [hds] at hf; simp at hf
    | cons first rest =>
      rw [hds] at hf
      simp only at hf
      rcases hsan : sanitizeDomain libs first with ⟨name, _ | e⟩
      · rw [hsan] at hf
        simp only [Option.some.injEq, Prod.mk.injEq, and_true] at hf
        subst hf
        refine ⟨first, rest, rfl, hsan, fun hp hne => ?_, fun hz => ?_⟩
        · have e : sanitizeDomain libs first
              = (String.mk (first.data.map fun ch => if ch = '*' then '_' else ch), none) := by
            unfold sanitizeDomain idna.ToASCII
            rw [if_pos (idna.plain_replaceAll first hp)]
            rfl
          rw [e] at hsan
          have hn : cfg.Filename
              = String.mk (first.data.map fun ch => if ch = '*' then '_' else ch) :=
            (congrArg Prod.fst hsan).symm
          intro hz
          rw [hn] at hz
          have hdata := congrArg String.data hz
          simp only [String.data] at hdata
          apply hne
          apply String.ext
          cases hfd : first.data with
          | nil => rfl
          | cons a l => rw [hfd] at hdata; simp at hdata
        · subst hz
          have e : sanitizeDomain libs "" = ("", none) := rfl
          rw [e] at hsan
          exact (congrArg Prod.fst hsan).symm
      · rw [hsan] at hf
        simp at hf

theorem parse_all_or_nothing_witness :
    exampleResolved.Domains = strings.Split (exampleRaw "example.com").Domains ',' ∧
    exampleResolved.Email ≠ "" ∧
    exampleResolved.TermsOfServiceAgreed = true ∧
    exampleResolved.AuthToken
      = ((exampleRaw "example.com").getDNSAuthToken (TestStores "")).token :=
  ⟨(parse_all_or_nothing exampleLibs (exampleRaw "example.com") (TestStores "") emptyConfigSys
      ((exampleRaw "example.com").parse exampleLibs (TestStores "") emptyConfigSys).2
      exampleResolved (by rfl)).1,
   (parse_all_or_nothing exampleLibs (exampleRaw "example.com") (TestStores "") emptyConfigSys
      ((exampleRaw "example.com").parse exampleLibs (TestStores "") emptyConfigSys).2
      exampleResolved (by rfl)).2.2.2.1,
   (parse_all_or_nothing exampleLibs (exampleRaw "example.com") (TestStores "") emptyConfigSys
      ((exampleRaw "example.com").parse exampleLibs (TestStores "") emptyConfigSys).2
      exampleResolved (by rfl)).2.2.2.2.1,
   (parse_all_or_nothing exampleLibs (exampleRaw "example.com") (TestStores "") emptyConfigSys
      ((exampleRaw "example.com").parse exampleLibs (TestStores "") emptyConfigSys).2
      exampleResolved (by rfl)).2.2.2.2.2.2.2.2.2.1⟩

/-! ## Theorems: the web-serving fields -/

/-- When every step before the web-serving fields succeeds with the values of
`cfg`, the result of `parse` is decided by `getWebEnabled` alone. -/
theorem parse_of_steps (libs : Libs) (c : RawUserConfig) (storage : Stores) (s : ConfigSys)
    (cfg : UserConfig)
    (hd : c.getDomains = (cfg.Domains, none))
    (hf : c.getFilename libs cfg.Domains = some (cfg.Filename, none))
    (he : c.getAccountEmail = (cfg.Email, none))
    (ht : c.getTOSAgreement libs = (cfg.TermsOfServiceAgreed, none))
    (hk : (c.getAccountKey libs s).1 = .returned (cfg.Key, none))
    (hca : c.getCADir libs = (cfg.CADirURL, none))
    (hkt : c.getKeyType = (cfg.CADirKeyType, none))
    (hr : c.getDNSResolvers = (cfg.DNSResolvers, none))
    (htmo : c.getDNSTimeout libs = (cfg.DNSTimeout, none))
    (hcp : c.getDisableCPOption libs = (cfg.DisableCP, none))
    (ho : (c.getOutputDirectory libs (c.getAccountKey libs s).2).1 = (cfg.OutputDirectory, none))
    (htok : (c.getDNSAuthToken storage).token = cfg.AuthToken)
    (herr : (c.getDNSAuthToken storage).err = none) :
    c.parse libs storage s =
      match c.getWebEnabled libs with
      | (_, some err) =>
        (.returned ({ cfg with WebRoot := c.WebRoot, WebEnabled := false }, some err),
          { (c.getOutputDirectory libs (c.getAccountKey libs s).2).2 with
            calls := (c.getOutputDirectory libs (c.getAccountKey libs s).2).2.calls
              ++ (c.getDNSAuthToken storage).calls })
      | (webEnabled, none) =>
        (.returned ({ cfg with WebRoot := c.WebRoot, WebEnabled := webEnabled }, none),
          { (c.getOutputDirectory libs (c.getAccountKey libs s).2).2 with
            calls := (c.getOutputDirectory libs (c.getAccountKey libs s).2).2.calls
              ++ (c.getDNSAuthToken storage).calls }) := by
  unfold RawUserConfig.parse
  simp only [hd, hf, he, ht, hca, hkt, hr, htmo, hcp]
  generalize c.getAccountKey libs s = rk at hk ho ⊢
  obtain ⟨o, s1⟩ := rk
  simp only at hk ho
  subst hk
  simp only
  generalize c.getOutputDirectory libs s1 = ro at ho ⊢
  obtain ⟨d, s2⟩ := ro
  simp only at ho
  subst ho
  simp only
  generalize c.getDNSAuthToken storage = rt at htok herr ⊢
  obtain ⟨token, err, calls⟩ := rt
  simp only at htok herr
  subst htok herr
  simp only
  rcases c.getWebEnabled libs with ⟨b, _ | e⟩ <;> rfl

/-- The strings that `strconv.ParseBool` accepts. -/
theorem ParseBool_ok_iff (libs : Libs) (str : String) :
    (strconv.ParseBool libs str).2 = none ↔
      str ∈ ["1", "t", "T", "true", "TRUE", "True", "0", "f", "F", "false", "FALSE", "False"] := by
  unfold strconv.ParseBool
  split_ifs with h1 h2
  · simp only [List.mem_cons, true_iff]
    tauto
  · simp only [List.mem_cons, true_iff]
    tauto
  · simp only [List.mem_cons, List.mem_singleton, List.not_mem_nil, or_false]
    constructor
    · intro h
      simp at h
    · intro h
      exfalso
      tauto

/-- C22, as stated, fails: `exampleRaw "example.com"` resolves, and the same raw
configuration with `WEB_ENABLED = yes` does not: `parse` returns the error of
`strconv.ParseBool`. -/
theorem parse_web_enabled_validated :
    ((exampleRaw "example.com").parse exampleLibs (TestStores "") emptyConfigSys).1
      = .returned (exampleResolved, none) ∧
    (({ exampleRaw "example.com" with WebEnabled := "yes" }).parse exampleLibs (TestStores "")
      emptyConfigSys).1
      = .returned (exampleResolved,
          some "strconv.ParseBool: parsing \"yes\": invalid syntax") := by
  decide

/-- C22, amended: `WEB_ROOT` is passed through unvalidated: for a raw
configuration that resolves, `parse` succeeds whatever the `WebRoot` string is,
and gives the same configuration with that string as `WebRoot`. `WEB_ENABLED`
is validated as a boolean: with the other fields unchanged, `parse` succeeds
exactly when `strconv.ParseBool` accepts the string (one of `1`, `t`, `T`,
`true`, `TRUE`, `True`, `0`, `f`, `F`, `false`, `FALSE`, `False`), and returns
the error of `strconv.ParseBool` otherwise. -/
theorem parse_web_fields (libs : Libs) (c : RawUserConfig) (storage : Stores)
    (s s' : ConfigSys) (cfg : UserConfig)
    (h : c.parse libs storage s = (.returned (cfg, none), s')) :
    (∀ w, ({ c with WebRoot := w }).parse libs storage s
      = (.returned ({ cfg with WebRoot := w }, none), s')) ∧
    (∀ w b, strconv.ParseBool libs w = (b, none) →
      ({ c with WebEnabled := w }).parse libs storage s
        = (.returned ({ cfg with WebEnabled := b }, none), s')) ∧
    (∀ w b e, strconv.ParseBool libs w = (b, some e) →
      ({ c with WebEnabled := w }).parse libs storage s
        = (.returned ({ cfg with WebEnabled := false }, some e), s')) ∧
    (∀ w, (∃ cfg2 s2, ({ c with WebEnabled := w }).parse libs storage s
        = (.returned (cfg2, none), s2)) ↔
      w ∈ ["1", "t", "T", "true", "TRUE", "True", "0", "f", "F", "false", "FALSE", "False"]) := by
  obtain ⟨hd, hf, he, ht, hk, hca, hkt, hr, htmo, hcp, ho, htok, herr, hwr, hwe, hs⟩ :=
    parse_ok libs c storage s s' cfg h
  have hroot : ∀ w, ({ c with WebRoot := w }).parse libs storage s
      = (.returned ({ cfg with WebRoot := w }, none), s') := by
    intro w
    rw [parse_of_steps libs { c with WebRoot := w } storage s cfg hd hf he ht hk hca hkt hr htmo
      hcp ho htok herr]
    have e : ({ c with WebRoot := w }).getWebEnabled libs = (cfg.WebEnabled, none) := hwe
    rw [e, hs]
    rfl
  have hen : ∀ w, ({ c with WebEnabled := w }).parse libs storage s =
      match strconv.ParseBool libs w with
      | (_, some err) => (.returned ({ cfg with WebEnabled := false }, some err), s')
      | (b, none) => (.returned ({ cfg with WebEnabled := b }, none), s') := by
    intro w
    rw [parse_of_steps libs { c with WebEnabled := w } storage s cfg hd hf he ht hk hca hkt hr
      htmo hcp ho htok herr]
    have e : ({ c with WebEnabled := w }).getWebEnabled libs = strconv.ParseBool libs w := rfl
    rw [e, hs]
    rcases strconv.ParseBool libs w with ⟨b, _ | err⟩
    · simp only
      rw [hwr]
      rfl
    · simp only
      rw [hwr]
      rfl
  refine ⟨hroot, fun w b hb => ?_, fun w b e hb => ?_, fun w => ?_⟩
  · rw [hen w, hb]
  · rw [hen w, hb]
  · rw [← ParseBool_ok_iff libs w, hen w]
    rcases strconv.ParseBool libs w with ⟨b, _ | err⟩
    · simp
    · simp

theorem parse_web_fields_witness :
    ({ exampleRaw "example.com" with WebRoot := "/no/such/dir" }).parse exampleLibs
        (TestStores "") emptyConfigSys
      = (.returned ({ exampleResolved with WebRoot := "/no/such/dir" }, none),
          ((exampleRaw "example.com").parse exampleLibs (TestStores "") emptyConfigSys).2) ∧
    ({ exampleRaw "example.com" with WebEnabled := "T" }).parse exampleLibs
        (TestStores "") emptyConfigSys
      = (.returned ({ exampleResolved with WebEnabled := true }, none),
          ((exampleRaw "example.com").parse exampleLibs (TestStores "") emptyConfigSys).2) :=
  ⟨(parse_web_fields exampleLibs (exampleRaw "example.com") (TestStores "") emptyConfigSys
      ((exampleRaw "example.com").parse exampleLibs (TestStores "") emptyConfigSys).2
      exampleResolved (by rfl)).1 "/no/such/dir",
   (parse_web_fields exampleLibs (exampleRaw "example.com") (TestStores "") emptyConfigSys
      ((exampleRaw "example.com").parse exampleLibs (TestStores "") emptyConfigSys).2
      exampleResolved (by rfl)).2.1 "T" true (by decide)⟩

/-! ## Theorems: the account key -/

/-- C24: when no file exists at the key file path and the path is writable, the
first `getAccountKey` generates a key, returns it and creates the file with the
PEM encoding of the key; a second `getAccountKey`, on the state the first one
left, returns the same key and leaves the state as it is: no key is generated
and the file is not changed. The encoding is assumed to round-trip: decoding
the PEM block that was written gives back its type and bytes, and parsing the
bytes of the key gives back the key. -/
theorem getAccountKey_idempotent (libs : Libs) (c : RawUserConfig) (s : ConfigSys)
    (key : String)
    (habsent : s.fs.files c.AccountKeyFile = none)
    (hwritable : s.fs.denied c.AccountKeyFile = false)
    (hgen : libs.GenerateKey s.keys = (key, none))
    (hpem : libs.pemDecode (libs.pemEncode "EC PRIVATE KEY" key) = some ("EC PRIVATE KEY", key))
    (hparse : libs.ParseECPrivateKey key = (key, none)) :
    (c.getAccountKey libs s).1 = .returned (key, none) ∧
    (c.getAccountKey libs s).2.keys = s.keys + 1 ∧
    (c.getAccountKey libs s).2.fs.files c.AccountKeyFile
      = some ⟨libs.pemEncode "EC PRIVATE KEY" key, andNot 0o666 s.fs.umask⟩ ∧
    c.getAccountKey libs (c.getAccountKey libs s).2
      = (.returned (key, none), (c.getAccountKey libs s).2) := by
  have hfault : s.fs.fault c.AccountKeyFile = none := by
    unfold FileSystem.denied at hwritable
    rcases hf : s.fs.fault c.AccountKeyFile with _ | f
    · rfl
    · rw [hf] at hwritable
      simp at hwritable
  have hfirst : c.getAccountKey libs s = (.returned (key, none),
      { s with
        keys := s.keys + 1
        fs := s.fs.put c.AccountKeyFile (libs.pemEncode "EC PRIVATE KEY" key) 0o666 }) := by
    unfold RawUserConfig.getAccountKey
    simp [fileExists, habsent, hgen, hfault]
  have hfile : (s.fs.put c.AccountKeyFile (libs.pemEncode "EC PRIVATE KEY" key) 0o666).files
      c.AccountKeyFile
      = some ⟨libs.pemEncode "EC PRIVATE KEY" key, andNot 0o666 s.fs.umask⟩ := by
    simp [FileSystem.put, habsent]
  rw [hfirst]
  refine ⟨rfl, rfl, hfile, ?_⟩
  unfold RawUserConfig.getAccountKey
  simp [fileExists, os.ReadFile, hfile, hpem, hparse]

theorem getAccountKey_idempotent_witness :
    ((exampleRaw "example.com").getAccountKey exampleLibs emptyConfigSys).1
      = .returned ("k", none) ∧
    (exampleRaw "example.com").getAccountKey exampleLibs
        ((exampleRaw "example.com").getAccountKey exampleLibs emptyConfigSys).2
      = (.returned ("k", none),
          ((exampleRaw "example.com").getAccountKey exampleLibs emptyConfigSys).2) :=
  ⟨(getAccountKey_idempotent exampleLibs (exampleRaw "example.com") emptyConfigSys "k"
      rfl rfl rfl rfl rfl).1,
   (getAccountKey_idempotent exampleLibs (exampleRaw "example.com") emptyConfigSys "k"
      rfl rfl rfl rfl rfl).2.2.2⟩

/-- C25 at its failing input, and what holds of it: for an account key file that
exists, `getAccountKey` generates no key and leaves the file and the rest of
the state as they are, and a PEM block whose type is neither `RSA PRIVATE KEY`
nor `EC PRIVATE KEY` gives the error `unknown private key type`; but content in
which `pem.Decode` finds no block at all, such as an empty file, gives no error:
the nil block is dereferenced and the call panics. -/
theorem getAccountKey_existing_file (libs : Libs) (c : RawUserConfig) (s : ConfigSys)
    (f : File) (hfile : s.fs.files c.AccountKeyFile = some f) :
    (c.getAccountKey libs s).2 = s ∧
    (∀ type bytes, libs.pemDecode f.data = some (type, bytes) →
      type ≠ "RSA PRIVATE KEY" → type ≠ "EC PRIVATE KEY" →
      (c.getAccountKey libs s).1 = .returned ("", some "unknown private key type")) ∧
    (libs.pemDecode f.data = none →
      (c.getAccountKey libs s).1
        = .panicked "runtime error: invalid memory address or nil pointer dereference") := by
  unfold RawUserConfig.getAccountKey
  simp only [fileExists, hfile, Option.isSome_some, if_true, os.ReadFile]
  refine ⟨?_, fun type bytes hdec h1 h2 => ?_, fun hdec => ?_⟩
  · repeat' split
    all_goals rfl
  · rw [hdec]
    simp only [if_neg h1, if_neg h2]
  · rw [hdec]

theorem getAccountKey_existing_file_witness :
    ((exampleRaw "example.com").getAccountKey exampleLibs blankKeySys).2 = blankKeySys ∧
    ((exampleRaw "example.com").getAccountKey exampleLibs blankKeySys).1
      = .panicked "runtime error: invalid memory address or nil pointer dereference" :=
  ⟨(getAccountKey_existing_file exampleLibs (exampleRaw "example.com") blankKeySys
      ⟨"", 0o644⟩ rfl).1,
   (getAccountKey_existing_file exampleLibs (exampleRaw "example.com") blankKeySys
      ⟨"", 0o644⟩ rfl).2.2 rfl⟩

/-! ## Lemmas on the conversion of decimals to `float32` -/

namespace strconv

/-- The exponent of a whole quotient. -/
theorem floorLog2_mul (n q : Nat) (hn : 0 < n) (hq : 0 < q) :
    floorLog2 (n * q) q = (log2 n : Int) := by
  obtain ⟨ha1, ha2⟩ := log2_spec (n * q) (Nat.mul_pos hn hq)
  obtain ⟨hb1, hb2⟩ := log2_spec q hq
  obtain ⟨hc1, hc2⟩ := log2_spec n hn
  generalize ha : log2 (n * q) = a at ha1 ha2
  generalize hb : log2 q = b at hb1 hb2
  generalize hc : log2 n = c at hc1 hc2
  have h1 : b + c < a + 1 := by
    have : 2 ^ (b + c) < 2 ^ (a + 1) := by
      calc 2 ^ (b + c) = 2 ^ c * 2 ^ b := by rw [pow_add]; ring
        _ ≤ n * q := Nat.mul_le_mul hc1 hb1
        _ < 2 ^ (a + 1) := ha2
    exact (Nat.pow_lt_pow_iff_right (by norm_num)).1 this
  have h2 : a < b + c + 2 := by
    have : 2 ^ a < 2 ^ (b + c + 2) := by
      calc 2 ^ a ≤ n * q := ha1
        _ < 2 ^ (c + 1) * 2 ^ (b + 1) := Nat.mul_lt_mul'' hc2 hb2
        _ = 2 ^ (b + c + 2) := by rw [← pow_add]; congr 1; omega
    exact (Nat.pow_lt_pow_iff_right (by norm_num)).1 this
  unfold floorLog2
  rw [ha, hb]
  simp only
  have hcase : a = b + c ∨ a = b + c + 1 := by omega
  rcases hcase with rfl | rfl
  · have e0 : ((b + c : Nat) : Int) - (b : Int) = (c : Int) := by push_cast; ring
    rw [e0]
    have ht : (c : Int).toNat = c := Int.toNat_natCast c
    have hm : (-(c : Int)).toNat = 0 := by omega
    rw [ht, hm, if_pos]
    rw [pow_zero, Nat.mul_one, Nat.mul_comm]
    exact Nat.mul_le_mul_right q hc1
  · have e0 : ((b + c + 1 : Nat) : Int) - (b : Int) = ((c + 1 : Nat) : Int) := by
      push_cast; ring
    rw [e0]
    have ht : ((c + 1 : Nat) : Int).toNat = c + 1 := Int.toNat_natCast (c + 1)
    have hm : (-((c + 1 : Nat) : Int)).toNat = 0 := by omega
    rw [ht, hm, if_neg]
    · push_cast; ring
    · rw [pow_zero, Nat.mul_one, Nat.mul_comm, not_le]
      exact Nat.mul_lt_mul_of_pos_right hc2 hq

/-- Rounding a whole quotient changes nothing. -/
theorem roundQuot_mul (m den : Nat) (hden : 0 < den) : roundQuot (m * den) den = m := by
  unfold roundQuot
  rw [Nat.mul_mod_left, Nat.mul_div_cancel m hden, if_pos (by omega)]

/-- A whole number up to `2 ^ 24` is a `float32`: the conversion of `n * q / q`
is exact. -/
theorem roundFloat32_whole (n q : Nat) (hq : 0 < q) (hn : n ≤ 2 ^ 24) :
    ∃ f, roundFloat32 false (n * q) q = (f, false) ∧ f.trunc = some (n : Int) := by
  by_cases h0 : n = 0
  · subst h0
    refine ⟨.finite false 0 0, ?_, ?_⟩
    · simp [roundFloat32]
    · simp [Float64.trunc]
  have hpos : 0 < n := Nat.pos_of_ne_zero h0
  obtain ⟨hc1, hc2⟩ := log2_spec n hpos
  have hfl := floorLog2_mul n q hpos hq
  have hc : log2 n ≤ 24 := by
    by_contra hgt
    push_neg at hgt
    have : 2 ^ 25 ≤ 2 ^ log2 n := Nat.pow_le_pow_right (by norm_num) hgt
    omega
  have hp : n * q ≠ 0 := Nat.mul_ne_zero h0 (by omega)
  unfold roundFloat32
  rw [if_neg hp, hfl]
  generalize log2 n = c at hc1 hc2 hc
  by_cases h23 : c ≤ 23
  · have hx : max ((c : Int) - 23) (-149) = (c : Int) - 23 := by omega
    simp only [hx]
    have hneg : (-((c : Int) - 23)).toNat = 23 - c := by omega
    have hnn : ((c : Int) - 23).toNat = 0 := by omega
    rw [hneg, hnn]
    simp only [pow_zero, Nat.mul_one]
    have hr : roundQuot (n * q * 2 ^ (23 - c)) q = n * 2 ^ (23 - c) := by
      have : n * q * 2 ^ (23 - c) = n * 2 ^ (23 - c) * q := by ring
      rw [this, roundQuot_mul _ q hq]
    rw [hr]
    have hsmall : n * 2 ^ (23 - c) < 2 ^ 128 := by
      have h1 : 2 ^ (23 - c) ≤ 2 ^ 23 := Nat.pow_le_pow_right (by norm_num) (by omega)
      have h2 : n * 2 ^ (23 - c) ≤ 2 ^ 24 * 2 ^ 23 := Nat.mul_le_mul hn h1
      have h3 : (2 : Nat) ^ 24 * 2 ^ 23 < 2 ^ 128 := by norm_num
      omega
    rw [if_neg (by intro h; omega)]
    refine ⟨_, rfl, ?_⟩
    unfold Float64.trunc
    simp only [Bool.false_eq_true, if_false]
    by_cases hz : (0 : Int) ≤ (c : Int) - 23
    · have hc23 : c = 23 := by omega
      subst hc23
      simp
    · rw [if_neg hz, hneg, Nat.mul_div_cancel _ (by positivity)]
  · have hc24 : c = 24 := by omega
    subst hc24
    have hn24 : n = 2 ^ 24 := by omega
    subst hn24
    have hx : max (((24 : Nat) : Int) - 23) (-149) = 1 := by norm_num
    simp only [hx]
    have hneg : (-(1 : Int)).toNat = 0 := by decide
    have hnn : (1 : Int).toNat = 1 := by decide
    rw [hneg, hnn]
    simp only [pow_zero, Nat.mul_one, pow_one]
    have hr : roundQuot (2 ^ 24 * q) (q * 2) = 2 ^ 23 := by
      have : 2 ^ 24 * q = 2 ^ 23 * (q * 2) := by ring
      rw [this, roundQuot_mul _ (q * 2) (by omega)]
    rw [hr, if_neg (by norm_num)]
    refine ⟨_, rfl, ?_⟩
    unfold Float64.trunc
    simp

end strconv
namespace strconv

/-- The character of a digit. -/
theorem digit_toNat (d : Nat) (h : d < 10) : (Char.ofNat (48 + d)).toNat = 48 + d := by
  interval_cases d <;> rfl

/-- Reading the digits of a numeral. -/
theorem readDigits_numeral (ds : List Nat) (hds : ∀ d ∈ ds, d < 10) (rest : List Char)
    (acc cnt : Nat) :
    readDigits (numeral ds ++ rest) acc cnt
      = readDigits rest (ds.foldl (fun a d => a * 10 + d) acc) (cnt + ds.length) := by
  induction ds generalizing acc cnt with
  | nil => rfl
  | cons d ds ih =>
    have hd := digit_toNat d (hds d (List.mem_cons_self d ds))
    have e : numeral (d :: ds) ++ rest = Char.ofNat (48 + d) :: (numeral ds ++ rest) := rfl
    rw [e, readDigits, hd, if_pos (by have := hds d (List.mem_cons_self d ds); omega),
      ih (fun x hx => hds x (List.mem_cons_of_mem d hx))]
    simp only [List.foldl_cons, List.length_cons, Nat.add_sub_cancel_left]
    congr 1
    omega

/-- Reading zeros. -/
theorem readDigits_zeros (k acc cnt : Nat) :
    readDigits (List.replicate k '0') acc cnt = (acc * 10 ^ k, cnt + k, []) := by
  induction k generalizing acc cnt with
  | zero => simp [readDigits]
  | succ k ih =>
    rw [List.replicate_succ, readDigits, if_pos (by decide), ih]
    have : ('0' : Char).toNat - 48 = 0 := by decide
    rw [this]
    simp only [Nat.add_zero, Prod.mk.injEq, and_true]
    constructor
    · rw [pow_succ]; ring
    · omega

/-- A numeral is read as its value. -/
theorem parseDecimal_numeral (ds : List Nat) (hne : ds ≠ []) (hds : ∀ d ∈ ds, d < 10) :
    parseDecimal (numeral ds) = some ⟨false, numeralValue ds, 0⟩ := by
  obtain ⟨d, ds2, rfl⟩ := List.exists_cons_of_ne_nil hne
  have hd := digit_toNat d (hds d (List.mem_cons_self d ds2))
  have hread := readDigits_numeral (d :: ds2) hds [] 0 0
  rw [List.append_nil] at hread
  have hplus : Char.ofNat (48 + d) ≠ '+' := by
    intro h
    rw [h] at hd
    have : ('+' : Char).toNat = 43 := by decide
    omega
  have hminus : Char.ofNat (48 + d) ≠ '-' := by
    intro h
    rw [h] at hd
    have : ('-' : Char).toNat = 45 := by decide
    omega
  unfold parseDecimal
  have e : numeral (d :: ds2) = Char.ofNat (48 + d) :: numeral ds2 := rfl
  split
  · next r heq => rw [e] at heq; exact absurd (List.cons.inj heq).1 hplus
  · next r heq => rw [e] at heq; exact absurd (List.cons.inj heq).1 hminus
  · simp only [hread]
    simp [readDigits, numeralValue]

/-- A numeral followed by a point and zeros is read as its value, scaled. -/
theorem parseDecimal_numeral_zeros (ds : List Nat) (hne : ds ≠ []) (hds : ∀ d ∈ ds, d < 10)
    (k : Nat) :
    parseDecimal (numeral ds ++ '.' :: List.replicate k '0')
      = some ⟨false, numeralValue ds * 10 ^ k, k⟩ := by
  obtain ⟨d, ds2, rfl⟩ := List.exists_cons_of_ne_nil hne
  have hd := digit_toNat d (hds d (List.mem_cons_self d ds2))
  have hread := readDigits_numeral (d :: ds2) hds ('.' :: List.replicate k '0') 0 0
  have hplus : Char.ofNat (48 + d) ≠ '+' := by
    intro h
    rw [h] at hd
    have : ('+' : Char).toNat = 43 := by decide
    omega
  have hminus : Char.ofNat (48 + d) ≠ '-' := by
    intro h
    rw [h] at hd
    have : ('-' : Char).toNat = 45 := by decide
    omega
  have hpoint : ∀ acc cnt r, readDigits ('.' :: r) acc cnt = (acc, cnt, '.' :: r) := by
    intro acc cnt r
    rw [readDigits, if_neg (by decide)]
  unfold parseDecimal
  have e : numeral (d :: ds2) ++ '.' :: List.replicate k '0'
      = Char.ofNat (48 + d) :: (numeral ds2 ++ '.' :: List.replicate k '0') := rfl
  split
  · next r heq => rw [e] at heq; exact absurd (List.cons.inj heq).1 hplus
  · next r heq => rw [e] at heq; exact absurd (List.cons.inj heq).1 hminus
  · simp only [hread, hpoint, readDigits_zeros]
    simp [numeralValue]

end strconv

/-- What `getDNSTimeout` returns when the string parses to a value whose
whole part fits in seconds. -/
theorem getDNSTimeout_of_trunc (libs : Libs) (c : RawUserConfig) (f : Float64) (v : Int)
    (hp : strconv.ParseFloat32 libs c.DNSTimeout = (f, none)) (hv : f.trunc = some v)
    (h1 : -(2 ^ 63) ≤ v * 1000000000) (h2 : v * 1000000000 < 2 ^ 63) :
    c.getDNSTimeout libs = (v * time.Second, none) := by
  have hsec : time.Second = 1000000000 := rfl
  unfold RawUserConfig.getDNSTimeout
  rw [hp]
  simp only
  have hin : -(2 ^ 63) ≤ v ∧ v < 2 ^ 63 := by constructor <;> omega
  have hto : toInt64 libs f = v := by
    unfold toInt64
    rw [hv]
    simp only
    rw [if_pos hin]
  rw [hto, hsec, wrapInt64_of_fits _ h1 h2]

/-! ## Theorems: the DNS timeout in whole seconds -/

/-- C28, as stated, fails: the string is parsed with the precision of a
`float32`. The whole number `16777217` gives 16777216 seconds, one second less,
and the fractional value `0.99999999` is rounded to 1 before its fraction is
discarded: it gives one second, not a zero duration. -/
theorem getDNSTimeout_float32_rounding :
    ({ exampleRaw "example.com" with DNSTimeout := "16777217" }).getDNSTimeout exampleLibs
      = (16777216 * time.Second, none) ∧
    ({ exampleRaw "example.com" with DNSTimeout := "0.99999999" }).getDNSTimeout exampleLibs
      = (1 * time.Second, none) := by
  decide

/-- C28, amended: for every whole number `n` from 0 to 16777216 (`2 ^ 24`)
written in decimal, with or without a point followed by zeros, `getDNSTimeout`
returns exactly `n` seconds, without error. A plain decimal is first rounded to
the nearest `float32`, and the fraction of that value is then discarded: when
the whole part `v` of the rounded value fits in seconds, the result is `v`
seconds. -/
theorem getDNSTimeout_whole_seconds (libs : Libs) (c : RawUserConfig) :
    (∀ (ds : List Nat) (k : Nat), ds ≠ [] → (∀ d ∈ ds, d < 10) → numeralValue ds ≤ 2 ^ 24 →
      (c.DNSTimeout.data = numeral ds ∨
        c.DNSTimeout.data = numeral ds ++ '.' :: List.replicate k '0') →
      c.getDNSTimeout libs = ((numeralValue ds : Int) * time.Second, none)) ∧
    (∀ (d : strconv.Decimal) (f : Float64) (v : Int),
      strconv.parseDecimal c.DNSTimeout.data = some d →
      strconv.roundFloat32 d.neg d.digits (10 ^ d.scale) = (f, false) →
      f.trunc = some v → -(2 ^ 63) ≤ v * 1000000000 → v * 1000000000 < 2 ^ 63 →
      c.getDNSTimeout libs = (v * time.Second, none)) := by
  have hdef : ∀ (d : strconv.Decimal) (f : Float64) (v : Int),
      strconv.parseDecimal c.DNSTimeout.data = some d →
      strconv.roundFloat32 d.neg d.digits (10 ^ d.scale) = (f, false) →
      f.trunc = some v → -(2 ^ 63) ≤ v * 1000000000 → v * 1000000000 < 2 ^ 63 →
      c.getDNSTimeout libs = (v * time.Second, none) := by
    intro d f v hd hf hv h1 h2
    have hp : strconv.ParseFloat32 libs c.DNSTimeout = (f, none) := by
      unfold strconv.ParseFloat32
      rw [hd]
      simp only [hf]
    exact getDNSTimeout_of_trunc libs c f v hp hv h1 h2
  refine ⟨fun ds k hne hds hn hs => ?_, hdef⟩
  have hbound : (numeralValue ds : Int) ≤ 2 ^ 24 := by exact_mod_cast hn
  have hnonneg : (0 : Int) ≤ (numeralValue ds : Int) := Int.natCast_nonneg _
  rcases hs with hs | hs
  · obtain ⟨f, hf, hv⟩ := strconv.roundFloat32_whole (numeralValue ds) 1 (by norm_num) hn
    have hd := strconv.parseDecimal_numeral ds hne hds
    rw [← hs] at hd
    refine hdef ⟨false, numeralValue ds, 0⟩ f _ hd ?_ hv (by omega) (by omega)
    simp only [pow_zero]
    rw [Nat.mul_one] at hf
    exact hf
  · obtain ⟨f, hf, hv⟩ :=
      strconv.roundFloat32_whole (numeralValue ds) (10 ^ k) (by positivity) hn
    have hd := strconv.parseDecimal_numeral_zeros ds hne hds k
    rw [← hs] at hd
    exact hdef ⟨false, numeralValue ds * 10 ^ k, k⟩ f _ hd hf hv (by omega) (by omega)

theorem getDNSTimeout_whole_seconds_witness :
    ({ exampleRaw "example.com" with DNSTimeout := "12" }).getDNSTimeout exampleLibs
      = (12 * time.Second, none) ∧
    ({ exampleRaw "example.com" with DNSTimeout := "12.000000" }).getDNSTimeout exampleLibs
      = (12 * time.Second, none) ∧
    ({ exampleRaw "example.com" with DNSTimeout := "1.9" }).getDNSTimeout exampleLibs
      = (1 * time.Second, none) ∧
    ({ exampleRaw "example.com" with DNSTimeout := "0.9" }).getDNSTimeout exampleLibs
      = (0 * time.Second, none) :=
  ⟨(getDNSTimeout_whole_seconds exampleLibs
      { exampleRaw "example.com" with DNSTimeout := "12" }).1 [1, 2] 0 (by decide) (by decide)
      (by decide) (Or.inl (by decide)),
   (getDNSTimeout_whole_seconds exampleLibs
      { exampleRaw "example.com" with DNSTimeout := "12.000000" }).1 [1, 2] 6 (by decide)
      (by decide) (by decide) (Or.inr (by decide)),
   (getDNSTimeout_whole_seconds exampleLibs
      { exampleRaw "example.com" with DNSTimeout := "1.9" }).2 ⟨false, 19, 1⟩
      (.finite false 15938355 (-23)) 1 (by decide) (by decide) (by decide) (by decide)
      (by decide),
   (getDNSTimeout_whole_seconds exampleLibs
      { exampleRaw "example.com" with DNSTimeout := "0.9" }).2 ⟨false, 9, 1⟩
      (.finite false 15099494 (-24)) 0 (by decide) (by decide) (by decide) (by decide)
      (by decide)⟩

end LetsgoNats
